import Mathlib

/-!
# Domain Services driver (`arch/sparc64/kernel/ds.c`)

A shallow embedding of the driver and the properties proved about it.

Conventions of the embedding.

* C globals (`ds_states`, `ds_info->hs_state`, `dr_cpu_work_list`,
  `ds_var_doorbell`, `ds_var_response`) are the fields of `DsState`, which is
  passed explicitly.  A `struct ds_cap_state *` is an index into `ds_states`;
  `NULL` is `none`.
* Everything outside the file (`ldc_write`, `sched_clock`, `kzalloc`, `cpu_up`,
  `cpu_present`, `cpu_down`, ...) is an oracle in `Env`.  Each oracle sees the
  whole history of external calls made so far (`DsState.trace`), so its answer
  may depend on anything that happened before.  Every external call is
  appended to the trace as an `Event`.
* Machine integers are `Nat`/`Int` with explicit truncation where the C code
  truncates.
* `printk` and the spin lock / mutex calls are not modelled: they change none
  of the modelled variables.
-/

namespace Ds

/-! ## Constants of the wire protocol -/

def DS_INIT_REQ : Nat := 0x00
def DS_INIT_ACK : Nat := 0x01
def DS_INIT_NACK : Nat := 0x02
def DS_REG_REQ : Nat := 0x03
def DS_REG_ACK : Nat := 0x04
def DS_REG_NACK : Nat := 0x05
def DS_UNREG_REQ : Nat := 0x06
def DS_UNREG_ACK : Nat := 0x07
def DS_UNREG_NACK : Nat := 0x08
def DS_DATA : Nat := 0x09
def DS_NACK : Nat := 0x0a

def DS_OK : Nat := 0x00
def DS_REG_VER_NACK : Nat := 0x01
def DS_REG_DUP : Nat := 0x02
def DS_INV_HDL : Nat := 0x03
def DS_TYPE_UNKNOWN : Nat := 0x04

def CAP_STATE_UNKNOWN : Nat := 0x00
def CAP_STATE_REG_SENT : Nat := 0x01
def CAP_STATE_REGISTERED : Nat := 0x02

def DS_HS_START : Nat := 0x01
def DS_HS_DONE : Nat := 0x02

def DR_CPU_CONFIGURE : Nat := 0x43
def DR_CPU_UNCONFIGURE : Nat := 0x55
def DR_CPU_FORCE_UNCONFIGURE : Nat := 0x46
def DR_CPU_STATUS : Nat := 0x53
def DR_CPU_OK : Nat := 0x6f
def DR_CPU_ERROR : Nat := 0x65

def DR_CPU_RES_OK : Nat := 0x00
def DR_CPU_RES_FAILURE : Nat := 0x01
def DR_CPU_RES_BLOCKED : Nat := 0x02
def DR_CPU_RES_CPU_NOT_RESPONDING : Nat := 0x03
def DR_CPU_RES_NOT_IN_MD : Nat := 0x04

def DR_CPU_STAT_NOT_PRESENT : Nat := 0x00
def DR_CPU_STAT_UNCONFIGURED : Nat := 0x01
def DR_CPU_STAT_CONFIGURED : Nat := 0x02

def DS_VAR_SET_REQ : Nat := 0x00
def DS_VAR_DELETE_REQ : Nat := 0x01
def DS_VAR_SET_RESP : Nat := 0x02
def DS_VAR_DELETE_RESP : Nat := 0x03

def DS_VAR_SUCCESS : Nat := 0x00

def CPU_SENTINEL : Nat := 0xffffffff

/-- Modelled from the spec: the errno value behind the transient "channel busy"
result of a transport write (`EAGAIN` of `asm/errno.h`, which is not part of
the sources at hand). -/
def EAGAIN : Int := 11

/-- Modelled from the spec: the errno value of an allocation failure (`ENOMEM`
of `asm/errno.h`). -/
def ENOMEM : Int := 12

/-- Modelled from the spec: the errno value with which bring-up reports "device
not responding" (`ENODEV` of `asm/errno.h`). -/
def ENODEV : Int := 19

/-- Modelled from the spec: the errno value `EINVAL` of `asm/errno.h`, the
initial value of `err` in `ds_send`. -/
def EINVAL : Int := 22

/-- Modelled from the spec: the errno value of a connection reset (`ECONNRESET`
of `asm/errno.h`, 54 on sparc64). -/
def ECONNRESET : Int := 54

/-- Modelled from the spec: the channel-up liveness event (`LDC_EVENT_UP` of
`asm/ldc.h`). -/
def LDC_EVENT_UP : Int := 0x02

/-- Modelled from the spec: the data-ready liveness event
(`LDC_EVENT_DATA_READY` of `asm/ldc.h`). -/
def LDC_EVENT_DATA_READY : Int := 0x04

/-! ## Sizes of the C structs (sparc64 ABI) -/

def sizeof_ds_msg_tag : Nat := 8
def sizeof_ds_ver_req : Nat := 12
def sizeof_ds_reg_req : Nat := 24
def sizeof_ds_data : Nat := 16
def sizeof_ds_data_nack : Nat := 24
def sizeof_dr_cpu_tag : Nat := 16
def sizeof_dr_cpu_resp_entry : Nat := 16
def sizeof_ds_md_update_res : Nat := 16
def sizeof_ds_shutdown_res : Nat := 16
def sizeof_ds_panic_res : Nat := 16
def sizeof_ds_var_set_msg : Nat := 4

/-! ## Data model -/

/-- The `struct ds_msg_tag` header. -/
structure ds_msg_tag where
  type : Nat
  len : Nat
deriving DecidableEq, Repr

/-- The `struct ds_data` header (the function `ds_data` keeps the plain name). -/
structure struct_ds_data where
  tag : ds_msg_tag
  handle : Nat
deriving DecidableEq, Repr

/-- The `struct dr_cpu_tag`. -/
structure dr_cpu_tag where
  req_num : Nat
  type : Nat
  num_records : Nat
deriving DecidableEq, Repr

/-- The `struct dr_cpu_resp_entry`. -/
structure dr_cpu_resp_entry where
  cpu : Nat
  result : Nat
  stat : Nat
  str_off : Nat
deriving DecidableEq, Repr

/-- The response buffer of `dr_cpu_configure` / `dr_cpu_unconfigure` and the
packet of `__dr_cpu_send_error`: a `struct ds_data`, a `struct dr_cpu_tag` and
the `struct dr_cpu_resp_entry` array behind them. -/
structure dr_cpu_resp where
  data : struct_ds_data
  tag : dr_cpu_tag
  ent : List dr_cpu_resp_entry
deriving DecidableEq, Repr

/-- Every packet the driver hands to `ds_send`, one constructor per C type of
the buffer. -/
inductive Msg where
  | ver_req (tag : ds_msg_tag) (major minor : Nat)
  | reg_req (tag : ds_msg_tag) (handle major minor : Nat) (svc_id : String)
  | data_nack (tag : ds_msg_tag) (handle result : Nat)
  | md_update_res (data : struct_ds_data) (req_num result : Nat)
  | shutdown_res (data : struct_ds_data) (req_num result reason : Nat)
  | panic_res (data : struct_ds_data) (req_num result reason : Nat)
  | dr_cpu (resp : dr_cpu_resp)
  | var_set (data : struct_ds_data) (hdr_type : Nat) (name_and_value : List Nat)
deriving DecidableEq, Repr

/-- The receive buffer as the driver's casts see it: the tag, the 64-bit
`handle` right behind it (`struct ds_reg_ack`, `struct ds_reg_nack`,
`struct ds_data`) and the 32-bit words that follow the handle. -/
structure Pkt where
  tag : ds_msg_tag
  handle : Nat
  body : List Nat
deriving DecidableEq, Repr

/-- The `data` callback of a capability (the function pointer of
`struct ds_cap_state`). -/
inductive Handler where
  | md_update_data
  | domain_shutdown_data
  | domain_panic_data
  | dr_cpu_data
  | ds_pri_data
  | ds_var_data
deriving DecidableEq, Repr

/-- The `struct ds_cap_state`. -/
structure ds_cap_state where
  handle : Nat
  data : Handler
  service_id : String
  state : Nat
deriving DecidableEq, Repr

/-- A call that leaves the file, with what it returned.  `ds_send` and
`data_handler` are markers: the first closes one call of `ds_send` (with the
value it returns), the second records that `ds_data` invoked the `data`
callback of the capability at that index. -/
inductive Event where
  | ldc_write (data : Msg) (len : Nat) (ret : Int)
  | udelay (usecs : Nat)
  | ds_send (data : Msg) (len : Nat) (err : Int)
  | sched_clock (ret : Nat)
  | kzalloc (size : Nat) (ok : Bool)
  | kmalloc (size : Nat) (ok : Bool)
  | mdesc_update
  | wake_up_powerd
  | panic
  | mdesc_fill_in_cpu_data (mask : List Bool)
  | cpu_up (cpu : Nat) (ret : Int)
  | cpu_present (cpu : Nat) (ret : Bool)
  | cpu_down (cpu : Nat) (ret : Int)
  | fixup_irqs
  | wake_up_dr_cpu_wait
  | data_handler (index : Nat)
deriving DecidableEq, Repr

/-- What the two `ldc_read` calls of one iteration of the receive loop deliver:
the result of the header read, the buffer contents, and the result of the
payload read. -/
structure Rx where
  hdr_ret : Int
  pkt : Pkt
  body_ret : Int
deriving DecidableEq, Repr

/-- The world outside `ds.c`.  Every oracle receives the trace of the calls
made so far.  `irq` gives the channel events that interrupt the busy wait of
`ldom_set_var` at one point: each is an `event` argument of `ds_event` with
what the channel then holds. -/
structure Env where
  NR_CPUS : Nat
  irq : List Event → List (Int × List Rx)
  ldc_write : List Event → Msg → Nat → Int
  sched_clock : List Event → Nat
  kzalloc : List Event → Nat → Bool
  kmalloc : List Event → Nat → Bool
  cpu_up : List Event → Nat → Int
  cpu_present : List Event → Nat → Bool
  cpu_down : List Event → Nat → Int

/-- The mutable globals of the driver, and the trace of external calls. -/
structure DsState where
  ds_states : List ds_cap_state
  hs_state : Nat
  dr_cpu_work_list : List Pkt
  ds_var_doorbell : Int
  ds_var_response : Int
  trace : List Event
deriving DecidableEq, Repr

/-- The static initialiser of `ds_states[]` (with `CONFIG_HOTPLUG_CPU`). -/
def ds_states_init : List ds_cap_state :=
  [ { handle := 0, data := Handler.md_update_data, service_id := "md-update", state := 0 },
    { handle := 0, data := Handler.domain_shutdown_data, service_id := "domain-shutdown",
      state := 0 },
    { handle := 0, data := Handler.domain_panic_data, service_id := "domain-panic", state := 0 },
    { handle := 0, data := Handler.dr_cpu_data, service_id := "dr-cpu", state := 0 },
    { handle := 0, data := Handler.ds_pri_data, service_id := "pri", state := 0 },
    { handle := 0, data := Handler.ds_var_data, service_id := "var-config", state := 0 },
    { handle := 0, data := Handler.ds_var_data, service_id := "var-config-backup", state := 0 } ]

/-- Append one external call to the trace. -/
def DsState.log (s : DsState) (e : Event) : DsState :=
  { s with trace := s.trace ++ [e] }

/-- The assignment `ds_states[i].state = st`. -/
def DsState.set_cap_state (s : DsState) (i st : Nat) : DsState :=
  { s with ds_states := s.ds_states.modify (fun c => { c with state := st }) i }

/-- The assignment `ds_states[i].handle = h`. -/
def DsState.set_cap_handle (s : DsState) (i h : Nat) : DsState :=
  { s with ds_states := s.ds_states.modify (fun c => { c with handle := h }) i }

/-! ## Registry lookups -/

/-- `find_cap`: `index = handle >> 32` truncated to `unsigned int`; `NULL`
when `index >= ARRAY_SIZE(ds_states)`, else `&ds_states[index]`. -/
def find_cap (ds_states : List ds_cap_state) (handle : Nat) : Option Nat :=
  let index := (handle >>> 32) % 2 ^ 32
  if index ≥ ds_states.length then none else some index

/-- The loop of `find_cap_by_string` from index `i` on. -/
def find_cap_by_string_from (name : String) : List ds_cap_state → Nat → Option Nat
  | [], _ => none
  | c :: cs, i => if c.service_id ≠ name then find_cap_by_string_from name cs (i + 1) else some i

/-- `find_cap_by_string`: the first capability whose `service_id` is `name`. -/
def find_cap_by_string (ds_states : List ds_cap_state) (name : String) : Option Nat :=
  find_cap_by_string_from name ds_states 0

/-! ## Sending -/

/-- The `while (limit-- > 0)` loop of `ds_send`; the arguments are the
remaining `limit`, the current `err` and the trace. -/
def ds_send_loop (env : Env) (data : Msg) (len : Nat) : Nat → Int → List Event → Int × List Event
  | 0, err, t => (err, t)
  | limit + 1, _, t =>
    let err := env.ldc_write t data len
    let t := t ++ [Event.ldc_write data len err]
    if err = 0 ∨ err ≠ -EAGAIN then (err, t)
    else ds_send_loop env data len limit err (t ++ [Event.udelay 1])

/-- `ds_send`: at most 1000 `ldc_write` attempts, returns the last `err`. -/
def ds_send (env : Env) (s : DsState) (data : Msg) (len : Nat) : Int × DsState :=
  let r := ds_send_loop env data len 1000 (-EINVAL) s.trace
  (r.1, { s with trace := r.2 ++ [Event.ds_send data len r.1] })

/-! ## Handshake and registration -/

/-- `ds_conn_reset`: only a `printk`. -/
def ds_conn_reset (s : DsState) : DsState := s

/-- The packet `pbuf` that `register_services` fills for the capability `cp`
once its fresh handle is `handle`: `msg_len` is `sizeof(struct ds_reg_req)` plus
`strlen(cp->service_id)`. -/
def reg_req_of (cp : ds_cap_state) (handle : Nat) : Msg :=
  Msg.reg_req
    { type := DS_REG_REQ,
      len := sizeof_ds_reg_req + cp.service_id.utf8ByteSize - sizeof_ds_msg_tag }
    handle 1 0 cp.service_id

/-- The body of the `for` loop of `register_services` for index `i`. -/
def register_service (env : Env) (s : DsState) (i : Nat) : DsState :=
  match s.ds_states[i]? with
  | none => s
  | some cp =>
    if cp.state = CAP_STATE_REGISTERED then s
    else
      let clk := env.sched_clock s.trace
      let s := s.log (Event.sched_clock clk)
      let new_count := (clk % 2 ^ 64) &&& 0xffffffff
      let handle := (((i % 2 ^ 64) <<< 32) % 2 ^ 64) ||| new_count
      let s := s.set_cap_handle i handle
      let msg_len := sizeof_ds_reg_req + cp.service_id.utf8ByteSize
      let r := ds_send env s (reg_req_of cp handle) msg_len
      if r.1 > 0 then r.2.set_cap_state i CAP_STATE_REG_SENT else r.2

/-- `register_services`: the loop over `i = 0 .. ARRAY_SIZE(ds_states) - 1`;
returns 0. -/
def register_services (env : Env) (s : DsState) : Int × DsState :=
  (0, (List.range s.ds_states.length).foldl (register_service env) s)

/-- `ds_handshake`. -/
def ds_handshake (env : Env) (s : DsState) (pkt : Pkt) : Int × DsState :=
  if s.hs_state = DS_HS_START then
    if pkt.tag.type ≠ DS_INIT_ACK then (-ECONNRESET, ds_conn_reset s)
    else register_services env { s with hs_state := DS_HS_DONE }
  else if s.hs_state ≠ DS_HS_DONE then (-ECONNRESET, ds_conn_reset s)
  else if pkt.tag.type = DS_REG_ACK then
    match find_cap s.ds_states pkt.handle with
    | none => (0, s)
    | some cp => (0, s.set_cap_state cp CAP_STATE_REGISTERED)
  else if pkt.tag.type = DS_REG_NACK then
    match find_cap s.ds_states pkt.handle with
    | none => (0, s)
    | some cp => (0, s.set_cap_state cp CAP_STATE_UNKNOWN)
  else (0, s)

/-! ## Views of the receive buffer -/

/-- The 32-bit word `i` behind the handle (0 when the buffer, which starts
zero-filled, holds nothing there). -/
def Pkt.word (pkt : Pkt) (i : Nat) : Nat := pkt.body.getD i 0

/-- The big-endian 64-bit field made of the words `i` and `i + 1`. -/
def Pkt.word64 (pkt : Pkt) (i : Nat) : Nat := pkt.word i * 2 ^ 32 + pkt.word (i + 1)

/-- The cast `(struct dr_cpu_tag *) (data + 1)`. -/
def Pkt.dr_cpu_tag (pkt : Pkt) : dr_cpu_tag :=
  { req_num := pkt.word64 0, type := pkt.word 2, num_records := pkt.word 3 }

/-- The cast `(u32 *) (tag + 1)`: the CPU-id array behind the `dr_cpu_tag`. -/
def Pkt.cpu_list (pkt : Pkt) : List Nat := pkt.body.drop 4

/-- The `handle` field of `ds_states[cp]` (0 for an index outside the table,
which no caller passes). -/
def DsState.cap_handle (s : DsState) (cp : Nat) : Nat :=
  match s.ds_states[cp]? with
  | some c => c.handle
  | none => 0

/-- Conversion of a `__u32` to `int`. -/
def u32_to_int (x : Nat) : Int :=
  if x % 2 ^ 32 < 2 ^ 31 then ((x % 2 ^ 32 : Nat) : Int) else ((x % 2 ^ 32 : Nat) : Int) - 2 ^ 32

/-! ## CPU masks -/

/-- Modelled from the spec: `cpumask_t` of `linux/cpumask.h` is a bitmap with one
bit per supported CPU; `cpus_clear` gives the bitmap with no bit set. -/
def cpus_clear (NR_CPUS : Nat) : List Bool := List.replicate NR_CPUS false

/-- Modelled from the spec: `cpu_set(cpu, mask)` of `linux/cpumask.h` sets bit
`cpu` of the bitmap. -/
def cpu_set (cpu : Nat) (mask : List Bool) : List Bool := mask.set cpu true

/-- Modelled from the spec: `cpus_weight(mask)` of `linux/cpumask.h`, the number
of bits set. -/
def cpus_weight (mask : List Bool) : Nat := mask.count true

/-- The set bits of a bitmap whose first bit has number `k`, ascending. -/
def cpumask_bits : List Bool → Nat → List Nat
  | [], _ => []
  | b :: m, k => if b then k :: cpumask_bits m (k + 1) else cpumask_bits m (k + 1)

/-- Modelled from the spec: `for_each_cpu_mask(cpu, mask)` of `linux/cpumask.h`
visits the CPUs whose bit is set, in ascending id order. -/
def for_each_cpu_mask (mask : List Bool) : List Nat := cpumask_bits mask 0

/-! ## CPU reconfiguration -/

/-- `__dr_cpu_send_error` (and `dr_cpu_send_error`, which only adds the lock). -/
def __dr_cpu_send_error (env : Env) (s : DsState) (cp : Nat) (data : Pkt) : DsState :=
  let tag := data.dr_cpu_tag
  let msg_len := sizeof_ds_data + sizeof_dr_cpu_tag
  let pkt : dr_cpu_resp :=
    { data := { tag := { type := DS_DATA, len := msg_len - sizeof_ds_msg_tag },
                handle := s.cap_handle cp },
      tag := { req_num := tag.req_num, type := DR_CPU_ERROR, num_records := 0 },
      ent := [] }
  (ds_send env s (Msg.dr_cpu pkt) msg_len).2

/-- `dr_cpu_send_error`. -/
def dr_cpu_send_error (env : Env) (s : DsState) (cp : Nat) (data : Pkt) : DsState :=
  __dr_cpu_send_error env s cp data

/-- The inner `for (j = i + 1; j < num_ents; j++)` loop of `purge_dups`. -/
def purge_dups_inner (cpu : Nat) (list : List Nat) (i num_ents : Nat) : List Nat :=
  (List.range' (i + 1) (num_ents - (i + 1))).foldl
    (fun l j => if l.getD j 0 = cpu then l.set j CPU_SENTINEL else l) list

/-- `purge_dups`. -/
def purge_dups (list : List Nat) (num_ents : Nat) : List Nat :=
  (List.range num_ents).foldl
    (fun l i =>
      let cpu := l.getD i 0
      if cpu = CPU_SENTINEL then l else purge_dups_inner cpu l i num_ents) list

/-- `dr_cpu_size_response`. -/
def dr_cpu_size_response (ncpus : Nat) : Nat :=
  sizeof_ds_data + sizeof_dr_cpu_tag + sizeof_dr_cpu_resp_entry * ncpus

/-- `dr_cpu_init_response`, on the zero-filled buffer of `kzalloc`: one entry
per CPU of the mask (its `BUG_ON(i != ncpus)` cannot fire, see
`cpus_weight_eq_length`). -/
def dr_cpu_init_response (req_num handle resp_len ncpus : Nat) (mask : List Bool)
    (default_stat : Nat) : dr_cpu_resp :=
  { data := { tag := { type := DS_DATA, len := resp_len - sizeof_ds_msg_tag }, handle := handle },
    tag := { req_num := req_num, type := DR_CPU_OK, num_records := ncpus },
    ent := (for_each_cpu_mask mask).map
      (fun cpu => { cpu := cpu, result := DR_CPU_RES_OK, stat := default_stat, str_off := 0 }) }

/-- The loop of `dr_cpu_mark` over `ent[0 .. ncpus - 1]`: the first entry whose
`cpu` matches gets `res` and `stat`. -/
def dr_cpu_mark_loop (cpu res stat : Nat) : Nat → List dr_cpu_resp_entry → List dr_cpu_resp_entry
  | 0, es => es
  | _ + 1, [] => []
  | n + 1, e :: es =>
    if e.cpu ≠ cpu then e :: dr_cpu_mark_loop cpu res stat n es
    else { e with result := res, stat := stat } :: es

/-- `dr_cpu_mark`. -/
def dr_cpu_mark (resp : dr_cpu_resp) (cpu ncpus res stat : Nat) : dr_cpu_resp :=
  { resp with ent := dr_cpu_mark_loop cpu res stat ncpus resp.ent }

/-- The `for_each_cpu_mask` loop of `dr_cpu_configure` over the CPUs still to
visit. -/
def dr_cpu_configure_loop (env : Env) (ncpus : Nat) :
    List Nat → DsState → dr_cpu_resp → DsState × dr_cpu_resp
  | [], s, resp => (s, resp)
  | cpu :: rest, s, resp =>
    let err := env.cpu_up s.trace cpu
    let s := s.log (Event.cpu_up cpu err)
    if err ≠ 0 then
      let present := env.cpu_present s.trace cpu
      let s := s.log (Event.cpu_present cpu present)
      if !present then
        dr_cpu_configure_loop env ncpus rest s
          (dr_cpu_mark resp cpu ncpus DR_CPU_RES_NOT_IN_MD DR_CPU_STAT_NOT_PRESENT)
      else if err = -ENODEV then
        dr_cpu_configure_loop env ncpus rest s
          (dr_cpu_mark resp cpu ncpus DR_CPU_RES_CPU_NOT_RESPONDING DR_CPU_STAT_UNCONFIGURED)
      else
        dr_cpu_configure_loop env ncpus rest s
          (dr_cpu_mark resp cpu ncpus DR_CPU_RES_FAILURE DR_CPU_STAT_UNCONFIGURED)
    else dr_cpu_configure_loop env ncpus rest s resp

/-- `dr_cpu_configure`. -/
def dr_cpu_configure (env : Env) (s : DsState) (cp req_num : Nat) (mask : List Bool) :
    Int × DsState :=
  let ncpus := cpus_weight mask
  let resp_len := dr_cpu_size_response ncpus
  let ok := env.kzalloc s.trace resp_len
  let s := s.log (Event.kzalloc resp_len ok)
  if !ok then (-ENOMEM, s)
  else
    let resp := dr_cpu_init_response req_num (s.cap_handle cp) resp_len ncpus mask
      DR_CPU_STAT_CONFIGURED
    let s := s.log (Event.mdesc_fill_in_cpu_data mask)
    let r := dr_cpu_configure_loop env ncpus (for_each_cpu_mask mask) s resp
    let s := (ds_send env r.1 (Msg.dr_cpu r.2) resp_len).2
    (0, s.log Event.fixup_irqs)

/-- The `for_each_cpu_mask` loop of `dr_cpu_unconfigure`. -/
def dr_cpu_unconfigure_loop (env : Env) (ncpus : Nat) :
    List Nat → DsState → dr_cpu_resp → DsState × dr_cpu_resp
  | [], s, resp => (s, resp)
  | cpu :: rest, s, resp =>
    let err := env.cpu_down s.trace cpu
    let s := s.log (Event.cpu_down cpu err)
    if err ≠ 0 then
      dr_cpu_unconfigure_loop env ncpus rest s
        (dr_cpu_mark resp cpu ncpus DR_CPU_RES_FAILURE DR_CPU_STAT_CONFIGURED)
    else dr_cpu_unconfigure_loop env ncpus rest s resp

/-- `dr_cpu_unconfigure`. -/
def dr_cpu_unconfigure (env : Env) (s : DsState) (cp req_num : Nat) (mask : List Bool) :
    Int × DsState :=
  let ncpus := cpus_weight mask
  let resp_len := dr_cpu_size_response ncpus
  let ok := env.kzalloc s.trace resp_len
  let s := s.log (Event.kzalloc resp_len ok)
  if !ok then (-ENOMEM, s)
  else
    let resp := dr_cpu_init_response req_num (s.cap_handle cp) resp_len ncpus mask
      DR_CPU_STAT_UNCONFIGURED
    let r := dr_cpu_unconfigure_loop env ncpus (for_each_cpu_mask mask) s resp
    let s := (ds_send env r.1 (Msg.dr_cpu r.2) resp_len).2
    (0, s)

/-- The loop of `process_dr_cpu_list` that fills `mask` from the purged list. -/
def dr_cpu_build_mask (NR_CPUS : Nat) (cpu_list : List Nat) (num_records : Nat) : List Bool :=
  (List.range num_records).foldl
    (fun mask i =>
      if cpu_list.getD i 0 = CPU_SENTINEL then mask
      else if cpu_list.getD i 0 < NR_CPUS then cpu_set (cpu_list.getD i 0) mask
      else mask) (cpus_clear NR_CPUS)

/-- The body of the `list_for_each_entry_safe` loop of `process_dr_cpu_list`
for the queue entry `qp`. -/
def process_dr_cpu_entry (env : Env) (cp : Nat) (s : DsState) (qp : Pkt) : DsState :=
  let tag := qp.dr_cpu_tag
  let req_num := tag.req_num
  if tag.type ≠ DR_CPU_CONFIGURE ∧ tag.type ≠ DR_CPU_UNCONFIGURE ∧
      tag.type ≠ DR_CPU_FORCE_UNCONFIGURE then
    dr_cpu_send_error env s cp qp
  else
    let cpu_list := purge_dups qp.cpu_list tag.num_records
    let mask := dr_cpu_build_mask env.NR_CPUS cpu_list tag.num_records
    let r :=
      if tag.type = DR_CPU_CONFIGURE then dr_cpu_configure env s cp req_num mask
      else dr_cpu_unconfigure env s cp req_num mask
    if r.1 ≠ 0 then dr_cpu_send_error env r.2 cp qp else r.2

/-- `process_dr_cpu_list`: take the whole work list, leave it empty, and process
the entries in list order. -/
def process_dr_cpu_list (env : Env) (s : DsState) (cp : Nat) : DsState :=
  let todo := s.dr_cpu_work_list
  let s := { s with dr_cpu_work_list := [] }
  todo.foldl (process_dr_cpu_entry env cp) s

/-! ## Capability handlers -/

/-- `md_update_data`. -/
def md_update_data (env : Env) (s : DsState) (dp : Nat) (buf : Pkt) (_len : Int) : DsState :=
  let pkt := Msg.md_update_res
    { tag := { type := DS_DATA,
               len := sizeof_ds_data + sizeof_ds_md_update_res - sizeof_ds_msg_tag },
      handle := s.cap_handle dp } (buf.word64 0) DS_OK
  let s := (ds_send env s pkt (sizeof_ds_data + sizeof_ds_md_update_res)).2
  s.log Event.mdesc_update

/-- `domain_shutdown_data`. -/
def domain_shutdown_data (env : Env) (s : DsState) (dp : Nat) (buf : Pkt) (_len : Int) :
    DsState :=
  let pkt := Msg.shutdown_res
    { tag := { type := DS_DATA,
               len := sizeof_ds_data + sizeof_ds_shutdown_res - sizeof_ds_msg_tag },
      handle := s.cap_handle dp } (buf.word64 0) DS_OK 0
  let s := (ds_send env s pkt (sizeof_ds_data + sizeof_ds_shutdown_res)).2
  s.log Event.wake_up_powerd

/-- `domain_panic_data`; the final `panic()` does not return.  The trace
records it as `Event.panic`, the last entry the call adds: the function value is
the state at the moment of the panic, the receive loop stops at that entry, and
nothing the code does comes after it. -/
def domain_panic_data (env : Env) (s : DsState) (dp : Nat) (buf : Pkt) (_len : Int) : DsState :=
  let pkt := Msg.panic_res
    { tag := { type := DS_DATA,
               len := sizeof_ds_data + sizeof_ds_panic_res - sizeof_ds_msg_tag },
      handle := s.cap_handle dp } (buf.word64 0) DS_OK 0
  let s := (ds_send env s pkt (sizeof_ds_data + sizeof_ds_panic_res)).2
  s.log Event.panic

/-- `dr_cpu_data`; `sizeof(struct dr_cpu_queue_entry)` is 16.  The lookup of
"dr-cpu" cannot fail on the table of `ds_states_init`. -/
def dr_cpu_data (env : Env) (s : DsState) (_dp : Nat) (buf : Pkt) (len : Int) : DsState :=
  let size := (16 + len).toNat
  let ok := env.kmalloc s.trace size
  let s := s.log (Event.kmalloc size ok)
  if !ok then
    match find_cap_by_string s.ds_states "dr-cpu" with
    | some cp => __dr_cpu_send_error env s cp buf
    | none => s
  else
    let s := { s with dr_cpu_work_list := s.dr_cpu_work_list ++ [buf] }
    s.log Event.wake_up_dr_cpu_wait

/-- `ds_pri_data`: only a `printk`. -/
def ds_pri_data (_env : Env) (s : DsState) (_dp : Nat) (_buf : Pkt) (_len : Int) : DsState := s

/-- `ds_var_data`: `rp->hdr.type` is word 0 and `rp->result` word 1 behind the
`struct ds_data`. -/
def ds_var_data (_env : Env) (s : DsState) (_dp : Nat) (buf : Pkt) (_len : Int) : DsState :=
  if buf.word 0 ≠ DS_VAR_SET_RESP ∧ buf.word 0 ≠ DS_VAR_DELETE_RESP then s
  else { s with ds_var_response := u32_to_int (buf.word 1), ds_var_doorbell := 1 }

/-- The indirect call `cp->data(lp, cp, buf, len)`. -/
def Handler.call (h : Handler) (env : Env) (s : DsState) (cp : Nat) (buf : Pkt) (len : Int) :
    DsState :=
  match h with
  | Handler.md_update_data => Ds.md_update_data env s cp buf len
  | Handler.domain_shutdown_data => Ds.domain_shutdown_data env s cp buf len
  | Handler.domain_panic_data => Ds.domain_panic_data env s cp buf len
  | Handler.dr_cpu_data => Ds.dr_cpu_data env s cp buf len
  | Handler.ds_pri_data => Ds.ds_pri_data env s cp buf len
  | Handler.ds_var_data => Ds.ds_var_data env s cp buf len

/-! ## Dispatch -/

/-- `ds_data`. -/
def ds_data (env : Env) (s : DsState) (pkt : Pkt) (len : Int) : Int × DsState :=
  match find_cap s.ds_states pkt.handle with
  | none =>
    let nack := Msg.data_nack
      { type := DS_NACK, len := sizeof_ds_data_nack - sizeof_ds_msg_tag } pkt.handle DS_INV_HDL
    (0, (ds_send env s nack sizeof_ds_data_nack).2)
  | some cp =>
    match s.ds_states[cp]? with
    | none => (0, s)
    | some c => (0, c.data.call env (s.log (Event.data_handler cp)) cp pkt len)

/-- `ds_up`. -/
def ds_up (env : Env) (s : DsState) : DsState :=
  let req := Msg.ver_req { type := DS_INIT_REQ, len := sizeof_ds_ver_req - sizeof_ds_msg_tag } 1 0
  let r := ds_send env s req sizeof_ds_ver_req
  if r.1 > 0 then { r.2 with hs_state := DS_HS_START } else r.2

/-- The `while (1)` loop of `ds_event` over what the channel holds; an empty
channel makes the header read return 0.  A `panic()` in a handler ends
everything. -/
def ds_event_loop (env : Env) : DsState → List Rx → DsState
  | s, [] => s
  | s, rx :: rest =>
    if rx.hdr_ret < 0 then
      if rx.hdr_ret = -ECONNRESET then ds_conn_reset s else s
    else if rx.hdr_ret = 0 then s
    else if rx.body_ret < 0 then
      if rx.body_ret = -ECONNRESET then ds_conn_reset s else s
    else if rx.body_ret < (rx.pkt.tag.len : Int) then s
    else
      let r :=
        if rx.pkt.tag.type < DS_DATA then ds_handshake env s rx.pkt
        else ds_data env s rx.pkt ((sizeof_ds_msg_tag : Int) + rx.body_ret)
      if r.1 = -ECONNRESET then r.2
      else if Event.panic ∈ r.2.trace then r.2
      else ds_event_loop env r.2 rest

/-- `ds_event`. -/
def ds_event (env : Env) (s : DsState) (event : Int) (rx : List Rx) : DsState :=
  if event = LDC_EVENT_UP then ds_up env s
  else if event ≠ LDC_EVENT_DATA_READY then s
  else ds_event_loop env s rx

/-- `ds_init`: `ds_states[i].handle = ((u64)i << 32)` for every `i`. -/
def ds_init (s : DsState) : DsState :=
  (List.range s.ds_states.length).foldl
    (fun s i => s.set_cap_handle i (((i % 2 ^ 64) <<< 32) % 2 ^ 64)) s

/-! ## Setting a variable -/

/-- The `state` field of `ds_states[cp]` (0 for an index outside the table,
which no caller passes). -/
def DsState.cap_state (s : DsState) (cp : Nat) : Nat :=
  match s.ds_states[cp]? with
  | some c => c.state
  | none => 0

/-- `strcpy(buf + off, str)`: a C string is the list of its bytes before the
terminating NUL, and the copy writes those bytes and the NUL. -/
def strcpy (buf : List Nat) (off : Nat) (str : List Nat) : List Nat :=
  buf.take off ++ str ++ [0] ++ buf.drop (off + str.length + 1)

/-- The packet `ldom_set_var` builds in its 512-byte `pkt`, with its `msg_len`.
`name_and_value` starts at byte 20 of the zero-filled buffer; the message is
the first `msg_len` bytes, so it carries the bytes 20 to `msg_len` of the
buffer.  `& ~3` on the `int` is the mask `0xfffffffc`. -/
def ldom_set_var_pkt (handle : Nat) (var value : List Nat) : Msg × Nat :=
  let nv := List.replicate (512 - (sizeof_ds_data + sizeof_ds_var_set_msg)) 0
  let nv := strcpy nv 0 var
  let p := var.length + 1
  let nv := strcpy nv p value
  let p := p + (value.length + 1)
  let msg_len := sizeof_ds_data + sizeof_ds_var_set_msg + p
  let msg_len := (msg_len + 3) &&& 0xfffffffc
  (Msg.var_set
    { tag := { type := DS_DATA, len := msg_len - sizeof_ds_msg_tag }, handle := handle }
    DS_VAR_SET_REQ (nv.take (msg_len - (sizeof_ds_data + sizeof_ds_var_set_msg))), msg_len)

/-- The channel events served at one point of the busy wait of `ldom_set_var`
(where `ds_lock` is free): `ds_event` runs for each of them. -/
def deliver (env : Env) (s : DsState) : DsState :=
  (env.irq s.trace).foldl (fun s ev => ds_event env s ev.1 ev.2) s

/-- One pass through the body of the poll loop of `ldom_set_var`: `udelay(100)`,
during which channel events are served. -/
def ldom_wait (env : Env) (s : DsState) : DsState :=
  deliver env (s.log (Event.udelay 100))

/-- The poll loop `while (ds_var_doorbell == 0) { if (loops-- < 0) break; ... }`
of `ldom_set_var`; the first argument is `loops + 1`, so 0 stands for
`loops < 0`. -/
def ldom_poll (env : Env) : Nat → DsState → DsState
  | 0, s => s
  | n + 1, s => if s.ds_var_doorbell ≠ 0 then s else ldom_poll env n (ldom_wait env s)

/-- The part of `ldom_set_var` for the chosen capability `cp`, from the `memset`
to the end.  The Boolean is true when the call ends without its
`printk(KERN_ERR ...)`, that is, when it reports success. -/
def ldom_set_var_send (env : Env) (s : DsState) (cp : Nat) (var value : List Nat) :
    Bool × DsState :=
  let pkt := ldom_set_var_pkt (s.cap_handle cp) var value
  let s := { s with ds_var_doorbell := 0, ds_var_response := -1 }
  let s := (ds_send env s pkt.1 pkt.2).2
  let s := deliver env s
  let s := ldom_poll env 1001 s
  (decide (¬ (s.ds_var_doorbell = 0 ∨ s.ds_var_response ≠ (DS_VAR_SUCCESS : Int))), s)

/-- The capability `ldom_set_var` chooses: "var-config" when it is Registered,
else "var-config-backup"; `none` when the chosen one is not Registered.  A
failed lookup (a `NULL` dereference in C, which cannot happen with the table of
`ds_states_init`) gives `none` too. -/
def ldom_target (s : DsState) : Option Nat :=
  match find_cap_by_string s.ds_states "var-config" with
  | none => none
  | some cp0 =>
    match (if s.cap_state cp0 ≠ CAP_STATE_REGISTERED then
        find_cap_by_string s.ds_states "var-config-backup" else some cp0) with
    | none => none
    | some cp => if s.cap_state cp = CAP_STATE_REGISTERED then some cp else none

/-- `ldom_set_var`: choose the capability, then send and poll; without a
Registered capability only the `printk(KERN_ERR ...)` of the `else` branch. -/
def ldom_set_var (env : Env) (s : DsState) (var value : List Nat) : Bool × DsState :=
  match ldom_target s with
  | some cp => ldom_set_var_send env s cp var value
  | none => (false, s)


/-! ## Vocabulary of the statements

Nothing below is part of the driver: these definitions name what the theorems
talk about (the messages and calls found in a trace, the records the
specification asks for). -/

/-- The messages handed to `ds_send` in a trace, in order. -/
def sends (t : List Event) : List Msg :=
  t.filterMap (fun e => match e with
    | Event.ds_send m _ _ => some m
    | _ => none)

/-- The registration request sent for a capability, from its table entry before
(`old`) and after (`new`) `register_services`: none for an entry that was
already registered, else the request carrying the handle now stored. -/
def reg_sent (old new : Option ds_cap_state) : Option Msg :=
  match old, new with
  | some c, some c' =>
    if c.state = CAP_STATE_REGISTERED then none else some (reg_req_of c c'.handle)
  | _, _ => none

/-- The events a call of `ds_send` makes before it returns: write attempts and
the delays between them. -/
def is_write_attempt (e : Event) : Bool :=
  match e with
  | Event.ldc_write _ _ _ => true
  | Event.udelay _ => true
  | _ => false

/-- Entry `j` (one of the first `n`) of `list` is not the sentinel and repeats
an entry at an earlier position `i < k`. -/
def repeats_before (list : List Nat) (n k j : Nat) : Prop :=
  j < n ∧ ∃ i, i < k ∧ i < j ∧ list[i]? = list[j]? ∧ list[j]? ≠ some CPU_SENTINEL

/-- The response record the specification gives CPU `cpu` after a Configure
request, from the outcome `o` of its own bring-up: `o.1` is what `cpu_up`
returned and `o.2` what `cpu_present` answered (asked only after a failure). -/
def configure_record (cpu : Nat) (o : Int × Bool) : dr_cpu_resp_entry :=
  if o.1 = 0 then
    { cpu := cpu, result := DR_CPU_RES_OK, stat := DR_CPU_STAT_CONFIGURED, str_off := 0 }
  else if o.2 = false then
    { cpu := cpu, result := DR_CPU_RES_NOT_IN_MD, stat := DR_CPU_STAT_NOT_PRESENT, str_off := 0 }
  else if o.1 = -ENODEV then
    { cpu := cpu, result := DR_CPU_RES_CPU_NOT_RESPONDING, stat := DR_CPU_STAT_UNCONFIGURED,
      str_off := 0 }
  else
    { cpu := cpu, result := DR_CPU_RES_FAILURE, stat := DR_CPU_STAT_UNCONFIGURED, str_off := 0 }

/-- The external calls made for the bring-up of `cpu` with outcome `o`. -/
def configure_calls (cpu : Nat) (o : Int × Bool) : List Event :=
  if o.1 = 0 then [Event.cpu_up cpu o.1]
  else [Event.cpu_up cpu o.1, Event.cpu_present cpu o.2]

/-- The response record the specification gives CPU `cpu` after an Unconfigure
or ForceUnconfigure request, from what its own `cpu_down` returned. -/
def unconfigure_record (cpu : Nat) (err : Int) : dr_cpu_resp_entry :=
  if err = 0 then
    { cpu := cpu, result := DR_CPU_RES_OK, stat := DR_CPU_STAT_UNCONFIGURED, str_off := 0 }
  else
    { cpu := cpu, result := DR_CPU_RES_FAILURE, stat := DR_CPU_STAT_CONFIGURED, str_off := 0 }

/-- What the environment answers when CPU `cpu` is brought up after the calls of
trace `t`: the return value of `cpu_up`, and the answer of `cpu_present` asked
right after it. -/
def configure_outcome (env : Env) (t : List Event) (cpu : Nat) : Int × Bool :=
  (env.cpu_up t cpu, env.cpu_present (t ++ [Event.cpu_up cpu (env.cpu_up t cpu)]) cpu)

/-- The external call made for the bring-down of `cpu` returning `err`. -/
def unconfigure_calls (cpu : Nat) (err : Int) : List Event :=
  [Event.cpu_down cpu err]

/-- The aggregated response buffer for the records `ent`: what
`dr_cpu_init_response` writes around them. -/
def dr_cpu_response (handle req_num : Nat) (ent : List dr_cpu_resp_entry) : dr_cpu_resp :=
  { data := { tag := { type := DS_DATA,
                       len := dr_cpu_size_response ent.length - sizeof_ds_msg_tag },
              handle := handle },
    tag := { req_num := req_num, type := DR_CPU_OK, num_records := ent.length },
    ent := ent }

/-- The error reply of `__dr_cpu_send_error`: op-result `DR_CPU_ERROR`, no
records. -/
def dr_cpu_error_pkt (handle req_num : Nat) : dr_cpu_resp :=
  { data := { tag := { type := DS_DATA, len := 24 }, handle := handle },
    tag := { req_num := req_num, type := DR_CPU_ERROR, num_records := 0 },
    ent := [] }

/-- The mask `process_dr_cpu_list` builds for the queue entry `qp`: the bits of
the ids that survive `purge_dups` and the `NR_CPUS` test. -/
def request_mask (env : Env) (qp : Pkt) : List Bool :=
  dr_cpu_build_mask env.NR_CPUS (purge_dups qp.cpu_list qp.dr_cpu_tag.num_records)
    qp.dr_cpu_tag.num_records

/-- The CPU-id list of the request in `qp`: the first `num_records` ids. -/
def request_ids (qp : Pkt) : List Nat := qp.cpu_list.take qp.dr_cpu_tag.num_records

/-- The bring-up, presence and bring-down calls of a trace, in order. -/
def cpu_calls (t : List Event) : List Event :=
  t.filter (fun e => match e with
    | Event.cpu_up _ _ => true
    | Event.cpu_present _ _ => true
    | Event.cpu_down _ _ => true
    | _ => false)

/-- The return values of the `ldc_write` attempts of a trace, in order. -/
def write_rets (t : List Event) : List Int :=
  t.filterMap (fun e => match e with
    | Event.ldc_write _ _ r => some r
    | _ => none)

/-- The state in which the poll loop of `ldom_set_var` makes its first check:
the doorbell has been reset, the request for capability `cp` has been handed to
`ds_send`, and the channel events pending when `ds_lock` is released have been
served. -/
def ldom_sent (env : Env) (s : DsState) (cp : Nat) (var value : List Nat) : DsState :=
  deliver env (ds_send env { s with ds_var_doorbell := 0, ds_var_response := -1 }
    (ldom_set_var_pkt (s.cap_handle cp) var value).1
    (ldom_set_var_pkt (s.cap_handle cp) var value).2).2

/-- The message `m` is the reply to the request of the queue entry `qp` on the
capability with handle `handle`: the error reply, or the aggregated response
with one record per surviving id; both carry the `req_num` of the request. -/
def answers (env : Env) (handle : Nat) (qp : Pkt) (m : Msg) : Bool :=
  match m with
  | Msg.dr_cpu r =>
    decide (r = dr_cpu_error_pkt handle qp.dr_cpu_tag.req_num) ||
    (decide (r = dr_cpu_response handle qp.dr_cpu_tag.req_num r.ent) &&
      decide (r.ent.map (fun e => e.cpu) = for_each_cpu_mask (request_mask env qp)))
  | _ => false

/-- The messages `reqs` (buffer and length) reach `dr_cpu_data` one after the
other, in list order. -/
def arrive (env : Env) (dp : Nat) (s : DsState) (reqs : List (Pkt × Int)) : DsState :=
  reqs.foldl (fun s r => dr_cpu_data env s dp r.1 r.2) s

/-- The queue-entry allocation of every message of `reqs` succeeds when the
messages reach `dr_cpu_data` one after the other from the state `s`. -/
def all_accepted (env : Env) (dp : Nat) : DsState → List (Pkt × Int) → Bool
  | _, [] => true
  | s, r :: rest =>
    env.kmalloc s.trace (16 + r.2).toNat &&
      all_accepted env dp (dr_cpu_data env s dp r.1 r.2) rest

/-- The trace of `reqs` being queued: per message the allocation and the
wake-up of the worker. -/
def arrival_trace (reqs : List (Pkt × Int)) : List Event :=
  (reqs.map (fun r => [Event.kmalloc (16 + r.2).toNat true, Event.wake_up_dr_cpu_wait])).flatten

/-! ## Concrete states and environments used to exercise the model -/

/-- The globals as `ds_probe` leaves them: the static table, every capability
`Unknown`, handshake not started, empty work list. -/
def boot_state : DsState :=
  { ds_states := ds_states_init, hs_state := 0, dr_cpu_work_list := [],
    ds_var_doorbell := 0, ds_var_response := 0, trace := [] }

/-- An environment in which every transport write is accepted in full, every
allocation succeeds, every CPU comes up and goes down, and nothing ever
arrives during a busy wait. -/
def env_ok : Env :=
  { NR_CPUS := 64,
    irq := fun _ => [],
    ldc_write := fun _ _ len => (len : Int),
    sched_clock := fun t => 1000 + t.length,
    kzalloc := fun _ _ => true,
    kmalloc := fun _ _ => true,
    cpu_up := fun _ _ => 0,
    cpu_present := fun _ _ => true,
    cpu_down := fun _ _ => 0 }

/-- An environment whose transport refuses every write with `-ECONNRESET`. -/
def env_down : Env :=
  { env_ok with ldc_write := fun _ _ _ => -ECONNRESET }

/-- An `INIT_ACK` as it sits in the receive buffer. -/
def init_ack_pkt : Pkt :=
  { tag := { type := DS_INIT_ACK, len := 2 }, handle := 0, body := [] }


/-- A `REG_ACK` for the handle `(3 << 32) | 77` (table index 3). -/
def reg_ack_pkt : Pkt :=
  { tag := { type := DS_REG_ACK, len := 10 }, handle := (3 <<< 32) ||| 77, body := [] }

/-- A `REG_NACK` for the handle `(9 << 32) | 77`, whose index 9 is outside the
table of 7 capabilities. -/
def reg_nack_far_pkt : Pkt :=
  { tag := { type := DS_REG_NACK, len := 10 }, handle := (9 <<< 32) ||| 77, body := [] }

/-- A `DATA` message for the handle `(9 << 32) | 77`, outside the table. -/
def data_far_pkt : Pkt :=
  { tag := { type := DS_DATA, len := 16 }, handle := (9 <<< 32) ||| 77, body := [0, 1] }

/-- A CPU reconfiguration request for the ids `[3, 5, 3, 7, 5]` with
correlation number 77 and op-type `op`, as it sits in a queue entry. -/
def cpu_req (op : Nat) : Pkt :=
  { tag := { type := DS_DATA, len := 44 }, handle := 3 <<< 32,
    body := [0, 77, op, 5, 3, 5, 3, 7, 5] }

/-- An environment like `env_ok` in which CPU 5 does not respond to bring-up and
refuses to go down. -/
def env_cpu5 : Env :=
  { env_ok with
    cpu_up := fun _ c => if c = 5 then -ENODEV else 0,
    cpu_down := fun _ c => if c = 5 then -1 else 0 }

/-- The state of `boot_state` with the handshake completed. -/
def done_state : DsState := { boot_state with hs_state := DS_HS_DONE }

/-- The state of `done_state` after `ds_init`: capability `i` holds the handle
`i << 32`; every capability is `Unknown`. -/
def init_state : DsState := ds_init done_state

/-- The state of `boot_state` with the handshake started. -/
def started_state : DsState := { boot_state with hs_state := DS_HS_START }

/-- A session in phase Done in which capability 3 ("dr-cpu") has the current
handle `(3 << 32) | 77` and state `RegistrationSent`. -/
def sent_state : DsState :=
  ((done_state.set_cap_handle 3 ((3 <<< 32) ||| 77)).set_cap_state 3 CAP_STATE_REG_SENT)

/-- A `REG_ACK` carrying the handle `(3 << 32) | 5`: index 3 with a nonce that
is not the current one of `sent_state`. -/
def stale_ack_pkt : Pkt :=
  { tag := { type := DS_REG_ACK, len := 10 }, handle := (3 <<< 32) ||| 5, body := [] }

/-- A `DATA` message for the handle `1 << 32` (capability 1, "domain-shutdown")
with correlation number 7. -/
def shutdown_data_pkt : Pkt :=
  { tag := { type := DS_DATA, len := 20 }, handle := 1 <<< 32, body := [0, 7, 0] }

/-- A header read that fails with `-ECONNRESET`. -/
def reset_rx : Rx :=
  { hdr_ret := -ECONNRESET, pkt := init_ack_pkt, body_ret := 0 }

/-- A full read of `pkt`. -/
def full_rx (pkt : Pkt) : Rx :=
  { hdr_ret := 8, pkt := pkt, body_ret := pkt.tag.len }

/-- A session in phase Done in which capability 5 ("var-config") is Registered
with handle `(5 << 32) | 9`. -/
def var_state : DsState :=
  ((done_state.set_cap_handle 5 ((5 <<< 32) ||| 9)).set_cap_state 5 CAP_STATE_REGISTERED)

/-- A `DATA` message for the "var-config" capability of `var_state`: a
SET-response with result `r`. -/
def var_resp_pkt (r : Nat) : Pkt :=
  { tag := { type := DS_DATA, len := 16 }, handle := (5 <<< 32) ||| 9,
    body := [DS_VAR_SET_RESP, r] }

/-- An environment like `env_ok` in which, during the third wait of the poll
loop, a SET-response with result `r` arrives. -/
def env_resp (r : Nat) : Env :=
  { env_ok with
    irq := fun t => if t.count (Event.udelay 100) = 3 then
      [(LDC_EVENT_DATA_READY, [full_rx (var_resp_pkt r)])] else [] }

/-- A payload read that delivers 12 of the 20 bytes the header of
`shutdown_data_pkt` declares. -/
def short_rx : Rx :=
  { hdr_ret := 8, pkt := shutdown_data_pkt, body_ret := 12 }

/-- An Unconfigure request for the ids `[1, 2]` with correlation number 78. -/
def cpu_req2 : Pkt :=
  { tag := { type := DS_DATA, len := 32 }, handle := 3 <<< 32,
    body := [0, 78, DR_CPU_UNCONFIGURE, 2, 1, 2] }

/-- An environment like `env_ok` in which `kmalloc` succeeds for the first two
queue entries and fails from then on. -/
def env_two : Env :=
  { env_ok with
    kmalloc := fun t _ => decide (t.count Event.wake_up_dr_cpu_wait < 2) }

/-- Two requests as `ds_data` hands them to `dr_cpu_data`: a Configure request
(correlation number 77), then an Unconfigure request (78). -/
def two_reqs : List (Pkt × Int) :=
  [(cpu_req DR_CPU_CONFIGURE, 52), (cpu_req2, 40)]

theorem handle_make (i n : Nat) (hn : n < 2 ^ 32) : (i <<< 32) ||| n = 2 ^ 32 * i + n := by
  rw [Nat.shiftLeft_eq, Nat.mul_comm, Nat.mul_add_lt_is_or hn]

theorem handle_index (i n : Nat) (hn : n < 2 ^ 32) : ((i <<< 32) ||| n) >>> 32 = i := by
  rw [handle_make i n hn, Nat.shiftRight_eq_div_pow]
  omega

theorem handle_lt (i n : Nat) (hi : i < 2 ^ 32) (hn : n < 2 ^ 32) :
    (i <<< 32) ||| n < 2 ^ 64 := by
  rw [handle_make i n hn]
  omega

theorem find_cap_lt (tbl : List ds_cap_state) (h : Nat) (hh : h < 2 ^ 64)
    (hi : h >>> 32 < tbl.length) : find_cap tbl h = some (h >>> 32) := by
  have h1 : h >>> 32 < 2 ^ 32 := by
    rw [Nat.shiftRight_eq_div_pow]; omega
  unfold find_cap
  simp only [Nat.mod_eq_of_lt h1]
  rw [if_neg (by omega)]

theorem find_cap_ge (tbl : List ds_cap_state) (h : Nat) (hh : h < 2 ^ 64)
    (hi : tbl.length ≤ h >>> 32) : find_cap tbl h = none := by
  have h1 : h >>> 32 < 2 ^ 32 := by
    rw [Nat.shiftRight_eq_div_pow]; omega
  unfold find_cap
  simp only [Nat.mod_eq_of_lt h1]
  rw [if_pos (by omega)]


/-! ## Facts about `ds_send` -/

theorem sends_append (a b : List Event) : sends (a ++ b) = sends a ++ sends b := by
  simp [sends, List.filterMap_append]

theorem sends_write_attempts (ws : List Event) (h : ∀ e ∈ ws, is_write_attempt e = true) :
    sends ws = [] := by
  unfold sends
  rw [List.filterMap_eq_nil_iff]
  intro e he
  have := h e he
  cases e <;> simp_all [is_write_attempt]

theorem ds_send_loop_trace (env : Env) (m : Msg) (len : Nat) :
    ∀ (limit : Nat) (err : Int) (t : List Event),
      ∃ ws, (ds_send_loop env m len limit err t).2 = t ++ ws ∧
        ∀ e ∈ ws, is_write_attempt e = true := by
  intro limit
  induction limit with
  | zero => intro err t; exact ⟨[], by simp [ds_send_loop], by simp⟩
  | succ n ih =>
    intro err t
    simp only [ds_send_loop]
    split
    · exact ⟨[Event.ldc_write m len (env.ldc_write t m len)], rfl, by simp [is_write_attempt]⟩
    · obtain ⟨ws, hws, hall⟩ := ih (env.ldc_write t m len)
        (t ++ [Event.ldc_write m len (env.ldc_write t m len)] ++ [Event.udelay 1])
      refine ⟨[Event.ldc_write m len (env.ldc_write t m len)] ++ [Event.udelay 1] ++ ws, ?_, ?_⟩
      · rw [hws]; simp
      · intro e he
        simp only [List.append_assoc, List.mem_append, List.mem_singleton] at he
        rcases he with h | h | h
        · subst h; rfl
        · subst h; rfl
        · exact hall e h

/-- One call of `ds_send` changes nothing but the trace, to which it appends
write attempts and then its own marker. -/
theorem ds_send_spec (env : Env) (s : DsState) (m : Msg) (len : Nat) :
    ∃ ws, (∀ e ∈ ws, is_write_attempt e = true) ∧
      (ds_send env s m len).2 =
        { s with trace := s.trace ++ ws ++ [Event.ds_send m len (ds_send env s m len).1] } := by
  obtain ⟨ws, hws, hall⟩ := ds_send_loop_trace env m len 1000 (-EINVAL) s.trace
  refine ⟨ws, hall, ?_⟩
  simp only [ds_send]
  rw [hws]


/-! ## Facts about `register_services` -/

theorem modify_eq_set {α : Type} (l : List α) (i : Nat) (a : α) (f : α → α)
    (h : l[i]? = some a) : l.modify f i = l.set i (f a) := by
  rw [List.modify_eq_set_get?]
  simp [List.get?_eq_getElem?, h]

theorem handle_trunc (i : Nat) (hi : i < 2 ^ 32) : ((i % 2 ^ 64) <<< 32) % 2 ^ 64 = i <<< 32 := by
  have h1 : i % 2 ^ 64 = i := Nat.mod_eq_of_lt (by omega)
  have h2 : i * 2 ^ 32 % 2 ^ 64 = i * 2 ^ 32 := Nat.mod_eq_of_lt (by omega)
  rw [h1, Nat.shiftLeft_eq, h2]

theorem nonce_lt (clk : Nat) : (clk % 2 ^ 64) &&& 0xffffffff < 2 ^ 32 := by
  have : (0xffffffff : Nat) = 2 ^ 32 - 1 := by norm_num
  rw [this, Nat.and_pow_two_sub_one_eq_mod]
  exact Nat.mod_lt _ (by norm_num)

theorem register_service_unreg (env : Env) (s : DsState) (i : Nat) (cp : ds_cap_state)
    (h : s.ds_states[i]? = some cp) (hr : cp.state ≠ CAP_STATE_REGISTERED) (hi : i < 2 ^ 32) :
    ∃ (n : Nat) (err : Int) (len : Nat) (ws : List Event),
      n < 2 ^ 32 ∧ (∀ e ∈ ws, is_write_attempt e = true) ∧
      register_service env s i =
        { s with
          ds_states := s.ds_states.set i
            { cp with handle := (i <<< 32) ||| n,
                      state := if err > 0 then CAP_STATE_REG_SENT else cp.state },
          trace := s.trace ++ [Event.sched_clock (env.sched_clock s.trace)] ++ ws ++
            [Event.ds_send (reg_req_of cp ((i <<< 32) ||| n)) len err] } := by
  generalize hn : (env.sched_clock s.trace % 2 ^ 64) &&& 0xffffffff = n
  have hnlt : n < 2 ^ 32 := hn ▸ nonce_lt _
  obtain ⟨ws, hall, hsend⟩ := ds_send_spec env
    ((s.log (Event.sched_clock (env.sched_clock s.trace))).set_cap_handle i ((i <<< 32) ||| n))
    (reg_req_of cp ((i <<< 32) ||| n))
    (sizeof_ds_reg_req + cp.service_id.utf8ByteSize)
  refine ⟨n, (ds_send env
    ((s.log (Event.sched_clock (env.sched_clock s.trace))).set_cap_handle i ((i <<< 32) ||| n))
    (reg_req_of cp ((i <<< 32) ||| n))
    (sizeof_ds_reg_req + cp.service_id.utf8ByteSize)).1,
    sizeof_ds_reg_req + cp.service_id.utf8ByteSize, ws, hnlt, hall, ?_⟩
  unfold register_service
  simp only [h, if_neg hr, handle_trunc i hi, hn]
  rw [hsend]
  have hi' : i < s.ds_states.length := by
    rcases Nat.lt_or_ge i s.ds_states.length with h1 | h1
    · exact h1
    · rw [List.getElem?_eq_none h1] at h; cases h
  split
  · simp only [DsState.set_cap_state, DsState.set_cap_handle, DsState.log]
    rw [modify_eq_set _ _ _ _ h]
    rw [modify_eq_set _ i { cp with handle := (i <<< 32) ||| n } _
      (by simp [List.getElem?_set, hi'])]
    simp [List.set_set]
  · simp only [DsState.set_cap_state, DsState.set_cap_handle, DsState.log]
    rw [modify_eq_set _ _ _ _ h]
theorem register_services_inv (env : Env) (s : DsState) (hlen : s.ds_states.length ≤ 2 ^ 32) :
    ∀ k, k ≤ s.ds_states.length →
      ∃ t, (List.range k).foldl (register_service env) s =
          { s with ds_states := ((List.range k).foldl (register_service env) s).ds_states,
                   trace := s.trace ++ t } ∧
        ((List.range k).foldl (register_service env) s).ds_states.length = s.ds_states.length ∧
        (∀ j, k ≤ j →
          ((List.range k).foldl (register_service env) s).ds_states[j]? = s.ds_states[j]?) ∧
        sends t = (List.range k).filterMap (fun j => reg_sent s.ds_states[j]?
          ((List.range k).foldl (register_service env) s).ds_states[j]?) ∧
        (∀ j cp, j < k → s.ds_states[j]? = some cp →
          (cp.state = CAP_STATE_REGISTERED →
            ((List.range k).foldl (register_service env) s).ds_states[j]? = some cp) ∧
          (cp.state ≠ CAP_STATE_REGISTERED →
            ∃ (n : Nat) (err : Int) (len : Nat), n < 2 ^ 32 ∧
              ((List.range k).foldl (register_service env) s).ds_states[j]? =
                some { cp with handle := (j <<< 32) ||| n,
                               state := if err > 0 then CAP_STATE_REG_SENT else cp.state } ∧
              Event.ds_send (reg_req_of cp ((j <<< 32) ||| n)) len err ∈ t)) := by
  intro k
  induction k with
  | zero =>
    intro _
    refine ⟨[], by simp, rfl, fun _ _ => rfl, by simp [sends], ?_⟩
    intro j cp hj; omega
  | succ k ih =>
    intro hk
    obtain ⟨t, hS, hlenS, hrest, hsends, hdone⟩ := ih (by omega)
    rw [List.range_succ, List.foldl_append]
    simp only [List.foldl_cons, List.foldl_nil]
    generalize (List.range k).foldl (register_service env) s = S at hS hlenS hrest hsends hdone ⊢
    have hkk : S.ds_states[k]? = s.ds_states[k]? := hrest k (le_refl _)
    obtain ⟨cp, hcp⟩ : ∃ cp, s.ds_states[k]? = some cp :=
      ⟨s.ds_states[k], List.getElem?_eq_getElem (by omega)⟩
    rw [hcp] at hkk
    by_cases hreg : cp.state = CAP_STATE_REGISTERED
    · have hstep : register_service env S k = S := by
        unfold register_service; simp [hkk, hreg]
      rw [hstep]
      refine ⟨t, hS, hlenS, fun j hj => hrest j (by omega), ?_, ?_⟩
      · rw [hsends, List.filterMap_append]
        simp [hcp, hkk, reg_sent, hreg]
      · intro j c hj hc
        rcases Nat.lt_or_ge j k with h1 | h1
        · exact hdone j c h1 hc
        · have : j = k := by omega
          subst this
          rw [hcp] at hc; cases hc
          exact ⟨fun _ => hkk, fun h => absurd hreg h⟩
    · obtain ⟨n, err, len, ws, hn, hall, hstep⟩ :=
        register_service_unreg env S k cp hkk hreg (by omega)
      rw [hstep]
      have hother : ∀ j, j ≠ k → (S.ds_states.set k
          { cp with handle := (k <<< 32) ||| n,
                    state := if err > 0 then CAP_STATE_REG_SENT else cp.state })[j]? =
            S.ds_states[j]? := by
        intro j hj
        rw [List.getElem?_set, if_neg (fun h => hj h.symm)]
      have hself : (S.ds_states.set k
          { cp with handle := (k <<< 32) ||| n,
                    state := if err > 0 then CAP_STATE_REG_SENT else cp.state })[k]? =
          some { cp with handle := (k <<< 32) ||| n,
                         state := if err > 0 then CAP_STATE_REG_SENT else cp.state } := by
        rw [List.getElem?_set, if_pos rfl, if_pos (by omega)]
      refine ⟨t ++ [Event.sched_clock (env.sched_clock S.trace)] ++ ws ++
        [Event.ds_send (reg_req_of cp ((k <<< 32) ||| n)) len err], ?_, ?_, ?_, ?_, ?_⟩
      · rw [hS]; simp
      · simp [hlenS]
      · intro j hj
        simp only
        rw [hother j (by omega)]
        exact hrest j (by omega)
      · have hcongr : List.filterMap (fun j => reg_sent s.ds_states[j]? S.ds_states[j]?)
            (List.range k) = List.filterMap (fun j => reg_sent s.ds_states[j]?
              (S.ds_states.set k
                { cp with handle := (k <<< 32) ||| n,
                          state := if err > 0 then CAP_STATE_REG_SENT else cp.state })[j]?)
            (List.range k) := by
          apply List.filterMap_congr
          intro j hj
          rw [List.mem_range] at hj
          rw [hother j (by omega)]
        have h1 : reg_sent (some cp) (some
            { cp with handle := (k <<< 32) ||| n,
                      state := if err > 0 then CAP_STATE_REG_SENT else cp.state }) =
            some (reg_req_of cp ((k <<< 32) ||| n)) := by
          simp [reg_sent, hreg]
        simp only [sends_append, hsends, sends_write_attempts ws hall]
        rw [List.filterMap_append, ← hcongr]
        simp [sends, hcp, hself, h1]
      · intro j c hj hc
        simp only
        rcases Nat.lt_or_ge j k with h1 | h1
        · rw [hother j (by omega)]
          obtain ⟨h1a, h1b⟩ := hdone j c h1 hc
          refine ⟨h1a, fun hne => ?_⟩
          obtain ⟨n', err', len', hn', hst, hmem⟩ := h1b hne
          exact ⟨n', err', len', hn', hst, by simp [hmem]⟩
        · have : j = k := by omega
          subst this
          rw [hcp] at hc; cases hc
          refine ⟨fun h => absurd h hreg, fun _ => ⟨n, err, len, hn, hself, by simp⟩⟩

/-! ## The registry: `find_cap` -/

theorem getElem?_lt_length {α : Type} (l : List α) (i : Nat) (a : α) (h : l[i]? = some a) :
    i < l.length := by
  rcases Nat.lt_or_ge i l.length with h1 | h1
  · exact h1
  · rw [List.getElem?_eq_none h1] at h; cases h

theorem find_cap_make (tbl : List ds_cap_state) (i n : Nat) (hlen : tbl.length ≤ 2 ^ 32)
    (hi : i < tbl.length) (hn : n < 2 ^ 32) : find_cap tbl ((i <<< 32) ||| n) = some i := by
  have h := find_cap_lt tbl ((i <<< 32) ||| n) (handle_lt i n (by omega) hn)
    (by rw [handle_index i n hn]; exact hi)
  rw [handle_index i n hn] at h
  exact h

theorem ds_init_inv (s : DsState) :
    ∀ k j, ((List.range k).foldl
        (fun s i => s.set_cap_handle i (((i % 2 ^ 64) <<< 32) % 2 ^ 64)) s).ds_states[j]? =
      (fun c => if j < k then { c with handle := ((j % 2 ^ 64) <<< 32) % 2 ^ 64 } else c) <$>
        s.ds_states[j]? := by
  intro k
  induction k with
  | zero => intro j; simp
  | succ k ih =>
    intro j
    rw [List.range_succ, List.foldl_append]
    simp only [List.foldl_cons, List.foldl_nil]
    have ihj := ih j
    generalize (List.range k).foldl
      (fun s i => s.set_cap_handle i (((i % 2 ^ 64) <<< 32) % 2 ^ 64)) s = S at ihj ⊢
    simp only [DsState.set_cap_handle]
    rw [List.getElem?_modify, ihj]
    cases s.ds_states[j]? with
    | none => rfl
    | some c =>
      simp only [Option.map_eq_map, Option.map_some']
      by_cases hkj : k = j
      · subst hkj; simp
      · have : (j < k + 1) = (j < k) := by
          apply propext; constructor <;> intro h <;> omega
        simp [hkj, this]

theorem ds_init_length (s : DsState) : (ds_init s).ds_states.length = s.ds_states.length := by
  have h : ∀ k, ((List.range k).foldl
      (fun s i => s.set_cap_handle i (((i % 2 ^ 64) <<< 32) % 2 ^ 64)) s).ds_states.length =
      s.ds_states.length := by
    intro k
    induction k with
    | zero => rfl
    | succ k ih =>
      rw [List.range_succ, List.foldl_append]
      simp only [List.foldl_cons, List.foldl_nil]
      generalize (List.range k).foldl
        (fun s i => s.set_cap_handle i (((i % 2 ^ 64) <<< 32) % 2 ^ 64)) s = S at ih ⊢
      simp only [DsState.set_cap_handle, List.length_modify]
      exact ih
  exact h _

/-- C1. For every 64-bit handle `h`, `find_cap` returns the table position
`h >> 32` when that is below the table size and `NULL` when it is at or above
it; for every table index `i` and 32-bit nonce `n` the handle `(i << 32) | n`
resolves to `i`; so the handle `ds_init` stores in entry `i`, and the handle
`register_services` stores in an entry `i` that was not yet registered, both
resolve to `i`. -/
theorem find_cap_resolves (s : DsState) (hlen : s.ds_states.length ≤ 2 ^ 32) :
    (∀ h, h < 2 ^ 64 →
      (h >>> 32 < s.ds_states.length → find_cap s.ds_states h = some (h >>> 32)) ∧
      (s.ds_states.length ≤ h >>> 32 → find_cap s.ds_states h = none)) ∧
    (∀ i n, i < s.ds_states.length → n < 2 ^ 32 →
      find_cap s.ds_states ((i <<< 32) ||| n) = some i) ∧
    (∀ i c, (ds_init s).ds_states[i]? = some c →
      find_cap (ds_init s).ds_states c.handle = some i) ∧
    (∀ env i c c', s.ds_states[i]? = some c → c.state ≠ CAP_STATE_REGISTERED →
      (register_services env s).2.ds_states[i]? = some c' →
      find_cap (register_services env s).2.ds_states c'.handle = some i) := by
  refine ⟨fun h hh => ⟨find_cap_lt _ h hh, find_cap_ge _ h hh⟩,
    fun i n hi hn => find_cap_make _ i n hlen hi hn, ?_, ?_⟩
  · intro i c hc
    have hi : i < s.ds_states.length := by
      have := getElem?_lt_length _ _ _ hc
      rwa [ds_init_length] at this
    have h1 := ds_init_inv s s.ds_states.length i
    unfold ds_init at hc
    rw [h1, List.getElem?_eq_getElem hi] at hc
    simp only [Option.map_eq_map, Option.map_some', if_pos hi, Option.some.injEq] at hc
    subst hc
    simp only
    rw [handle_trunc i (by omega)]
    have := find_cap_make (ds_init s).ds_states i 0 (by rw [ds_init_length]; exact hlen)
      (by rw [ds_init_length]; exact hi) (by norm_num)
    simpa using this
  · intro env i c c' hc hreg hc'
    obtain ⟨t, _, hlenS, _, _, hdone⟩ := register_services_inv env s hlen s.ds_states.length
      (le_refl _)
    have hi : i < s.ds_states.length := getElem?_lt_length _ _ _ hc
    obtain ⟨n, err, len, hn, hst, _⟩ := (hdone i c hi hc).2 hreg
    simp only [register_services] at hc' ⊢
    rw [hst] at hc'
    cases hc'
    exact find_cap_make _ i n (by rw [hlenS]; exact hlen) (by rw [hlenS]; exact hi) hn

/-! ## The handshake -/

theorem find_cap_resolves_witness :
    boot_state.ds_states.length ≤ 2 ^ 32 ∧
      find_cap boot_state.ds_states ((3 <<< 32) ||| 5) = some 3 :=
  ⟨by decide, (find_cap_resolves boot_state (by decide)).2.1 3 5 (by decide) (by decide)⟩

/-- C2, counterexample.  With the handshake in phase Started and a transport that
refuses every write, processing an `INIT_ACK` sets the phase to Done but leaves
the capability at index 0, which was `Unknown` (not Registered), in state
`Unknown` instead of `RegistrationSent`. -/
theorem init_ack_send_refused :
    ({ boot_state with hs_state := DS_HS_START } : DsState).hs_state = DS_HS_START ∧
    init_ack_pkt.tag.type = DS_INIT_ACK ∧
    (boot_state.ds_states[0]?).map (fun c => c.state) = some CAP_STATE_UNKNOWN ∧
    (ds_handshake env_down { boot_state with hs_state := DS_HS_START } init_ack_pkt).2.hs_state
      = DS_HS_DONE ∧
    ((ds_handshake env_down { boot_state with hs_state := DS_HS_START }
      init_ack_pkt).2.ds_states[0]?).map (fun c => c.state) = some CAP_STATE_UNKNOWN ∧
    CAP_STATE_UNKNOWN ≠ CAP_STATE_REG_SENT := by
  decide

/-- C2, amended.  In phase Started, processing an `INIT_ACK` returns 0 and sets
the phase to Done; the messages handed to `ds_send` are exactly one registration
request per capability that was not Registered, in table order, each carrying
the handle newly stored in that capability; that handle has the table index in
its high 32 bits; and the capability's state becomes `RegistrationSent` when
that `ds_send` returned a positive value and is unchanged otherwise. -/
theorem init_ack_registers (env : Env) (s : DsState) (pkt : Pkt)
    (hs : s.hs_state = DS_HS_START) (hp : pkt.tag.type = DS_INIT_ACK)
    (hlen : s.ds_states.length ≤ 2 ^ 32) :
    (ds_handshake env s pkt).1 = 0 ∧
    (ds_handshake env s pkt).2.hs_state = DS_HS_DONE ∧
    ∃ t, (ds_handshake env s pkt).2.trace = s.trace ++ t ∧
      sends t = (List.range s.ds_states.length).filterMap
        (fun i => reg_sent s.ds_states[i]? (ds_handshake env s pkt).2.ds_states[i]?) ∧
      ∀ i cp, s.ds_states[i]? = some cp → cp.state ≠ CAP_STATE_REGISTERED →
        ∃ (cp' : ds_cap_state) (len : Nat) (err : Int),
          (ds_handshake env s pkt).2.ds_states[i]? = some cp' ∧
          cp'.handle >>> 32 = i ∧
          Event.ds_send (reg_req_of cp cp'.handle) len err ∈ t ∧
          cp'.state = if err > 0 then CAP_STATE_REG_SENT else cp.state := by
  have hstep : ds_handshake env s pkt = register_services env { s with hs_state := DS_HS_DONE } := by
    unfold ds_handshake
    rw [if_pos hs, if_neg (by simpa using hp)]
  rw [hstep]
  obtain ⟨t, hS, _, _, hsends, hdone⟩ :=
    register_services_inv env { s with hs_state := DS_HS_DONE } hlen s.ds_states.length (le_refl _)
  simp only [register_services]
  refine ⟨trivial, ?_, t, ?_, hsends, ?_⟩
  · rw [hS]
  · rw [hS]
  · intro i cp hcp hreg
    obtain ⟨n, err, len, hn, hst, hmem⟩ := (hdone i cp (getElem?_lt_length _ _ _ hcp) hcp).2 hreg
    exact ⟨_, len, err, hst, handle_index i n hn, hmem, rfl⟩

theorem init_ack_registers_witness :
    ({ boot_state with hs_state := DS_HS_START } : DsState).hs_state = DS_HS_START ∧
    (ds_handshake env_ok { boot_state with hs_state := DS_HS_START } init_ack_pkt).2.hs_state
      = DS_HS_DONE :=
  ⟨by decide, (init_ack_registers env_ok { boot_state with hs_state := DS_HS_START } init_ack_pkt
    (by decide) (by decide) (by decide)).2.1⟩

theorem set_cap_state_getElem? (s : DsState) (i st j : Nat) :
    (s.set_cap_state i st).ds_states[j]? =
      (fun c => if i = j then { c with state := st } else c) <$> s.ds_states[j]? := by
  simp only [DsState.set_cap_state]
  rw [List.getElem?_modify]

theorem set_cap_state_idem (s : DsState) (i st : Nat) :
    (s.set_cap_state i st).set_cap_state i st = s.set_cap_state i st := by
  have h : ((s.set_cap_state i st).set_cap_state i st).ds_states =
      (s.set_cap_state i st).ds_states := by
    apply List.ext_getElem?
    intro j
    rw [set_cap_state_getElem?, set_cap_state_getElem?]
    cases s.ds_states[j]? with
    | none => rfl
    | some c => by_cases hij : i = j <;> simp [hij]
  simp only [DsState.set_cap_state] at h ⊢
  rw [h]

theorem set_cap_state_handles (s : DsState) (i st : Nat) :
    (s.set_cap_state i st).ds_states.map (fun c => c.handle) =
      s.ds_states.map (fun c => c.handle) := by
  apply List.ext_getElem?
  intro j
  rw [List.getElem?_map, List.getElem?_map, set_cap_state_getElem?]
  cases s.ds_states[j]? with
  | none => rfl
  | some c => by_cases hij : i = j <;> simp [hij]

theorem ds_handshake_reg_ack (env : Env) (s : DsState) (pkt : Pkt)
    (hs : s.hs_state = DS_HS_DONE) (hh : pkt.handle < 2 ^ 64)
    (hi : pkt.handle >>> 32 < s.ds_states.length) (ht : pkt.tag.type = DS_REG_ACK) :
    ds_handshake env s pkt = ((0 : Int), s.set_cap_state (pkt.handle >>> 32) CAP_STATE_REGISTERED) := by
  unfold ds_handshake
  rw [if_neg (by rw [hs]; decide), if_neg (by simp [hs]), if_pos ht, find_cap_lt _ _ hh hi]

theorem ds_handshake_reg_nack (env : Env) (s : DsState) (pkt : Pkt)
    (hs : s.hs_state = DS_HS_DONE) (hh : pkt.handle < 2 ^ 64)
    (hi : pkt.handle >>> 32 < s.ds_states.length) (ht : pkt.tag.type = DS_REG_NACK) :
    ds_handshake env s pkt = ((0 : Int), s.set_cap_state (pkt.handle >>> 32) CAP_STATE_UNKNOWN) := by
  unfold ds_handshake
  rw [if_neg (by rw [hs]; decide), if_neg (by simp [hs]), if_neg (by rw [ht]; decide),
    if_pos ht, find_cap_lt _ _ hh hi]

/-- C3. In phase Done, for a 64-bit handle whose index (high 32 bits) is within
the table: a `REG_ACK` sets that capability's state to Registered, and
processing the same `REG_ACK` again leaves the whole state as it was after the
first; a `REG_NACK` sets that capability's state to Unknown; in both cases
every other table entry and every handle is unchanged. -/
theorem reg_ack_nack_known (env : Env) (s : DsState) (pkt : Pkt)
    (hs : s.hs_state = DS_HS_DONE) (hh : pkt.handle < 2 ^ 64)
    (hi : pkt.handle >>> 32 < s.ds_states.length) :
    (pkt.tag.type = DS_REG_ACK →
      ((ds_handshake env s pkt).2.ds_states[pkt.handle >>> 32]?).map (fun c => c.state) =
        some CAP_STATE_REGISTERED ∧
      (ds_handshake env (ds_handshake env s pkt).2 pkt).2 = (ds_handshake env s pkt).2) ∧
    (pkt.tag.type = DS_REG_NACK →
      ((ds_handshake env s pkt).2.ds_states[pkt.handle >>> 32]?).map (fun c => c.state) =
        some CAP_STATE_UNKNOWN) ∧
    (pkt.tag.type = DS_REG_ACK ∨ pkt.tag.type = DS_REG_NACK →
      (∀ j, j ≠ pkt.handle >>> 32 →
        (ds_handshake env s pkt).2.ds_states[j]? = s.ds_states[j]?) ∧
      (ds_handshake env s pkt).2.ds_states.map (fun c => c.handle) =
        s.ds_states.map (fun c => c.handle)) := by
  refine ⟨fun ht => ?_, fun ht => ?_, fun ht => ?_⟩
  · rw [ds_handshake_reg_ack env s pkt hs hh hi ht]
    refine ⟨?_, ?_⟩
    · simp only
      rw [set_cap_state_getElem?, List.getElem?_eq_getElem hi]
      simp
    · have hlen : (s.set_cap_state (pkt.handle >>> 32) CAP_STATE_REGISTERED).ds_states.length
          = s.ds_states.length := by
        simp [DsState.set_cap_state, List.length_modify]
      show (ds_handshake env (s.set_cap_state (pkt.handle >>> 32) CAP_STATE_REGISTERED) pkt).2 =
        s.set_cap_state (pkt.handle >>> 32) CAP_STATE_REGISTERED
      rw [ds_handshake_reg_ack env (s.set_cap_state (pkt.handle >>> 32) CAP_STATE_REGISTERED)
        pkt hs hh (hlen.symm ▸ hi) ht]
      exact set_cap_state_idem _ _ _
  · rw [ds_handshake_reg_nack env s pkt hs hh hi ht]
    simp only
    rw [set_cap_state_getElem?, List.getElem?_eq_getElem hi]
    simp
  · rcases ht with ht | ht
    · rw [ds_handshake_reg_ack env s pkt hs hh hi ht]
      refine ⟨fun j hj => ?_, set_cap_state_handles _ _ _⟩
      simp only
      rw [set_cap_state_getElem?]
      cases s.ds_states[j]? with
      | none => rfl
      | some c =>
        have hne : ¬ (pkt.handle >>> 32 = j) := fun h => hj h.symm
        simp [hne]
    · rw [ds_handshake_reg_nack env s pkt hs hh hi ht]
      refine ⟨fun j hj => ?_, set_cap_state_handles _ _ _⟩
      simp only
      rw [set_cap_state_getElem?]
      cases s.ds_states[j]? with
      | none => rfl
      | some c =>
        have hne : ¬ (pkt.handle >>> 32 = j) := fun h => hj h.symm
        simp [hne]

/-- C4. In phase Done, a `REG_ACK` or `REG_NACK` whose handle's index is at or
beyond the table size returns 0, which is not the connection-reset error, and
leaves the whole state unchanged: every capability's state and handle, the
phase, and the trace (so nothing is sent). -/
theorem reg_ack_nack_unknown_index (env : Env) (s : DsState) (pkt : Pkt)
    (hs : s.hs_state = DS_HS_DONE) (hh : pkt.handle < 2 ^ 64)
    (hi : s.ds_states.length ≤ pkt.handle >>> 32)
    (ht : pkt.tag.type = DS_REG_ACK ∨ pkt.tag.type = DS_REG_NACK) :
    ds_handshake env s pkt = ((0 : Int), s) ∧ (0 : Int) ≠ -ECONNRESET := by
  refine ⟨?_, by decide⟩
  unfold ds_handshake
  rw [if_neg (by rw [hs]; decide), if_neg (by simp [hs])]
  rcases ht with ht | ht
  · rw [if_pos ht, find_cap_ge _ _ hh hi]
  · rw [if_neg (by rw [ht]; decide), if_pos ht, find_cap_ge _ _ hh hi]

theorem reg_ack_nack_known_witness :
    done_state.hs_state = DS_HS_DONE ∧ reg_ack_pkt.handle < 2 ^ 64 ∧
    reg_ack_pkt.handle >>> 32 < done_state.ds_states.length ∧
    reg_ack_pkt.tag.type = DS_REG_ACK ∧
    ((ds_handshake env_ok done_state reg_ack_pkt).2.ds_states[reg_ack_pkt.handle >>> 32]?).map
      (fun c => c.state) = some CAP_STATE_REGISTERED :=
  ⟨by decide, by decide, by decide, by decide,
    ((reg_ack_nack_known env_ok done_state reg_ack_pkt (by decide) (by decide) (by decide)).1
      (by decide)).1⟩

theorem reg_ack_nack_unknown_index_witness :
    done_state.hs_state = DS_HS_DONE ∧ reg_nack_far_pkt.handle < 2 ^ 64 ∧
    done_state.ds_states.length ≤ reg_nack_far_pkt.handle >>> 32 ∧
    reg_nack_far_pkt.tag.type = DS_REG_NACK ∧
    ds_handshake env_ok done_state reg_nack_far_pkt = (0, done_state) :=
  ⟨by decide, by decide, by decide, by decide,
    (reg_ack_nack_unknown_index env_ok done_state reg_nack_far_pkt (by decide) (by decide)
      (by decide) (Or.inr (by decide))).1⟩


/-! ## Dispatch of `DATA` messages -/

/-- C5. For a `DATA` message whose handle `find_cap` does not resolve, `ds_data`
returns 0 and changes nothing but the trace, to which it adds the write
attempts of one `ds_send` call and that call's marker: the only message handed
to `ds_send` is a `NACK` carrying the inbound handle and result `DS_INV_HDL`
(3); the capability table is unchanged, no `data` callback is invoked, and the
receive loop of `ds_event` goes on with the next message. -/
theorem ds_data_unknown_handle (env : Env) (s : DsState) (pkt : Pkt) (len : Int)
    (h : find_cap s.ds_states pkt.handle = none) :
    (ds_data env s pkt len).1 = 0 ∧
    (∃ (ws : List Event) (err : Int), (∀ e ∈ ws, is_write_attempt e = true) ∧
      (ds_data env s pkt len).2 =
        { s with trace := s.trace ++ ws ++
          [Event.ds_send (Msg.data_nack { type := DS_NACK, len := 16 } pkt.handle DS_INV_HDL)
            24 err] }) ∧
    sends (ds_data env s pkt len).2.trace =
      sends s.trace ++ [Msg.data_nack { type := DS_NACK, len := 16 } pkt.handle DS_INV_HDL] ∧
    (ds_data env s pkt len).2.ds_states = s.ds_states ∧
    (∀ i, Event.data_handler i ∈ (ds_data env s pkt len).2.trace →
      Event.data_handler i ∈ s.trace) ∧
    (∀ (rx : Rx) (rest : List Rx), rx.pkt = pkt → 0 < rx.hdr_ret →
      (pkt.tag.len : Int) ≤ rx.body_ret → DS_DATA ≤ pkt.tag.type → Event.panic ∉ s.trace →
      ds_event_loop env s (rx :: rest) =
        ds_event_loop env (ds_data env s pkt ((sizeof_ds_msg_tag : Int) + rx.body_ret)).2
          rest) := by
  have hform : ∀ len', ds_data env s pkt len' = ((0 : Int), (ds_send env s
      (Msg.data_nack { type := DS_NACK, len := 16 } pkt.handle DS_INV_HDL) 24).2) := by
    intro len'
    unfold ds_data
    rw [h]
    rfl
  obtain ⟨ws, hall, hsend⟩ := ds_send_spec env s
    (Msg.data_nack { type := DS_NACK, len := 16 } pkt.handle DS_INV_HDL) 24
  have htr : ∀ len', (ds_data env s pkt len').2.trace = s.trace ++ ws ++
      [Event.ds_send (Msg.data_nack { type := DS_NACK, len := 16 } pkt.handle DS_INV_HDL) 24
        (ds_send env s (Msg.data_nack { type := DS_NACK, len := 16 } pkt.handle DS_INV_HDL)
          24).1] := by
    intro len'; rw [hform, hsend]
  refine ⟨by rw [hform], ⟨ws, _, hall, by rw [hform, hsend]⟩, ?_, by rw [hform, hsend], ?_, ?_⟩
  · rw [htr, sends_append, sends_append, sends_write_attempts ws hall]
    simp [sends]
  · intro i hi
    rw [htr] at hi
    simp only [List.mem_append, List.mem_singleton] at hi
    rcases hi with (hi | hi) | hi
    · exact hi
    · have := hall _ hi; simp [is_write_attempt] at this
    · cases hi
  · intro rx rest hpkt hhdr hbody htype hpanic
    have hnp : Event.panic ∉ (ds_data env s pkt ((sizeof_ds_msg_tag : Int) + rx.body_ret)).2.trace := by
      rw [htr]
      simp only [List.mem_append, List.mem_singleton, not_or]
      refine ⟨⟨hpanic, fun hm => ?_⟩, fun hm => by cases hm⟩
      have := hall _ hm; simp [is_write_attempt] at this
    have hb0 : (0 : Int) ≤ rx.body_ret := le_trans (Int.ofNat_nonneg _) hbody
    rw [ds_event_loop]
    rw [hpkt]
    rw [if_neg (by omega), if_neg (by omega), if_neg (by omega), if_neg (by omega)]
    simp only [if_neg (Nat.not_lt.mpr htype)]
    rw [if_neg (by rw [hform]; show ¬ ((0 : Int) = -ECONNRESET); decide), if_neg hnp]

theorem ds_data_unknown_handle_witness :
    find_cap done_state.ds_states data_far_pkt.handle = none ∧
    sends (ds_data env_ok done_state data_far_pkt 24).2.trace =
      sends done_state.trace ++
        [Msg.data_nack { type := DS_NACK, len := 16 } data_far_pkt.handle DS_INV_HDL] :=
  ⟨by decide, (ds_data_unknown_handle env_ok done_state data_far_pkt 24 (by decide)).2.2.1⟩

/-! ## CPU reconfiguration: `purge_dups` and the mask -/

theorem purge_dups_inner_steps (cpu : Nat) (list : List Nat) (i : Nat) :
    ∀ m, ((List.range' (i + 1) m).foldl
        (fun l j => if l.getD j 0 = cpu then l.set j CPU_SENTINEL else l) list).length =
          list.length ∧
      ∀ j, ((List.range' (i + 1) m).foldl
        (fun l j => if l.getD j 0 = cpu then l.set j CPU_SENTINEL else l) list)[j]? =
        if i + 1 ≤ j ∧ j < i + 1 + m ∧ list[j]? = some cpu then some CPU_SENTINEL
        else list[j]? := by
  intro m
  induction m with
  | zero =>
    refine ⟨rfl, fun j => ?_⟩
    have : ¬ (i + 1 ≤ j ∧ j < i + 1 + 0 ∧ list[j]? = some cpu) := by omega
    simp [this]
  | succ m ih =>
    obtain ⟨ihlen, ihget⟩ := ih
    rw [List.range'_concat, List.foldl_append]
    simp only [List.foldl_cons, List.foldl_nil, Nat.one_mul]
    generalize (List.range' (i + 1) m).foldl
      (fun l j => if l.getD j 0 = cpu then l.set j CPU_SENTINEL else l) list = l' at ihlen ihget ⊢
    have hj0 : l'[i + 1 + m]? = list[i + 1 + m]? := by
      rw [ihget]
      have : ¬ (i + 1 ≤ i + 1 + m ∧ i + 1 + m < i + 1 + m ∧ list[i + 1 + m]? = some cpu) := by
        omega
      rw [if_neg this]
    by_cases hc : l'.getD (i + 1 + m) 0 = cpu
    · rw [if_pos hc]
      refine ⟨by rw [List.length_set, ihlen], fun j => ?_⟩
      rw [List.getElem?_set]
      by_cases hjj : i + 1 + m = j
      · subst hjj
        rw [if_pos rfl]
        by_cases hlt : i + 1 + m < l'.length
        · rw [if_pos hlt]
          have h1 : list[i + 1 + m]? = some cpu := by
            rw [← hj0]
            rw [List.getD_eq_getElem?_getD, List.getElem?_eq_getElem hlt] at hc
            rw [List.getElem?_eq_getElem hlt]
            simpa using hc
          rw [if_pos ⟨by omega, by omega, h1⟩]
        · rw [if_neg hlt]
          have h1 : list[i + 1 + m]? = none := by
            rw [← hj0]; exact List.getElem?_eq_none (by omega)
          rw [h1]; simp
      · rw [if_neg hjj, ihget]
        by_cases hcond : i + 1 ≤ j ∧ j < i + 1 + m ∧ list[j]? = some cpu
        · rw [if_pos hcond, if_pos ⟨hcond.1, by omega, hcond.2.2⟩]
        · rw [if_neg hcond, if_neg]
          intro h; exact hcond ⟨h.1, by omega, h.2.2⟩
    · rw [if_neg hc]
      refine ⟨ihlen, fun j => ?_⟩
      rw [ihget]
      by_cases hcond : i + 1 ≤ j ∧ j < i + 1 + m ∧ list[j]? = some cpu
      · rw [if_pos hcond, if_pos ⟨hcond.1, by omega, hcond.2.2⟩]
      · rw [if_neg hcond, if_neg]
        intro h
        by_cases hjj : j = i + 1 + m
        · subst hjj
          apply hc
          rw [List.getD_eq_getElem?_getD, hj0, h.2.2]; rfl
        · exact hcond ⟨h.1, by omega, h.2.2⟩

theorem purge_dups_steps (list : List Nat) (n : Nat) (hn : n ≤ list.length) :
    ∀ k, k ≤ n →
      ((List.range k).foldl (fun l i =>
        let cpu := l.getD i 0
        if cpu = CPU_SENTINEL then l else purge_dups_inner cpu l i n) list).length = list.length ∧
      ∀ j,
        (repeats_before list n k j →
          ((List.range k).foldl (fun l i =>
            let cpu := l.getD i 0
            if cpu = CPU_SENTINEL then l else purge_dups_inner cpu l i n) list)[j]? =
              some CPU_SENTINEL) ∧
        (¬ repeats_before list n k j →
          ((List.range k).foldl (fun l i =>
            let cpu := l.getD i 0
            if cpu = CPU_SENTINEL then l else purge_dups_inner cpu l i n) list)[j]? =
              list[j]?) := by
  intro k
  induction k with
  | zero =>
    intro _
    refine ⟨rfl, fun j => ⟨fun h => ?_, fun _ => rfl⟩⟩
    obtain ⟨_, i, hi, _⟩ := h
    omega
  | succ k ih =>
    intro hk
    obtain ⟨ihlen, ihget⟩ := ih (by omega)
    rw [List.range_succ, List.foldl_append]
    simp only [List.foldl_cons, List.foldl_nil]
    generalize (List.range k).foldl (fun l i =>
        let cpu := l.getD i 0
        if cpu = CPU_SENTINEL then l else purge_dups_inner cpu l i n) list = l' at ihlen ihget ⊢
    have hklt : k < list.length := by omega
    have hgetD : l'.getD k 0 = l'[k]?.getD 0 := List.getD_eq_getElem?_getD _ _ _
    by_cases hrep : repeats_before list n k k
    · -- entry k was already purged
      have hk1 : l'[k]? = some CPU_SENTINEL := (ihget k).1 hrep
      have hcpu : l'.getD k 0 = CPU_SENTINEL := by rw [hgetD, hk1]; rfl
      rw [if_pos hcpu]
      refine ⟨ihlen, fun j => ?_⟩
      have hiff : repeats_before list n (k + 1) j ↔ repeats_before list n k j := by
        constructor
        · rintro ⟨hj, i, hi, hij, heq, hne⟩
          by_cases hik : i = k
          · subst hik
            obtain ⟨_, i', hi', hi'k, heq', _⟩ := hrep
            exact ⟨hj, i', hi', by omega, heq'.trans heq, hne⟩
          · exact ⟨hj, i, by omega, hij, heq, hne⟩
        · rintro ⟨hj, i, hi, hij, heq, hne⟩
          exact ⟨hj, i, by omega, hij, heq, hne⟩
      rw [hiff]
      exact ihget j
    · have hk1 : l'[k]? = list[k]? := (ihget k).2 hrep
      rw [List.getElem?_eq_getElem hklt] at hk1
      by_cases hx : list[k] = CPU_SENTINEL
      · have hcpu : l'.getD k 0 = CPU_SENTINEL := by rw [hgetD, hk1]; exact hx
        rw [if_pos hcpu]
        refine ⟨ihlen, fun j => ?_⟩
        have hiff : repeats_before list n (k + 1) j ↔ repeats_before list n k j := by
          constructor
          · rintro ⟨hj, i, hi, hij, heq, hne⟩
            by_cases hik : i = k
            · subst hik
              exfalso; apply hne
              rw [← heq, List.getElem?_eq_getElem hklt, hx]
            · exact ⟨hj, i, by omega, hij, heq, hne⟩
          · rintro ⟨hj, i, hi, hij, heq, hne⟩
            exact ⟨hj, i, by omega, hij, heq, hne⟩
        rw [hiff]
        exact ihget j
      · have hcpu : l'.getD k 0 = list[k] := by rw [hgetD, hk1]; rfl
        have hcpu' : ¬ (l'.getD k 0 = CPU_SENTINEL) := by rw [hcpu]; exact hx
        rw [if_neg hcpu', hcpu]
        unfold purge_dups_inner
        obtain ⟨hlen2, hget2⟩ := purge_dups_inner_steps list[k] l' k (n - (k + 1))
        refine ⟨by rw [hlen2, ihlen], fun j => ?_⟩
        rw [hget2 j]
        constructor
        · rintro ⟨hj, i, hi, hij, heq, hne⟩
          by_cases hik : i = k
          · subst hik
            by_cases hrepj : repeats_before list n i j
            · have := (ihget j).1 hrepj
              rw [this]; simp
            · have h2 := (ihget j).2 hrepj
              rw [List.getElem?_eq_getElem hklt] at heq
              rw [if_pos ⟨by omega, by omega, by rw [h2, ← heq]⟩]
          · have hrepj : repeats_before list n k j := ⟨hj, i, by omega, hij, heq, hne⟩
            have := (ihget j).1 hrepj
            rw [this]; simp
        · intro hnrep
          have hnrepk : ¬ repeats_before list n k j := by
            rintro ⟨hj, i, hi, hij, heq, hne⟩
            exact hnrep ⟨hj, i, by omega, hij, heq, hne⟩
          have h2 := (ihget j).2 hnrepk
          rw [if_neg, h2]
          rintro ⟨h1, h3, h4⟩
          apply hnrep
          refine ⟨by omega, k, by omega, by omega, ?_, ?_⟩
          · rw [List.getElem?_eq_getElem hklt, ← h2, h4]
          · rw [← h2, h4]
            intro h5; exact hx (Option.some.inj h5)

/-- Pointwise description of `purge_dups` on a list with at least `n` entries. -/
theorem purge_dups_getElem? (list : List Nat) (n : Nat) (hn : n ≤ list.length) :
    (purge_dups list n).length = list.length ∧
    ∀ j, (repeats_before list n n j → (purge_dups list n)[j]? = some CPU_SENTINEL) ∧
      (¬ repeats_before list n n j → (purge_dups list n)[j]? = list[j]?) :=
  purge_dups_steps list n hn n (le_refl _)


theorem purge_dups_first (list : List Nat) (n : Nat) (hn : n ≤ list.length) (c : Nat)
    (hc : c ≠ CPU_SENTINEL) :
    (∃ i, i < n ∧ (purge_dups list n)[i]? = some c) ↔ (∃ i, i < n ∧ list[i]? = some c) := by
  obtain ⟨_, hget⟩ := purge_dups_getElem? list n hn
  constructor
  · rintro ⟨i, hi, hic⟩
    by_cases hrep : repeats_before list n n i
    · rw [(hget i).1 hrep] at hic
      exact absurd (Option.some.inj hic).symm hc
    · rw [(hget i).2 hrep] at hic
      exact ⟨i, hi, hic⟩
  · intro hex
    classical
    obtain ⟨hi, hic⟩ := Nat.find_spec hex
    refine ⟨Nat.find hex, hi, ?_⟩
    have hnrep : ¬ repeats_before list n n (Nat.find hex) := by
      rintro ⟨_, i', _, hi'lt, heq, _⟩
      exact Nat.find_min hex hi'lt ⟨by omega, heq.trans hic⟩
    rw [(hget _).2 hnrep]
    exact hic

theorem dr_cpu_build_mask_steps (NR : Nat) (cl : List Nat) (n : Nat) (hn : n ≤ cl.length) :
    ∀ k, k ≤ n →
      ((List.range k).foldl (fun mask i =>
        if cl.getD i 0 = CPU_SENTINEL then mask
        else if cl.getD i 0 < NR then cpu_set (cl.getD i 0) mask
        else mask) (cpus_clear NR)).length = NR ∧
      ∀ c, ((List.range k).foldl (fun mask i =>
        if cl.getD i 0 = CPU_SENTINEL then mask
        else if cl.getD i 0 < NR then cpu_set (cl.getD i 0) mask
        else mask) (cpus_clear NR))[c]? = some true ↔
        (c < NR ∧ c ≠ CPU_SENTINEL ∧ ∃ i, i < k ∧ cl[i]? = some c) := by
  intro k
  induction k with
  | zero =>
    intro _
    refine ⟨by simp [cpus_clear], fun c => ?_⟩
    constructor
    · intro h
      simp only [List.range_zero, List.foldl_nil, cpus_clear] at h
      rw [List.getElem?_replicate] at h
      split at h <;> simp at h
    · rintro ⟨_, _, i, hi, _⟩; omega
  | succ k ih =>
    intro hk
    obtain ⟨ihlen, ihget⟩ := ih (by omega)
    rw [List.range_succ, List.foldl_append]
    simp only [List.foldl_cons, List.foldl_nil]
    generalize (List.range k).foldl (fun mask i =>
        if cl.getD i 0 = CPU_SENTINEL then mask
        else if cl.getD i 0 < NR then cpu_set (cl.getD i 0) mask
        else mask) (cpus_clear NR) = m at ihlen ihget ⊢
    have hklt : k < cl.length := by omega
    have hgetD : cl.getD k 0 = cl[k] := by
      rw [List.getD_eq_getElem?_getD, List.getElem?_eq_getElem hklt]; rfl
    have hkk : cl[k]? = some cl[k] := List.getElem?_eq_getElem hklt
    rw [hgetD]
    have hext : ∀ c, (∃ i, i < k + 1 ∧ cl[i]? = some c) ↔
        ((∃ i, i < k ∧ cl[i]? = some c) ∨ cl[k] = c) := by
      intro c
      constructor
      · rintro ⟨i, hi, hic⟩
        by_cases hik : i = k
        · subst hik; rw [hkk] at hic; exact Or.inr (Option.some.inj hic)
        · exact Or.inl ⟨i, by omega, hic⟩
      · rintro (⟨i, hi, hic⟩ | h)
        · exact ⟨i, by omega, hic⟩
        · exact ⟨k, by omega, by rw [hkk, h]⟩
    by_cases hs : cl[k] = CPU_SENTINEL
    · rw [if_pos hs]
      refine ⟨ihlen, fun c => ?_⟩
      rw [ihget c, hext c]
      constructor
      · rintro ⟨h1, h2, h3⟩; exact ⟨h1, h2, Or.inl h3⟩
      · rintro ⟨h1, h2, h3 | h3⟩
        · exact ⟨h1, h2, h3⟩
        · exact absurd (h3 ▸ hs) h2
    · rw [if_neg hs]
      by_cases hlt : cl[k] < NR
      · rw [if_pos hlt]
        refine ⟨by simp [cpu_set, ihlen], fun c => ?_⟩
        simp only [cpu_set]
        rw [List.getElem?_set, hext c]
        by_cases hck : cl[k] = c
        · rw [if_pos hck, if_pos (by omega)]
          constructor
          · intro _; exact ⟨hck ▸ hlt, hck ▸ hs, Or.inr hck⟩
          · intro _; rfl
        · rw [if_neg hck, ihget c]
          constructor
          · rintro ⟨h1, h2, h3⟩; exact ⟨h1, h2, Or.inl h3⟩
          · rintro ⟨h1, h2, h3 | h3⟩
            · exact ⟨h1, h2, h3⟩
            · exact absurd h3 hck
      · rw [if_neg hlt]
        refine ⟨ihlen, fun c => ?_⟩
        rw [ihget c, hext c]
        constructor
        · rintro ⟨h1, h2, h3⟩; exact ⟨h1, h2, Or.inl h3⟩
        · rintro ⟨h1, h2, h3 | h3⟩
          · exact ⟨h1, h2, h3⟩
          · exact absurd (h3 ▸ h1) hlt

theorem cpumask_bits_mem (m : List Bool) : ∀ k c, c ∈ cpumask_bits m k ↔
    (k ≤ c ∧ m[c - k]? = some true) := by
  induction m with
  | nil => intro k c; simp [cpumask_bits]
  | cons b m ih =>
    intro k c
    have hstep : (k + 1 ≤ c ∧ m[c - (k + 1)]? = some true) ↔
        (k ≤ c ∧ c ≠ k ∧ (b :: m)[c - k]? = some true) := by
      constructor
      · rintro ⟨h1, h2⟩
        refine ⟨by omega, by omega, ?_⟩
        have : c - k = (c - (k + 1)) + 1 := by omega
        rw [this, List.getElem?_cons_succ]; exact h2
      · rintro ⟨h1, h2, h3⟩
        have : c - k = (c - (k + 1)) + 1 := by omega
        rw [this, List.getElem?_cons_succ] at h3
        exact ⟨by omega, h3⟩
    cases b with
    | true =>
      simp only [cpumask_bits, if_true, List.mem_cons, ih (k + 1) c, hstep]
      constructor
      · rintro (h | ⟨h1, _, h3⟩)
        · subst h; simp
        · exact ⟨h1, h3⟩
      · rintro ⟨h1, h3⟩
        by_cases hck : c = k
        · exact Or.inl hck
        · exact Or.inr ⟨h1, hck, h3⟩
    | false =>
      simp only [cpumask_bits, Bool.false_eq_true, if_false, ih (k + 1) c, hstep]
      constructor
      · rintro ⟨h1, _, h3⟩; exact ⟨h1, h3⟩
      · rintro ⟨h1, h3⟩
        refine ⟨h1, ?_, h3⟩
        intro hck; subst hck; simp at h3

theorem cpumask_bits_sorted (m : List Bool) : ∀ k, (cpumask_bits m k).Pairwise (· < ·) := by
  induction m with
  | nil => intro k; simp [cpumask_bits]
  | cons b m ih =>
    intro k
    cases b with
    | true =>
      simp only [cpumask_bits, if_true, List.pairwise_cons]
      refine ⟨fun c hc => ?_, ih (k + 1)⟩
      have := (cpumask_bits_mem m (k + 1) c).1 hc
      omega
    | false =>
      simp only [cpumask_bits, Bool.false_eq_true, if_false]
      exact ih (k + 1)

/-- The `BUG_ON(i != ncpus)` of `dr_cpu_init_response` cannot fire. -/
theorem cpus_weight_eq_length (m : List Bool) : cpus_weight m = (for_each_cpu_mask m).length := by
  have h : ∀ k, m.count true = (cpumask_bits m k).length := by
    induction m with
    | nil => intro k; rfl
    | cons b m ih =>
      intro k
      cases b with
      | true => simp [cpumask_bits, ih (k + 1)]
      | false => simp [cpumask_bits, ih (k + 1)]
  exact h 0

/-! ## CPU reconfiguration: the per-CPU loops -/

theorem dr_cpu_mark_loop_at (c res stat : Nat) :
    ∀ (done : List dr_cpu_resp_entry) (n : Nat) (e : dr_cpu_resp_entry)
      (tl : List dr_cpu_resp_entry),
      (∀ d ∈ done, d.cpu ≠ c) → e.cpu = c → done.length < n →
      dr_cpu_mark_loop c res stat n (done ++ e :: tl) =
        done ++ { e with result := res, stat := stat } :: tl := by
  intro done
  induction done with
  | nil =>
    intro n e tl _ he hn
    obtain ⟨n', rfl⟩ : ∃ n', n = n' + 1 := ⟨n - 1, by simp at hn; omega⟩
    simp [dr_cpu_mark_loop, he]
  | cons d done ih =>
    intro n e tl hd he hn
    obtain ⟨n', rfl⟩ : ∃ n', n = n' + 1 := ⟨n - 1, by simp at hn; omega⟩
    have hdc : d.cpu ≠ c := hd d (by simp)
    rw [List.cons_append, dr_cpu_mark_loop, if_pos hdc,
      ih n' e tl (fun x hx => hd x (by simp [hx])) he (by simp at hn; omega)]
    rfl

theorem dr_cpu_configure_loop_step (env : Env) (ncpus c : Nat) (rest : List Nat) (s : DsState)
    (resp : dr_cpu_resp) :
    dr_cpu_configure_loop env ncpus (c :: rest) s resp =
      dr_cpu_configure_loop env ncpus rest
        { s with trace := s.trace ++ configure_calls c (configure_outcome env s.trace c) }
        (if (configure_outcome env s.trace c).1 = 0 then resp
         else dr_cpu_mark resp c ncpus
          (configure_record c (configure_outcome env s.trace c)).result
          (configure_record c (configure_outcome env s.trace c)).stat) := by
  rw [dr_cpu_configure_loop]
  simp only [DsState.log, configure_outcome]
  generalize env.cpu_up s.trace c = err
  generalize env.cpu_present (s.trace ++ [Event.cpu_up c err]) c = p
  have hE : ENODEV ≠ 0 := by decide
  by_cases h0 : err = 0
  · simp [h0, configure_calls]
  · cases p with
    | true =>
      by_cases hnd : err = -ENODEV
      · subst hnd; simp [hE, configure_calls, configure_record]
      · simp [h0, hnd, configure_calls, configure_record]
    | false => simp [h0, configure_calls, configure_record]

theorem configure_record_cpu (c : Nat) (o : Int × Bool) : (configure_record c o).cpu = c := by
  unfold configure_record; split_ifs <;> rfl

theorem configure_record_str_off (c : Nat) (o : Int × Bool) :
    (configure_record c o).str_off = 0 := by
  unfold configure_record; split_ifs <;> rfl

theorem configure_record_ok (c : Nat) (o : Int × Bool) (h : o.1 = 0) :
    configure_record c o = configure_record c (0, true) := by
  unfold configure_record; simp [h]

theorem dr_cpu_configure_loop_spec (env : Env) (ncpus : Nat) :
    ∀ (cs : List Nat) (s : DsState) (resp : dr_cpu_resp) (done : List dr_cpu_resp_entry),
      resp.ent = done ++ cs.map (fun c => configure_record c (0, true)) →
      (∀ d ∈ done, d.cpu ∉ cs) → cs.Nodup → done.length + cs.length ≤ ncpus →
      ∃ outs : List (Int × Bool), outs.length = cs.length ∧
        dr_cpu_configure_loop env ncpus cs s resp =
          ({ s with trace := s.trace ++ (List.zipWith configure_calls cs outs).flatten },
           { resp with ent := done ++ List.zipWith configure_record cs outs }) := by
  intro cs
  induction cs with
  | nil =>
    intro s resp done hent _ _ _
    refine ⟨[], rfl, ?_⟩
    simp only [dr_cpu_configure_loop, List.zipWith_nil_left, List.flatten_nil, List.append_nil]
    simp only [List.map_nil, List.append_nil] at hent
    rw [← hent]
  | cons c rest ih =>
    intro s resp done hent hdone hnodup hlen
    rw [dr_cpu_configure_loop_step]
    generalize ho : configure_outcome env s.trace c = o
    have hc_notin : c ∉ rest := (List.nodup_cons.1 hnodup).1
    have hresp : (if o.1 = 0 then resp
         else dr_cpu_mark resp c ncpus (configure_record c o).result
          (configure_record c o).stat) =
        { resp with ent := (done ++ [configure_record c o]) ++
            rest.map (fun c => configure_record c (0, true)) } := by
      by_cases h0 : o.1 = 0
      · rw [if_pos h0, configure_record_ok c o h0]
        have : resp.ent = done ++ [configure_record c (0, true)] ++
            rest.map (fun c => configure_record c (0, true)) := by
          rw [hent]; simp
        rw [← this]
      · rw [if_neg h0]
        unfold dr_cpu_mark
        rw [hent, List.map_cons, dr_cpu_mark_loop_at c _ _ done ncpus _ _
          (fun d hd hdc => hdone d hd (by simp [hdc]))
          (configure_record_cpu c _) (by simp at hlen; omega)]
        have hrec : ({ configure_record c (0, true) with
            result := (configure_record c o).result, stat := (configure_record c o).stat }
              : dr_cpu_resp_entry) = configure_record c o := by
          have h1 := configure_record_cpu c o
          have h2 := configure_record_str_off c o
          have h3 := configure_record_cpu c (0, true)
          have h4 := configure_record_str_off c (0, true)
          cases hr : configure_record c o
          rw [hr] at h1 h2
          simp only at h1 h2
          simp [h1, h2, h3, h4]
        rw [hrec]
        simp
    rw [hresp]
    obtain ⟨outs, houts, hloop⟩ := ih
      { s with trace := s.trace ++ configure_calls c o }
      { resp with ent := (done ++ [configure_record c o]) ++
            rest.map (fun c => configure_record c (0, true)) }
      (done ++ [configure_record c o]) rfl
      (by
        intro d hd
        rcases List.mem_append.1 hd with h | h
        · intro hm; exact hdone d h (by simp [hm])
        · rw [List.mem_singleton] at h
          rw [h, configure_record_cpu]; exact hc_notin)
      (List.nodup_cons.1 hnodup).2
      (by simp at hlen ⊢; omega)
    refine ⟨o :: outs, by simp [houts], ?_⟩
    rw [hloop]
    simp

theorem unconfigure_record_cpu (c : Nat) (err : Int) : (unconfigure_record c err).cpu = c := by
  unfold unconfigure_record; split_ifs <;> rfl

theorem unconfigure_record_str_off (c : Nat) (err : Int) :
    (unconfigure_record c err).str_off = 0 := by
  unfold unconfigure_record; split_ifs <;> rfl

theorem dr_cpu_unconfigure_loop_step (env : Env) (ncpus c : Nat) (rest : List Nat)
    (s : DsState) (resp : dr_cpu_resp) :
    dr_cpu_unconfigure_loop env ncpus (c :: rest) s resp =
      dr_cpu_unconfigure_loop env ncpus rest
        { s with trace := s.trace ++ unconfigure_calls c (env.cpu_down s.trace c) }
        (if env.cpu_down s.trace c = 0 then resp
         else dr_cpu_mark resp c ncpus
          (unconfigure_record c (env.cpu_down s.trace c)).result
          (unconfigure_record c (env.cpu_down s.trace c)).stat) := by
  rw [dr_cpu_unconfigure_loop]
  simp only [DsState.log]
  generalize env.cpu_down s.trace c = err
  by_cases h0 : err = 0
  · simp [h0, unconfigure_calls]
  · simp [h0, unconfigure_calls, unconfigure_record]

theorem dr_cpu_unconfigure_loop_spec (env : Env) (ncpus : Nat) :
    ∀ (cs : List Nat) (s : DsState) (resp : dr_cpu_resp) (done : List dr_cpu_resp_entry),
      resp.ent = done ++ cs.map (fun c => unconfigure_record c 0) →
      (∀ d ∈ done, d.cpu ∉ cs) → cs.Nodup → done.length + cs.length ≤ ncpus →
      ∃ outs : List Int, outs.length = cs.length ∧
        dr_cpu_unconfigure_loop env ncpus cs s resp =
          ({ s with trace := s.trace ++ (List.zipWith unconfigure_calls cs outs).flatten },
           { resp with ent := done ++ List.zipWith unconfigure_record cs outs }) := by
  intro cs
  induction cs with
  | nil =>
    intro s resp done hent _ _ _
    refine ⟨[], rfl, ?_⟩
    simp only [dr_cpu_unconfigure_loop, List.zipWith_nil_left, List.flatten_nil,
      List.append_nil]
    simp only [List.map_nil, List.append_nil] at hent
    rw [← hent]
  | cons c rest ih =>
    intro s resp done hent hdone hnodup hlen
    rw [dr_cpu_unconfigure_loop_step]
    generalize env.cpu_down s.trace c = o
    have hc_notin : c ∉ rest := (List.nodup_cons.1 hnodup).1
    have hresp : (if o = 0 then resp
         else dr_cpu_mark resp c ncpus (unconfigure_record c o).result
          (unconfigure_record c o).stat) =
        { resp with ent := (done ++ [unconfigure_record c o]) ++
            rest.map (fun c => unconfigure_record c 0) } := by
      by_cases h0 : o = 0
      · rw [if_pos h0, h0]
        have : resp.ent = done ++ [unconfigure_record c 0] ++
            rest.map (fun c => unconfigure_record c 0) := by
          rw [hent]; simp
        rw [← this]
      · rw [if_neg h0]
        unfold dr_cpu_mark
        rw [hent, List.map_cons, dr_cpu_mark_loop_at c _ _ done ncpus _ _
          (fun d hd hdc => hdone d hd (by simp [hdc]))
          (unconfigure_record_cpu c _) (by simp at hlen; omega)]
        have hrec : ({ unconfigure_record c 0 with
            result := (unconfigure_record c o).result, stat := (unconfigure_record c o).stat }
              : dr_cpu_resp_entry) = unconfigure_record c o := by
          have h1 := unconfigure_record_cpu c o
          have h2 := unconfigure_record_str_off c o
          have h3 := unconfigure_record_cpu c 0
          have h4 := unconfigure_record_str_off c 0
          cases hr : unconfigure_record c o
          rw [hr] at h1 h2
          simp only at h1 h2
          simp [h1, h2, h3, h4]
        rw [hrec]
        simp
    rw [hresp]
    obtain ⟨outs, houts, hloop⟩ := ih
      { s with trace := s.trace ++ unconfigure_calls c o }
      { resp with ent := (done ++ [unconfigure_record c o]) ++
            rest.map (fun c => unconfigure_record c 0) }
      (done ++ [unconfigure_record c o]) rfl
      (by
        intro d hd
        rcases List.mem_append.1 hd with h | h
        · intro hm; exact hdone d h (by simp [hm])
        · rw [List.mem_singleton] at h
          rw [h, unconfigure_record_cpu]; exact hc_notin)
      (List.nodup_cons.1 hnodup).2
      (by simp at hlen ⊢; omega)
    refine ⟨o :: outs, by simp [houts], ?_⟩
    rw [hloop]
    simp

/-! ## CPU reconfiguration: one request -/

theorem for_each_cpu_mask_nodup (m : List Bool) : (for_each_cpu_mask m).Nodup :=
  (cpumask_bits_sorted m 0).imp (fun h => Nat.ne_of_lt h)

theorem __dr_cpu_send_error_spec (env : Env) (s : DsState) (cp : Nat) (data : Pkt) :
    ∃ (ws : List Event) (err : Int), (∀ e ∈ ws, is_write_attempt e = true) ∧
      __dr_cpu_send_error env s cp data =
        { s with trace := s.trace ++ ws ++
          [Event.ds_send (Msg.dr_cpu (dr_cpu_error_pkt (s.cap_handle cp)
            data.dr_cpu_tag.req_num)) 32 err] } := by
  obtain ⟨ws, hall, hsend⟩ := ds_send_spec env s
    (Msg.dr_cpu (dr_cpu_error_pkt (s.cap_handle cp) data.dr_cpu_tag.req_num)) 32
  exact ⟨ws, _, hall, hsend⟩

theorem dr_cpu_configure_fail (env : Env) (s : DsState) (cp req_num : Nat) (mask : List Bool)
    (hk : env.kzalloc s.trace (dr_cpu_size_response (cpus_weight mask)) = false) :
    dr_cpu_configure env s cp req_num mask =
      (-ENOMEM, { s with trace := s.trace ++
        [Event.kzalloc (dr_cpu_size_response (cpus_weight mask)) false] }) := by
  unfold dr_cpu_configure
  simp [hk, DsState.log]

theorem dr_cpu_configure_spec (env : Env) (s : DsState) (cp req_num : Nat) (mask : List Bool)
    (hk : env.kzalloc s.trace (dr_cpu_size_response (cpus_weight mask)) = true) :
    ∃ (outs : List (Int × Bool)) (ws : List Event) (err : Int),
      outs.length = (for_each_cpu_mask mask).length ∧
      (∀ e ∈ ws, is_write_attempt e = true) ∧
      dr_cpu_configure env s cp req_num mask =
        (0, { s with trace := s.trace ++
          [Event.kzalloc (dr_cpu_size_response (cpus_weight mask)) true,
            Event.mdesc_fill_in_cpu_data mask] ++
          (List.zipWith configure_calls (for_each_cpu_mask mask) outs).flatten ++ ws ++
          [Event.ds_send (Msg.dr_cpu (dr_cpu_response (s.cap_handle cp) req_num
            (List.zipWith configure_record (for_each_cpu_mask mask) outs)))
            (dr_cpu_size_response (cpus_weight mask)) err] ++ [Event.fixup_irqs] }) := by
  unfold dr_cpu_configure
  simp only [hk, DsState.log, Bool.not_true, Bool.false_eq_true, if_false]
  obtain ⟨outs, houts, hloop⟩ := dr_cpu_configure_loop_spec env (cpus_weight mask)
    (for_each_cpu_mask mask)
    { s with trace := s.trace ++
        [Event.kzalloc (dr_cpu_size_response (cpus_weight mask)) true] ++
        [Event.mdesc_fill_in_cpu_data mask] }
    (dr_cpu_init_response req_num (s.cap_handle cp) (dr_cpu_size_response (cpus_weight mask))
      (cpus_weight mask) mask DR_CPU_STAT_CONFIGURED) []
    (by simp [dr_cpu_init_response, configure_record])
    (by simp) (for_each_cpu_mask_nodup mask)
    (by simp [cpus_weight_eq_length])
  have hcap : ({ s with trace := s.trace ++
      [Event.kzalloc (dr_cpu_size_response (cpus_weight mask)) true] } : DsState).cap_handle cp
      = s.cap_handle cp := rfl
  rw [hcap, hloop]
  simp only
  have hresp : ({ dr_cpu_init_response req_num (s.cap_handle cp)
      (dr_cpu_size_response (cpus_weight mask)) (cpus_weight mask) mask DR_CPU_STAT_CONFIGURED
        with ent := [] ++ List.zipWith configure_record (for_each_cpu_mask mask) outs }
        : dr_cpu_resp) =
      dr_cpu_response (s.cap_handle cp) req_num
        (List.zipWith configure_record (for_each_cpu_mask mask) outs) := by
    simp [dr_cpu_init_response, dr_cpu_response, houts, cpus_weight_eq_length]
  rw [hresp]
  generalize hS0 : ({ s with trace := s.trace ++
        [Event.kzalloc (dr_cpu_size_response (cpus_weight mask)) true] ++
        [Event.mdesc_fill_in_cpu_data mask] ++
        (List.zipWith configure_calls (for_each_cpu_mask mask) outs).flatten } : DsState) = S0
  obtain ⟨ws, hall, hsend⟩ := ds_send_spec env S0
    (Msg.dr_cpu (dr_cpu_response (s.cap_handle cp) req_num
        (List.zipWith configure_record (for_each_cpu_mask mask) outs)))
    (dr_cpu_size_response (cpus_weight mask))
  refine ⟨outs, ws, (ds_send env S0
    (Msg.dr_cpu (dr_cpu_response (s.cap_handle cp) req_num
        (List.zipWith configure_record (for_each_cpu_mask mask) outs)))
    (dr_cpu_size_response (cpus_weight mask))).1, houts, hall, ?_⟩
  rw [hsend, ← hS0]
  simp

theorem dr_cpu_unconfigure_fail (env : Env) (s : DsState) (cp req_num : Nat) (mask : List Bool)
    (hk : env.kzalloc s.trace (dr_cpu_size_response (cpus_weight mask)) = false) :
    dr_cpu_unconfigure env s cp req_num mask =
      (-ENOMEM, { s with trace := s.trace ++
        [Event.kzalloc (dr_cpu_size_response (cpus_weight mask)) false] }) := by
  unfold dr_cpu_unconfigure
  simp [hk, DsState.log]

theorem dr_cpu_unconfigure_spec (env : Env) (s : DsState) (cp req_num : Nat) (mask : List Bool)
    (hk : env.kzalloc s.trace (dr_cpu_size_response (cpus_weight mask)) = true) :
    ∃ (outs : List Int) (ws : List Event) (err : Int),
      outs.length = (for_each_cpu_mask mask).length ∧
      (∀ e ∈ ws, is_write_attempt e = true) ∧
      dr_cpu_unconfigure env s cp req_num mask =
        (0, { s with trace := s.trace ++
          [Event.kzalloc (dr_cpu_size_response (cpus_weight mask)) true] ++
          (List.zipWith unconfigure_calls (for_each_cpu_mask mask) outs).flatten ++ ws ++
          [Event.ds_send (Msg.dr_cpu (dr_cpu_response (s.cap_handle cp) req_num
            (List.zipWith unconfigure_record (for_each_cpu_mask mask) outs)))
            (dr_cpu_size_response (cpus_weight mask)) err] }) := by
  unfold dr_cpu_unconfigure
  simp only [hk, DsState.log, Bool.not_true, Bool.false_eq_true, if_false]
  obtain ⟨outs, houts, hloop⟩ := dr_cpu_unconfigure_loop_spec env (cpus_weight mask)
    (for_each_cpu_mask mask)
    { s with trace := s.trace ++
        [Event.kzalloc (dr_cpu_size_response (cpus_weight mask)) true] }
    (dr_cpu_init_response req_num (s.cap_handle cp) (dr_cpu_size_response (cpus_weight mask))
      (cpus_weight mask) mask DR_CPU_STAT_UNCONFIGURED) []
    (by simp [dr_cpu_init_response, unconfigure_record])
    (by simp) (for_each_cpu_mask_nodup mask)
    (by simp [cpus_weight_eq_length])
  have hcap : ({ s with trace := s.trace ++
      [Event.kzalloc (dr_cpu_size_response (cpus_weight mask)) true] } : DsState).cap_handle cp
      = s.cap_handle cp := rfl
  rw [hcap, hloop]
  simp only
  have hresp : ({ dr_cpu_init_response req_num (s.cap_handle cp)
      (dr_cpu_size_response (cpus_weight mask)) (cpus_weight mask) mask
        DR_CPU_STAT_UNCONFIGURED
        with ent := [] ++ List.zipWith unconfigure_record (for_each_cpu_mask mask) outs }
        : dr_cpu_resp) =
      dr_cpu_response (s.cap_handle cp) req_num
        (List.zipWith unconfigure_record (for_each_cpu_mask mask) outs) := by
    simp [dr_cpu_init_response, dr_cpu_response, houts, cpus_weight_eq_length]
  rw [hresp]
  generalize hS0 : ({ s with trace := s.trace ++
        [Event.kzalloc (dr_cpu_size_response (cpus_weight mask)) true] ++
        (List.zipWith unconfigure_calls (for_each_cpu_mask mask) outs).flatten } : DsState) = S0
  obtain ⟨ws, hall, hsend⟩ := ds_send_spec env S0
    (Msg.dr_cpu (dr_cpu_response (s.cap_handle cp) req_num
        (List.zipWith unconfigure_record (for_each_cpu_mask mask) outs)))
    (dr_cpu_size_response (cpus_weight mask))
  refine ⟨outs, ws, (ds_send env S0
    (Msg.dr_cpu (dr_cpu_response (s.cap_handle cp) req_num
        (List.zipWith unconfigure_record (for_each_cpu_mask mask) outs)))
    (dr_cpu_size_response (cpus_weight mask))).1, houts, hall, ?_⟩
  rw [hsend, ← hS0]

/-- The surviving ids of a request: ascending, and exactly the ids of the request
that are below `NR_CPUS`. -/
theorem request_mask_ids (env : Env) (qp : Pkt)
    (hwf : qp.dr_cpu_tag.num_records ≤ qp.cpu_list.length)
    (hnr : env.NR_CPUS ≤ CPU_SENTINEL) :
    (for_each_cpu_mask (request_mask env qp)).Pairwise (· < ·) ∧
    (∀ c, c ∈ for_each_cpu_mask (request_mask env qp) ↔
      (c ∈ request_ids qp ∧ c < env.NR_CPUS)) ∧
    (for_each_cpu_mask (request_mask env qp)).length =
      ((request_ids qp).filter (fun c => c < env.NR_CPUS)).dedup.length := by
  have hmem : ∀ c, c ∈ for_each_cpu_mask (request_mask env qp) ↔
      (c ∈ request_ids qp ∧ c < env.NR_CPUS) := by
    intro c
    obtain ⟨hplen, _⟩ := purge_dups_getElem? qp.cpu_list qp.dr_cpu_tag.num_records hwf
    obtain ⟨_, hmask⟩ := dr_cpu_build_mask_steps env.NR_CPUS
      (purge_dups qp.cpu_list qp.dr_cpu_tag.num_records) qp.dr_cpu_tag.num_records
      (by rw [hplen]; exact hwf) qp.dr_cpu_tag.num_records (le_refl _)
    unfold for_each_cpu_mask
    rw [cpumask_bits_mem]
    simp only [Nat.zero_le, Nat.sub_zero, true_and]
    unfold request_mask dr_cpu_build_mask
    rw [hmask c]
    have hids : c ∈ request_ids qp ↔
        ∃ i, i < qp.dr_cpu_tag.num_records ∧ qp.cpu_list[i]? = some c := by
      unfold request_ids
      rw [List.mem_iff_getElem?]
      constructor
      · rintro ⟨i, hi⟩
        rw [List.getElem?_take] at hi
        split at hi
        · exact ⟨i, by assumption, hi⟩
        · cases hi
      · rintro ⟨i, hi, hic⟩
        exact ⟨i, by rw [List.getElem?_take, if_pos hi]; exact hic⟩
    constructor
    · rintro ⟨h1, h2, h3⟩
      exact ⟨hids.2 ((purge_dups_first _ _ hwf c h2).1 h3), h1⟩
    · rintro ⟨h1, h2⟩
      have hne : c ≠ CPU_SENTINEL := by omega
      exact ⟨h2, hne, (purge_dups_first _ _ hwf c hne).2 (hids.1 h1)⟩
  refine ⟨cpumask_bits_sorted _ 0, hmem, ?_⟩
  apply List.Perm.length_eq
  rw [List.perm_ext_iff_of_nodup (for_each_cpu_mask_nodup _) (List.nodup_dedup _)]
  intro c
  rw [hmem c, List.mem_dedup, List.mem_filter]
  simp

theorem process_entry_unknown (env : Env) (cp : Nat) (s : DsState) (qp : Pkt)
    (ht : qp.dr_cpu_tag.type ≠ DR_CPU_CONFIGURE ∧ qp.dr_cpu_tag.type ≠ DR_CPU_UNCONFIGURE ∧
      qp.dr_cpu_tag.type ≠ DR_CPU_FORCE_UNCONFIGURE) :
    ∃ (ws : List Event) (err : Int), (∀ e ∈ ws, is_write_attempt e = true) ∧
      process_dr_cpu_entry env cp s qp =
        { s with trace := s.trace ++ ws ++
          [Event.ds_send (Msg.dr_cpu (dr_cpu_error_pkt (s.cap_handle cp)
            qp.dr_cpu_tag.req_num)) 32 err] } := by
  unfold process_dr_cpu_entry
  simp only [if_pos ht, dr_cpu_send_error]
  exact __dr_cpu_send_error_spec env s cp qp

theorem process_entry_configure (env : Env) (cp : Nat) (s : DsState) (qp : Pkt)
    (ht : qp.dr_cpu_tag.type = DR_CPU_CONFIGURE) :
    (env.kzalloc s.trace (dr_cpu_size_response (cpus_weight (request_mask env qp))) = false ∧
      ∃ (ws : List Event) (err : Int), (∀ e ∈ ws, is_write_attempt e = true) ∧
        process_dr_cpu_entry env cp s qp =
          { s with trace := s.trace ++
            [Event.kzalloc (dr_cpu_size_response (cpus_weight (request_mask env qp))) false] ++
            ws ++ [Event.ds_send (Msg.dr_cpu (dr_cpu_error_pkt (s.cap_handle cp)
              qp.dr_cpu_tag.req_num)) 32 err] }) ∨
    (env.kzalloc s.trace (dr_cpu_size_response (cpus_weight (request_mask env qp))) = true ∧
      ∃ (outs : List (Int × Bool)) (ws : List Event) (err : Int),
        outs.length = (for_each_cpu_mask (request_mask env qp)).length ∧
        (∀ e ∈ ws, is_write_attempt e = true) ∧
        process_dr_cpu_entry env cp s qp =
          { s with trace := s.trace ++
            [Event.kzalloc (dr_cpu_size_response (cpus_weight (request_mask env qp))) true,
              Event.mdesc_fill_in_cpu_data (request_mask env qp)] ++
            (List.zipWith configure_calls (for_each_cpu_mask (request_mask env qp))
              outs).flatten ++ ws ++
            [Event.ds_send (Msg.dr_cpu (dr_cpu_response (s.cap_handle cp) qp.dr_cpu_tag.req_num
              (List.zipWith configure_record (for_each_cpu_mask (request_mask env qp)) outs)))
              (dr_cpu_size_response (cpus_weight (request_mask env qp))) err] ++
            [Event.fixup_irqs] }) := by
  have hknown : ¬ (qp.dr_cpu_tag.type ≠ DR_CPU_CONFIGURE ∧
      qp.dr_cpu_tag.type ≠ DR_CPU_UNCONFIGURE ∧
      qp.dr_cpu_tag.type ≠ DR_CPU_FORCE_UNCONFIGURE) := fun h => h.1 ht
  have hstep : process_dr_cpu_entry env cp s qp =
      if (dr_cpu_configure env s cp qp.dr_cpu_tag.req_num (request_mask env qp)).1 ≠ 0 then
        dr_cpu_send_error env
          (dr_cpu_configure env s cp qp.dr_cpu_tag.req_num (request_mask env qp)).2 cp qp
      else (dr_cpu_configure env s cp qp.dr_cpu_tag.req_num (request_mask env qp)).2 := by
    unfold process_dr_cpu_entry
    simp only [if_neg hknown, if_pos ht]
    rfl
  rw [hstep]
  cases hk : env.kzalloc s.trace (dr_cpu_size_response (cpus_weight (request_mask env qp)))
  · left
    refine ⟨rfl, ?_⟩
    rw [dr_cpu_configure_fail env s cp _ _ hk]
    simp only [if_pos (show (-ENOMEM : Int) ≠ 0 by decide), dr_cpu_send_error]
    obtain ⟨ws, err, hall, hsend⟩ := __dr_cpu_send_error_spec env
      { s with trace := s.trace ++
        [Event.kzalloc (dr_cpu_size_response (cpus_weight (request_mask env qp))) false] } cp qp
    exact ⟨ws, err, hall, hsend⟩
  · right
    refine ⟨rfl, ?_⟩
    obtain ⟨outs, ws, err, houts, hall, hconf⟩ :=
      dr_cpu_configure_spec env s cp qp.dr_cpu_tag.req_num (request_mask env qp) hk
    rw [hconf]
    exact ⟨outs, ws, err, houts, hall, by simp⟩

theorem process_entry_unconfigure (env : Env) (cp : Nat) (s : DsState) (qp : Pkt)
    (ht : qp.dr_cpu_tag.type = DR_CPU_UNCONFIGURE ∨
      qp.dr_cpu_tag.type = DR_CPU_FORCE_UNCONFIGURE) :
    (env.kzalloc s.trace (dr_cpu_size_response (cpus_weight (request_mask env qp))) = false ∧
      ∃ (ws : List Event) (err : Int), (∀ e ∈ ws, is_write_attempt e = true) ∧
        process_dr_cpu_entry env cp s qp =
          { s with trace := s.trace ++
            [Event.kzalloc (dr_cpu_size_response (cpus_weight (request_mask env qp))) false] ++
            ws ++ [Event.ds_send (Msg.dr_cpu (dr_cpu_error_pkt (s.cap_handle cp)
              qp.dr_cpu_tag.req_num)) 32 err] }) ∨
    (env.kzalloc s.trace (dr_cpu_size_response (cpus_weight (request_mask env qp))) = true ∧
      ∃ (outs : List Int) (ws : List Event) (err : Int),
        outs.length = (for_each_cpu_mask (request_mask env qp)).length ∧
        (∀ e ∈ ws, is_write_attempt e = true) ∧
        process_dr_cpu_entry env cp s qp =
          { s with trace := s.trace ++
            [Event.kzalloc (dr_cpu_size_response (cpus_weight (request_mask env qp))) true] ++
            (List.zipWith unconfigure_calls (for_each_cpu_mask (request_mask env qp))
              outs).flatten ++ ws ++
            [Event.ds_send (Msg.dr_cpu (dr_cpu_response (s.cap_handle cp) qp.dr_cpu_tag.req_num
              (List.zipWith unconfigure_record (for_each_cpu_mask (request_mask env qp)) outs)))
              (dr_cpu_size_response (cpus_weight (request_mask env qp))) err] }) := by
  have hknown : ¬ (qp.dr_cpu_tag.type ≠ DR_CPU_CONFIGURE ∧
      qp.dr_cpu_tag.type ≠ DR_CPU_UNCONFIGURE ∧
      qp.dr_cpu_tag.type ≠ DR_CPU_FORCE_UNCONFIGURE) := by
    rintro ⟨_, h2, h3⟩
    rcases ht with h | h
    · exact h2 h
    · exact h3 h
  have hnc : ¬ (qp.dr_cpu_tag.type = DR_CPU_CONFIGURE) := by
    rcases ht with h | h <;> rw [h] <;> decide
  have hstep : process_dr_cpu_entry env cp s qp =
      if (dr_cpu_unconfigure env s cp qp.dr_cpu_tag.req_num (request_mask env qp)).1 ≠ 0 then
        dr_cpu_send_error env
          (dr_cpu_unconfigure env s cp qp.dr_cpu_tag.req_num (request_mask env qp)).2 cp qp
      else (dr_cpu_unconfigure env s cp qp.dr_cpu_tag.req_num (request_mask env qp)).2 := by
    unfold process_dr_cpu_entry
    simp only [if_neg hknown, if_neg hnc]
    rfl
  rw [hstep]
  cases hk : env.kzalloc s.trace (dr_cpu_size_response (cpus_weight (request_mask env qp)))
  · left
    refine ⟨rfl, ?_⟩
    rw [dr_cpu_unconfigure_fail env s cp _ _ hk]
    simp only [if_pos (show (-ENOMEM : Int) ≠ 0 by decide), dr_cpu_send_error]
    obtain ⟨ws, err, hall, hsend⟩ := __dr_cpu_send_error_spec env
      { s with trace := s.trace ++
        [Event.kzalloc (dr_cpu_size_response (cpus_weight (request_mask env qp))) false] } cp qp
    exact ⟨ws, err, hall, hsend⟩
  · right
    refine ⟨rfl, ?_⟩
    obtain ⟨outs, ws, err, houts, hall, hconf⟩ :=
      dr_cpu_unconfigure_spec env s cp qp.dr_cpu_tag.req_num (request_mask env qp) hk
    rw [hconf]
    exact ⟨outs, ws, err, houts, hall, by simp⟩

/-! ## CPU reconfiguration: the claims -/

theorem cpu_calls_append (a b : List Event) : cpu_calls (a ++ b) = cpu_calls a ++ cpu_calls b := by
  simp [cpu_calls]

theorem cpu_calls_write_attempts (ws : List Event) (h : ∀ e ∈ ws, is_write_attempt e = true) :
    cpu_calls ws = [] := by
  unfold cpu_calls
  rw [List.filter_eq_nil_iff]
  intro e he
  have := h e he
  cases e <;> simp_all [is_write_attempt]

theorem configure_calls_flatten (cs : List Nat) :
    ∀ outs : List (Int × Bool),
      sends (List.zipWith configure_calls cs outs).flatten = [] ∧
      cpu_calls (List.zipWith configure_calls cs outs).flatten =
        (List.zipWith configure_calls cs outs).flatten := by
  induction cs with
  | nil => intro outs; simp [sends, cpu_calls]
  | cons c cs ih =>
    intro outs
    cases outs with
    | nil => simp [sends, cpu_calls]
    | cons o outs =>
      obtain ⟨h1, h2⟩ := ih outs
      simp only [List.zipWith_cons_cons, List.flatten_cons, sends_append, cpu_calls_append, h1,
        h2]
      constructor
      · unfold configure_calls; split_ifs <;> simp [sends]
      · congr 1
        unfold configure_calls; split_ifs <;> simp [cpu_calls]

theorem unconfigure_calls_flatten (cs : List Nat) :
    ∀ outs : List Int,
      sends (List.zipWith unconfigure_calls cs outs).flatten = [] ∧
      cpu_calls (List.zipWith unconfigure_calls cs outs).flatten =
        (List.zipWith unconfigure_calls cs outs).flatten := by
  induction cs with
  | nil => intro outs; simp [sends, cpu_calls]
  | cons c cs ih =>
    intro outs
    cases outs with
    | nil => simp [sends, cpu_calls]
    | cons o outs =>
      obtain ⟨h1, h2⟩ := ih outs
      simp only [List.zipWith_cons_cons, List.flatten_cons, sends_append, cpu_calls_append, h1,
        h2]
      constructor
      · simp [unconfigure_calls, sends]
      · congr 1

theorem configure_record_cpus (cs : List Nat) :
    ∀ outs : List (Int × Bool), outs.length = cs.length →
      (List.zipWith configure_record cs outs).map (fun e => e.cpu) = cs := by
  induction cs with
  | nil => intro outs _; simp
  | cons c cs ih =>
    intro outs h
    cases outs with
    | nil => simp at h
    | cons o outs =>
      simp only [List.zipWith_cons_cons, List.map_cons, configure_record_cpu]
      rw [ih outs (by simpa using h)]

theorem unconfigure_record_cpus (cs : List Nat) :
    ∀ outs : List Int, outs.length = cs.length →
      (List.zipWith unconfigure_record cs outs).map (fun e => e.cpu) = cs := by
  induction cs with
  | nil => intro outs _; simp
  | cons c cs ih =>
    intro outs h
    cases outs with
    | nil => simp at h
    | cons o outs =>
      simp only [List.zipWith_cons_cons, List.map_cons, unconfigure_record_cpu]
      rw [ih outs (by simpa using h)]

/-- C6. For a Configure, Unconfigure or ForceUnconfigure request whose id list
`request_ids qp` lies within the message, when the response buffer can be
allocated (and `NR_CPUS` fits a `u32`), the worker hands exactly one message to
`ds_send`, a response whose `num_records` is the number of distinct ids of the
list below `NR_CPUS`, with that many records, whose `cpu` fields are strictly
ascending (so each id appears once) and are exactly the ids of the list below
`NR_CPUS`; an id at or above `NR_CPUS` is in no record. -/
theorem dr_cpu_response_ids (env : Env) (cp : Nat) (s : DsState) (qp : Pkt)
    (ht : qp.dr_cpu_tag.type = DR_CPU_CONFIGURE ∨ qp.dr_cpu_tag.type = DR_CPU_UNCONFIGURE ∨
      qp.dr_cpu_tag.type = DR_CPU_FORCE_UNCONFIGURE)
    (hwf : qp.dr_cpu_tag.num_records ≤ qp.cpu_list.length)
    (hnr : env.NR_CPUS ≤ CPU_SENTINEL)
    (hk : ∀ n, env.kzalloc s.trace n = true) :
    ∃ resp : dr_cpu_resp,
      sends (process_dr_cpu_entry env cp s qp).trace = sends s.trace ++ [Msg.dr_cpu resp] ∧
      resp.tag.num_records =
        ((request_ids qp).filter (fun c => c < env.NR_CPUS)).dedup.length ∧
      resp.ent.length = resp.tag.num_records ∧
      (resp.ent.map (fun e => e.cpu)).Pairwise (· < ·) ∧
      ∀ c, c ∈ resp.ent.map (fun e => e.cpu) ↔ (c ∈ request_ids qp ∧ c < env.NR_CPUS) := by
  obtain ⟨hsorted, hmem, hcount⟩ := request_mask_ids env qp hwf hnr
  rcases ht with ht | ht
  · rcases process_entry_configure env cp s qp ht with ⟨hf, _⟩ | ⟨_, outs, ws, err, houts, hall, heq⟩
    · rw [hk] at hf; cases hf
    · refine ⟨dr_cpu_response (s.cap_handle cp) qp.dr_cpu_tag.req_num
        (List.zipWith configure_record (for_each_cpu_mask (request_mask env qp)) outs),
        ?_, ?_, rfl, ?_, ?_⟩
      · rw [heq]
        simp only [sends_append, (configure_calls_flatten _ outs).1,
          sends_write_attempts ws hall]
        simp [sends]
      · simp only [dr_cpu_response, List.length_zipWith, houts, Nat.min_self]
        exact hcount
      · simp only [dr_cpu_response]
        rw [configure_record_cpus _ outs houts]; exact hsorted
      · simp only [dr_cpu_response]
        rw [configure_record_cpus _ outs houts]; exact hmem
  · rcases process_entry_unconfigure env cp s qp ht with
      ⟨hf, _⟩ | ⟨_, outs, ws, err, houts, hall, heq⟩
    · rw [hk] at hf; cases hf
    · refine ⟨dr_cpu_response (s.cap_handle cp) qp.dr_cpu_tag.req_num
        (List.zipWith unconfigure_record (for_each_cpu_mask (request_mask env qp)) outs),
        ?_, ?_, rfl, ?_, ?_⟩
      · rw [heq]
        simp only [sends_append, (unconfigure_calls_flatten _ outs).1,
          sends_write_attempts ws hall]
        simp [sends]
      · simp only [dr_cpu_response, List.length_zipWith, houts, Nat.min_self]
        exact hcount
      · simp only [dr_cpu_response]
        rw [unconfigure_record_cpus _ outs houts]; exact hsorted
      · simp only [dr_cpu_response]
        rw [unconfigure_record_cpus _ outs houts]; exact hmem

theorem dr_cpu_response_ids_witness :
    (cpu_req DR_CPU_CONFIGURE).dr_cpu_tag.type = DR_CPU_CONFIGURE ∧
    request_ids (cpu_req DR_CPU_CONFIGURE) = [3, 5, 3, 7, 5] ∧
    env_ok.NR_CPUS = 64 ∧
    (∃ resp : dr_cpu_resp,
      sends (process_dr_cpu_entry env_ok 3 done_state (cpu_req DR_CPU_CONFIGURE)).trace =
        sends done_state.trace ++ [Msg.dr_cpu resp] ∧
      resp.tag.num_records =
        ((request_ids (cpu_req DR_CPU_CONFIGURE)).filter
          (fun c => c < env_ok.NR_CPUS)).dedup.length ∧
      resp.ent.length = resp.tag.num_records ∧
      (resp.ent.map (fun e => e.cpu)).Pairwise (· < ·) ∧
      ∀ c, c ∈ resp.ent.map (fun e => e.cpu) ↔
        (c ∈ request_ids (cpu_req DR_CPU_CONFIGURE) ∧ c < env_ok.NR_CPUS)) ∧
    (sends (process_dr_cpu_entry env_ok 3 done_state (cpu_req DR_CPU_CONFIGURE)).trace).map
      (fun m => match m with
        | Msg.dr_cpu resp => (resp.tag.num_records, resp.ent.map (fun e => e.cpu))
        | _ => (0, [])) = [(3, [3, 5, 7])] :=
  ⟨by decide, by decide, by decide,
    dr_cpu_response_ids env_ok 3 done_state (cpu_req DR_CPU_CONFIGURE) (Or.inl (by decide))
      (by decide) (by decide) (fun _ => rfl),
    by decide⟩

/-- C7. For a queue entry whose op-type is not Configure, Unconfigure or
ForceUnconfigure, the worker hands exactly one message to `ds_send`: the reply
with op-result `DR_CPU_ERROR`, `num_records` 0 and the request's own `req_num`;
it makes no bring-up, presence or bring-down call, changes nothing but the
trace, and the loop goes on with the rest of the list. -/
theorem dr_cpu_unknown_op (env : Env) (cp : Nat) (s : DsState) (qp : Pkt) (rest : List Pkt)
    (ht : qp.dr_cpu_tag.type ≠ DR_CPU_CONFIGURE ∧ qp.dr_cpu_tag.type ≠ DR_CPU_UNCONFIGURE ∧
      qp.dr_cpu_tag.type ≠ DR_CPU_FORCE_UNCONFIGURE) :
    sends (process_dr_cpu_entry env cp s qp).trace = sends s.trace ++
      [Msg.dr_cpu (dr_cpu_error_pkt (s.cap_handle cp) qp.dr_cpu_tag.req_num)] ∧
    (dr_cpu_error_pkt (s.cap_handle cp) qp.dr_cpu_tag.req_num).tag =
      { req_num := qp.dr_cpu_tag.req_num, type := DR_CPU_ERROR, num_records := 0 } ∧
    cpu_calls (process_dr_cpu_entry env cp s qp).trace = cpu_calls s.trace ∧
    (∃ (ws : List Event) (err : Int), (∀ e ∈ ws, is_write_attempt e = true) ∧
      process_dr_cpu_entry env cp s qp =
        { s with trace := s.trace ++ ws ++
          [Event.ds_send (Msg.dr_cpu (dr_cpu_error_pkt (s.cap_handle cp)
            qp.dr_cpu_tag.req_num)) 32 err] }) ∧
    (qp :: rest).foldl (process_dr_cpu_entry env cp) s =
      rest.foldl (process_dr_cpu_entry env cp) (process_dr_cpu_entry env cp s qp) := by
  obtain ⟨ws, err, hall, heq⟩ := process_entry_unknown env cp s qp ht
  refine ⟨?_, rfl, ?_, ⟨ws, err, hall, heq⟩, rfl⟩
  · rw [heq]
    simp only [sends_append, sends_write_attempts ws hall]
    simp [sends]
  · rw [heq]
    simp only [cpu_calls_append, cpu_calls_write_attempts ws hall]
    simp [cpu_calls]

theorem dr_cpu_unknown_op_witness :
    (cpu_req DR_CPU_STATUS).dr_cpu_tag.type ≠ DR_CPU_CONFIGURE ∧
    sends (process_dr_cpu_entry env_ok 3 done_state (cpu_req DR_CPU_STATUS)).trace =
      sends done_state.trace ++
        [Msg.dr_cpu (dr_cpu_error_pkt (done_state.cap_handle 3)
          (cpu_req DR_CPU_STATUS).dr_cpu_tag.req_num)] :=
  ⟨by decide, (dr_cpu_unknown_op env_ok 3 done_state (cpu_req DR_CPU_STATUS) []
    ⟨by decide, by decide, by decide⟩).1⟩

/-- C8. For a Configure request (response buffer allocated), with `ids` the
surviving ids in ascending order: there is one outcome `o` per id such that the
calls made are, id by id, `cpu_up` returning `o.1` followed, when `o.1` is not
0, by `cpu_present` answering `o.2`; the single message handed to `ds_send` is
the response whose record `i` is a function of id `i` and outcome `i` alone:
(OK, Configured) when `o.1 = 0`; (NotInMD, NotPresent) when it failed and the
CPU is not present; (CpuNotResponding, Unconfigured) when it failed with
`-ENODEV` and the CPU is present; (Failure, Unconfigured) otherwise. -/
theorem dr_cpu_configure_records (env : Env) (cp : Nat) (s : DsState) (qp : Pkt)
    (ht : qp.dr_cpu_tag.type = DR_CPU_CONFIGURE)
    (hk : ∀ n, env.kzalloc s.trace n = true) :
    ∃ outs : List (Int × Bool),
      outs.length = (for_each_cpu_mask (request_mask env qp)).length ∧
      cpu_calls (process_dr_cpu_entry env cp s qp).trace = cpu_calls s.trace ++
        (List.zipWith configure_calls (for_each_cpu_mask (request_mask env qp)) outs).flatten ∧
      sends (process_dr_cpu_entry env cp s qp).trace = sends s.trace ++
        [Msg.dr_cpu (dr_cpu_response (s.cap_handle cp) qp.dr_cpu_tag.req_num
          (List.zipWith configure_record (for_each_cpu_mask (request_mask env qp)) outs))] ∧
      ∀ (i c : Nat) (o : Int × Bool),
        (for_each_cpu_mask (request_mask env qp))[i]? = some c → outs[i]? = some o →
        ∃ e, (List.zipWith configure_record (for_each_cpu_mask (request_mask env qp))
            outs)[i]? = some e ∧ e.cpu = c ∧
          (o.1 = 0 → e.result = DR_CPU_RES_OK ∧ e.stat = DR_CPU_STAT_CONFIGURED) ∧
          (o.1 ≠ 0 → o.2 = false →
            e.result = DR_CPU_RES_NOT_IN_MD ∧ e.stat = DR_CPU_STAT_NOT_PRESENT) ∧
          (o.1 ≠ 0 → o.2 = true → o.1 = -ENODEV →
            e.result = DR_CPU_RES_CPU_NOT_RESPONDING ∧ e.stat = DR_CPU_STAT_UNCONFIGURED) ∧
          (o.1 ≠ 0 → o.2 = true → o.1 ≠ -ENODEV →
            e.result = DR_CPU_RES_FAILURE ∧ e.stat = DR_CPU_STAT_UNCONFIGURED) := by
  rcases process_entry_configure env cp s qp ht with
    ⟨hf, _⟩ | ⟨_, outs, ws, err, houts, hall, heq⟩
  · rw [hk] at hf; cases hf
  · refine ⟨outs, houts, ?_, ?_, ?_⟩
    · rw [heq]
      simp only [cpu_calls_append, (configure_calls_flatten _ outs).2,
        cpu_calls_write_attempts ws hall]
      simp [cpu_calls]
    · rw [heq]
      simp only [sends_append, (configure_calls_flatten _ outs).1,
        sends_write_attempts ws hall]
      simp [sends]
    · intro i c o hc ho
      refine ⟨configure_record c o, ?_, configure_record_cpu c o, ?_, ?_, ?_, ?_⟩
      · rw [List.getElem?_zipWith, hc, ho]
      · intro h0; simp [configure_record, h0]
      · intro h0 hp; simp [configure_record, h0, hp]
      · intro h0 hp hnd
        unfold configure_record
        rw [if_neg h0, if_neg (by simp [hp]), if_pos hnd]
        exact ⟨rfl, rfl⟩
      · intro h0 hp hnd
        unfold configure_record
        rw [if_neg h0, if_neg (by simp [hp]), if_neg hnd]
        exact ⟨rfl, rfl⟩

theorem dr_cpu_configure_records_witness :
    (cpu_req DR_CPU_CONFIGURE).dr_cpu_tag.type = DR_CPU_CONFIGURE ∧
    (∃ outs : List (Int × Bool),
      outs.length = (for_each_cpu_mask (request_mask env_cpu5
        (cpu_req DR_CPU_CONFIGURE))).length ∧
      cpu_calls (process_dr_cpu_entry env_cpu5 3 done_state (cpu_req DR_CPU_CONFIGURE)).trace =
        cpu_calls done_state.trace ++
        (List.zipWith configure_calls (for_each_cpu_mask (request_mask env_cpu5
          (cpu_req DR_CPU_CONFIGURE))) outs).flatten) ∧
    (sends (process_dr_cpu_entry env_cpu5 3 done_state (cpu_req DR_CPU_CONFIGURE)).trace).map
      (fun m => match m with
        | Msg.dr_cpu resp => resp.ent.map (fun e => (e.cpu, e.result, e.stat))
        | _ => []) =
      [[(3, DR_CPU_RES_OK, DR_CPU_STAT_CONFIGURED),
        (5, DR_CPU_RES_CPU_NOT_RESPONDING, DR_CPU_STAT_UNCONFIGURED),
        (7, DR_CPU_RES_OK, DR_CPU_STAT_CONFIGURED)]] :=
  ⟨by decide,
    (dr_cpu_configure_records env_cpu5 3 done_state (cpu_req DR_CPU_CONFIGURE) (by decide)
      (fun _ => rfl)).imp (fun _ h => ⟨h.1, h.2.1⟩),
    by decide⟩

/-- C9. For an Unconfigure or ForceUnconfigure request (response buffer
allocated), with `ids` the surviving ids in ascending order: the calls made are
exactly one `cpu_down` per surviving id, in order, whatever the earlier ones
returned; the single message handed to `ds_send` is the response whose record
`i` is a function of id `i` and of what its own `cpu_down` returned alone:
(OK, Unconfigured) when it returned 0 and (Failure, Configured) otherwise. -/
theorem dr_cpu_unconfigure_records (env : Env) (cp : Nat) (s : DsState) (qp : Pkt)
    (ht : qp.dr_cpu_tag.type = DR_CPU_UNCONFIGURE ∨
      qp.dr_cpu_tag.type = DR_CPU_FORCE_UNCONFIGURE)
    (hk : ∀ n, env.kzalloc s.trace n = true) :
    ∃ outs : List Int,
      outs.length = (for_each_cpu_mask (request_mask env qp)).length ∧
      cpu_calls (process_dr_cpu_entry env cp s qp).trace = cpu_calls s.trace ++
        List.zipWith Event.cpu_down (for_each_cpu_mask (request_mask env qp)) outs ∧
      sends (process_dr_cpu_entry env cp s qp).trace = sends s.trace ++
        [Msg.dr_cpu (dr_cpu_response (s.cap_handle cp) qp.dr_cpu_tag.req_num
          (List.zipWith unconfigure_record (for_each_cpu_mask (request_mask env qp)) outs))] ∧
      ∀ (i c : Nat) (err : Int),
        (for_each_cpu_mask (request_mask env qp))[i]? = some c → outs[i]? = some err →
        ∃ e, (List.zipWith unconfigure_record (for_each_cpu_mask (request_mask env qp))
            outs)[i]? = some e ∧ e.cpu = c ∧
          (err = 0 → e.result = DR_CPU_RES_OK ∧ e.stat = DR_CPU_STAT_UNCONFIGURED) ∧
          (err ≠ 0 → e.result = DR_CPU_RES_FAILURE ∧ e.stat = DR_CPU_STAT_CONFIGURED) := by
  have hflat : ∀ (cs : List Nat) (outs : List Int),
      (List.zipWith unconfigure_calls cs outs).flatten = List.zipWith Event.cpu_down cs outs := by
    intro cs
    induction cs with
    | nil => intro outs; simp
    | cons c cs ih =>
      intro outs
      cases outs with
      | nil => simp
      | cons o outs => simp [unconfigure_calls, ih outs]
  rcases process_entry_unconfigure env cp s qp ht with
    ⟨hf, _⟩ | ⟨_, outs, ws, err, houts, hall, heq⟩
  · rw [hk] at hf; cases hf
  · refine ⟨outs, houts, ?_, ?_, ?_⟩
    · rw [heq]
      simp only [cpu_calls_append, (unconfigure_calls_flatten _ outs).2,
        cpu_calls_write_attempts ws hall]
      rw [hflat]
      simp [cpu_calls]
    · rw [heq]
      simp only [sends_append, (unconfigure_calls_flatten _ outs).1,
        sends_write_attempts ws hall]
      simp [sends]
    · intro i c o hc ho
      refine ⟨unconfigure_record c o, ?_, unconfigure_record_cpu c o, ?_, ?_⟩
      · rw [List.getElem?_zipWith, hc, ho]
      · intro h0; simp [unconfigure_record, h0]
      · intro h0; simp [unconfigure_record, h0]

theorem dr_cpu_unconfigure_records_witness :
    (cpu_req DR_CPU_UNCONFIGURE).dr_cpu_tag.type = DR_CPU_UNCONFIGURE ∧
    (∃ outs : List Int,
      outs.length = (for_each_cpu_mask (request_mask env_cpu5
        (cpu_req DR_CPU_UNCONFIGURE))).length ∧
      cpu_calls (process_dr_cpu_entry env_cpu5 3 done_state (cpu_req DR_CPU_UNCONFIGURE)).trace =
        cpu_calls done_state.trace ++
        List.zipWith Event.cpu_down (for_each_cpu_mask (request_mask env_cpu5
          (cpu_req DR_CPU_UNCONFIGURE))) outs) ∧
    cpu_calls (process_dr_cpu_entry env_cpu5 3 done_state (cpu_req DR_CPU_UNCONFIGURE)).trace =
      [Event.cpu_down 3 0, Event.cpu_down 5 (-1), Event.cpu_down 7 0] ∧
    (sends (process_dr_cpu_entry env_cpu5 3 done_state (cpu_req DR_CPU_UNCONFIGURE)).trace).map
      (fun m => match m with
        | Msg.dr_cpu resp => resp.ent.map (fun e => (e.cpu, e.result, e.stat))
        | _ => []) =
      [[(3, DR_CPU_RES_OK, DR_CPU_STAT_UNCONFIGURED),
        (5, DR_CPU_RES_FAILURE, DR_CPU_STAT_CONFIGURED),
        (7, DR_CPU_RES_OK, DR_CPU_STAT_UNCONFIGURED)]] :=
  ⟨by decide,
    (dr_cpu_unconfigure_records env_cpu5 3 done_state (cpu_req DR_CPU_UNCONFIGURE)
      (Or.inl (by decide)) (fun _ => rfl)).imp (fun _ h => ⟨h.1, h.2.1⟩),
    by decide, by decide⟩

theorem configure_calls_mem (cs : List Nat) :
    ∀ outs : List (Int × Bool), outs.length = cs.length →
      (∀ c ∈ cs, ∃ r, Event.cpu_up c r ∈ (List.zipWith configure_calls cs outs).flatten) ∧
      (∀ e ∈ (List.zipWith configure_calls cs outs).flatten, is_write_attempt e = false) := by
  induction cs with
  | nil => intro outs _; simp
  | cons c cs ih =>
    intro outs h
    cases outs with
    | nil => simp at h
    | cons o outs =>
      obtain ⟨h1, h2⟩ := ih outs (by simpa using h)
      simp only [List.zipWith_cons_cons, List.flatten_cons, List.mem_append]
      constructor
      · intro c' hc'
        rcases List.mem_cons.1 hc' with rfl | hc'
        · exact ⟨o.1, Or.inl (by unfold configure_calls; split_ifs <;> simp)⟩
        · obtain ⟨r, hr⟩ := h1 c' hc'
          exact ⟨r, Or.inr hr⟩
      · rintro e (he | he)
        · unfold configure_calls at he
          split_ifs at he <;> simp at he <;> rcases he with rfl | rfl <;> rfl
        · exact h2 e he

theorem unconfigure_calls_mem (cs : List Nat) :
    ∀ outs : List Int, outs.length = cs.length →
      (∀ c ∈ cs, ∃ r, Event.cpu_down c r ∈ (List.zipWith unconfigure_calls cs outs).flatten) ∧
      (∀ e ∈ (List.zipWith unconfigure_calls cs outs).flatten, is_write_attempt e = false) := by
  induction cs with
  | nil => intro outs _; simp
  | cons c cs ih =>
    intro outs h
    cases outs with
    | nil => simp at h
    | cons o outs =>
      obtain ⟨h1, h2⟩ := ih outs (by simpa using h)
      simp only [List.zipWith_cons_cons, List.flatten_cons, List.mem_append]
      constructor
      · intro c' hc'
        rcases List.mem_cons.1 hc' with rfl | hc'
        · exact ⟨o, Or.inl (by simp [unconfigure_calls])⟩
        · obtain ⟨r, hr⟩ := h1 c' hc'
          exact ⟨r, Or.inr hr⟩
      · rintro e (he | he)
        · simp [unconfigure_calls] at he; subst he; rfl
        · exact h2 e he

/-- The trace of one queue entry: everything before the single `ds_send`, its
write attempts, its marker, and what follows. -/
theorem process_entry_one_send (env : Env) (cp : Nat) (s : DsState) (qp : Pkt) :
    ∃ (pre ws post : List Event) (m : Msg) (len : Nat) (err : Int),
      (process_dr_cpu_entry env cp s qp).trace =
        s.trace ++ pre ++ ws ++ [Event.ds_send m len err] ++ post ∧
      sends (process_dr_cpu_entry env cp s qp).trace = sends s.trace ++ [m] ∧
      (∀ e ∈ pre, is_write_attempt e = false) ∧ sends pre = [] ∧
      (∀ e ∈ ws, is_write_attempt e = true) ∧
      (∀ e ∈ post, e = Event.fixup_irqs) ∧
      ((m = Msg.dr_cpu (dr_cpu_error_pkt (s.cap_handle cp) qp.dr_cpu_tag.req_num) ∧
          cpu_calls pre = [] ∧
          ((qp.dr_cpu_tag.type ≠ DR_CPU_CONFIGURE ∧ qp.dr_cpu_tag.type ≠ DR_CPU_UNCONFIGURE ∧
              qp.dr_cpu_tag.type ≠ DR_CPU_FORCE_UNCONFIGURE) ∨
            ∃ n, Event.kzalloc n false ∈ pre)) ∨
        (∃ ent : List dr_cpu_resp_entry,
          m = Msg.dr_cpu (dr_cpu_response (s.cap_handle cp) qp.dr_cpu_tag.req_num ent) ∧
          ent.map (fun e => e.cpu) = for_each_cpu_mask (request_mask env qp) ∧
          ((qp.dr_cpu_tag.type = DR_CPU_CONFIGURE ∧
              ∀ c ∈ for_each_cpu_mask (request_mask env qp), ∃ r, Event.cpu_up c r ∈ pre) ∨
            ((qp.dr_cpu_tag.type = DR_CPU_UNCONFIGURE ∨
                qp.dr_cpu_tag.type = DR_CPU_FORCE_UNCONFIGURE) ∧
              ∀ c ∈ for_each_cpu_mask (request_mask env qp),
                ∃ r, Event.cpu_down c r ∈ pre)))) := by
  by_cases hc : qp.dr_cpu_tag.type = DR_CPU_CONFIGURE
  · rcases process_entry_configure env cp s qp hc with
      ⟨_, ws, err, hall, heq⟩ | ⟨_, outs, ws, err, houts, hall, heq⟩
    · refine ⟨[Event.kzalloc (dr_cpu_size_response (cpus_weight (request_mask env qp))) false], ws, [],
          (Msg.dr_cpu (dr_cpu_error_pkt (s.cap_handle cp) qp.dr_cpu_tag.req_num)), 32, err, ?_, ?_, ?_, ?_, hall, ?_, ?_⟩
      · rw [heq]; simp
      · rw [heq]
        simp only [sends_append, sends_write_attempts ws hall]
        simp [sends]
      · intro e he; rw [List.mem_singleton] at he; subst he; rfl
      · simp [sends]
      · intro e he; cases he
      · exact Or.inl ⟨rfl, by simp [cpu_calls], Or.inr ⟨_, List.mem_singleton.2 rfl⟩⟩
    · obtain ⟨hm1, hm2⟩ := configure_calls_mem _ outs houts
      refine ⟨[Event.kzalloc (dr_cpu_size_response (cpus_weight (request_mask env qp))) true,
          Event.mdesc_fill_in_cpu_data (request_mask env qp)] ++
        (List.zipWith configure_calls (for_each_cpu_mask (request_mask env qp)) outs).flatten,
        ws, [Event.fixup_irqs],
        Msg.dr_cpu (dr_cpu_response (s.cap_handle cp) qp.dr_cpu_tag.req_num
          (List.zipWith configure_record (for_each_cpu_mask (request_mask env qp)) outs)),
        (dr_cpu_size_response (cpus_weight (request_mask env qp))), err, ?_, ?_, ?_, ?_, hall, ?_, ?_⟩
      · rw [heq]; simp
      · rw [heq]
        simp only [sends_append, (configure_calls_flatten _ outs).1,
          sends_write_attempts ws hall]
        simp [sends]
      · intro e he
        rcases List.mem_append.1 he with h | h
        · simp at h; rcases h with rfl | rfl <;> rfl
        · exact hm2 e h
      · simp only [sends_append, (configure_calls_flatten _ outs).1]
        simp [sends]
      · intro e he; exact List.mem_singleton.1 he
      · refine Or.inr ⟨_, rfl, configure_record_cpus _ outs houts, Or.inl ⟨hc, ?_⟩⟩
        intro c hcm
        obtain ⟨r, hr⟩ := hm1 c hcm
        exact ⟨r, List.mem_append.2 (Or.inr hr)⟩
  · by_cases hu : qp.dr_cpu_tag.type = DR_CPU_UNCONFIGURE ∨
        qp.dr_cpu_tag.type = DR_CPU_FORCE_UNCONFIGURE
    · rcases process_entry_unconfigure env cp s qp hu with
        ⟨_, ws, err, hall, heq⟩ | ⟨_, outs, ws, err, houts, hall, heq⟩
      · refine ⟨[Event.kzalloc (dr_cpu_size_response (cpus_weight (request_mask env qp))) false], ws, [],
          (Msg.dr_cpu (dr_cpu_error_pkt (s.cap_handle cp) qp.dr_cpu_tag.req_num)), 32, err, ?_, ?_, ?_, ?_, hall, ?_, ?_⟩
        · rw [heq]; simp
        · rw [heq]
          simp only [sends_append, sends_write_attempts ws hall]
          simp [sends]
        · intro e he; rw [List.mem_singleton] at he; subst he; rfl
        · simp [sends]
        · intro e he; cases he
        · exact Or.inl ⟨rfl, by simp [cpu_calls], Or.inr ⟨_, List.mem_singleton.2 rfl⟩⟩
      · obtain ⟨hm1, hm2⟩ := unconfigure_calls_mem _ outs houts
        refine ⟨[Event.kzalloc (dr_cpu_size_response (cpus_weight (request_mask env qp))) true] ++
          (List.zipWith unconfigure_calls (for_each_cpu_mask (request_mask env qp))
            outs).flatten,
          ws, [],
          Msg.dr_cpu (dr_cpu_response (s.cap_handle cp) qp.dr_cpu_tag.req_num
            (List.zipWith unconfigure_record (for_each_cpu_mask (request_mask env qp)) outs)),
          (dr_cpu_size_response (cpus_weight (request_mask env qp))), err, ?_, ?_, ?_, ?_, hall, ?_, ?_⟩
        · rw [heq]; simp
        · rw [heq]
          simp only [sends_append, (unconfigure_calls_flatten _ outs).1,
            sends_write_attempts ws hall]
          simp [sends]
        · intro e he
          rcases List.mem_append.1 he with h | h
          · rw [List.mem_singleton] at h; subst h; rfl
          · exact hm2 e h
        · simp only [sends_append, (unconfigure_calls_flatten _ outs).1]
          simp [sends]
        · intro e he; cases he
        · refine Or.inr ⟨_, rfl, unconfigure_record_cpus _ outs houts, Or.inr ⟨hu, ?_⟩⟩
          intro c hcm
          obtain ⟨r, hr⟩ := hm1 c hcm
          exact ⟨r, List.mem_append.2 (Or.inr hr)⟩
    · have ht : qp.dr_cpu_tag.type ≠ DR_CPU_CONFIGURE ∧
          qp.dr_cpu_tag.type ≠ DR_CPU_UNCONFIGURE ∧
          qp.dr_cpu_tag.type ≠ DR_CPU_FORCE_UNCONFIGURE :=
        ⟨hc, fun h => hu (Or.inl h), fun h => hu (Or.inr h)⟩
      obtain ⟨ws, err, hall, heq⟩ := process_entry_unknown env cp s qp ht
      refine ⟨[], ws, [], (Msg.dr_cpu (dr_cpu_error_pkt (s.cap_handle cp) qp.dr_cpu_tag.req_num)), 32, err,
        ?_, ?_, ?_, ?_, hall, ?_, ?_⟩
      · rw [heq]; simp
      · rw [heq]
        simp only [sends_append, sends_write_attempts ws hall]
        simp [sends]
      · intro e he; cases he
      · simp [sends]
      · intro e he; cases he
      · exact Or.inl ⟨rfl, by simp [cpu_calls], Or.inl ht⟩

theorem process_entries_sends (env : Env) (cp : Nat) :
    ∀ (todo : List Pkt) (s : DsState),
      (sends (todo.foldl (process_dr_cpu_entry env cp) s).trace).length =
        (sends s.trace).length + todo.length := by
  intro todo
  induction todo with
  | nil => intro s; rfl
  | cons qp rest ih =>
    intro s
    rw [List.foldl_cons, ih]
    obtain ⟨_, _, _, m, _, _, _, hs, _⟩ := process_entry_one_send env cp s qp
    rw [hs]
    simp
    omega

/-- C10. For every queue entry the worker handles (from any state), exactly one
message is handed to `ds_send`, whatever the number of ids.  The trace of the
entry is `pre`, then the write attempts of that one `ds_send`, then its marker,
then at most `fixup_irqs`; `pre` holds no write attempt.  Either the message is
the error reply, no CPU call was made, and the op-type is unknown or the
response buffer allocation failed in `pre`; or it is the aggregated response for
the surviving ids, and the `cpu_up` (Configure) or `cpu_down` (Unconfigure,
ForceUnconfigure) call of every surviving id is in `pre`, before the send.  So a
run of the worker over its list hands as many messages to `ds_send` as the list
has entries. -/
theorem dr_cpu_one_message (env : Env) (cp : Nat) (s : DsState) (qp : Pkt) :
    (∃ (pre ws post : List Event) (m : Msg) (len : Nat) (err : Int),
      (process_dr_cpu_entry env cp s qp).trace =
        s.trace ++ pre ++ ws ++ [Event.ds_send m len err] ++ post ∧
      sends (process_dr_cpu_entry env cp s qp).trace = sends s.trace ++ [m] ∧
      (∀ e ∈ pre, is_write_attempt e = false) ∧ sends pre = [] ∧
      (∀ e ∈ ws, is_write_attempt e = true) ∧
      (∀ e ∈ post, e = Event.fixup_irqs) ∧
      ((m = Msg.dr_cpu (dr_cpu_error_pkt (s.cap_handle cp) qp.dr_cpu_tag.req_num) ∧
          cpu_calls pre = [] ∧
          ((qp.dr_cpu_tag.type ≠ DR_CPU_CONFIGURE ∧ qp.dr_cpu_tag.type ≠ DR_CPU_UNCONFIGURE ∧
              qp.dr_cpu_tag.type ≠ DR_CPU_FORCE_UNCONFIGURE) ∨
            ∃ n, Event.kzalloc n false ∈ pre)) ∨
        (∃ ent : List dr_cpu_resp_entry,
          m = Msg.dr_cpu (dr_cpu_response (s.cap_handle cp) qp.dr_cpu_tag.req_num ent) ∧
          ent.map (fun e => e.cpu) = for_each_cpu_mask (request_mask env qp) ∧
          ((qp.dr_cpu_tag.type = DR_CPU_CONFIGURE ∧
              ∀ c ∈ for_each_cpu_mask (request_mask env qp), ∃ r, Event.cpu_up c r ∈ pre) ∨
            ((qp.dr_cpu_tag.type = DR_CPU_UNCONFIGURE ∨
                qp.dr_cpu_tag.type = DR_CPU_FORCE_UNCONFIGURE) ∧
              ∀ c ∈ for_each_cpu_mask (request_mask env qp),
                ∃ r, Event.cpu_down c r ∈ pre))))) ∧
    (sends (process_dr_cpu_list env s cp).trace).length =
      (sends s.trace).length + s.dr_cpu_work_list.length :=
  ⟨process_entry_one_send env cp s qp,
    process_entries_sends env cp s.dr_cpu_work_list { s with dr_cpu_work_list := [] }⟩

/-! ## `ds_send`: the bounded retry -/

theorem write_rets_append (a b : List Event) :
    write_rets (a ++ b) = write_rets a ++ write_rets b := by
  simp [write_rets, List.filterMap_append]

theorem ds_send_loop_attempts (env : Env) (m : Msg) (len : Nat) :
    ∀ (limit : Nat) (err : Int) (t0 : List Event),
      ∃ (k : Nat) (t : List Event), k ≤ limit ∧
        (ds_send_loop env m len (limit + 1) err t0).2 = t0 ++ t ∧
        write_rets t = List.replicate k (-EAGAIN) ++ [(ds_send_loop env m len (limit + 1) err t0).1] ∧
        ((ds_send_loop env m len (limit + 1) err t0).1 = -EAGAIN → k = limit) := by
  intro limit
  induction limit with
  | zero =>
    intro err t0
    refine ⟨0, (ds_send_loop env m len 1 err t0).2.drop t0.length, le_refl _, ?_, ?_, fun _ => rfl⟩
    · simp only [ds_send_loop]
      split <;> simp
    · simp only [ds_send_loop]
      split <;> simp [write_rets]
  | succ n ih =>
    intro err t0
    rw [ds_send_loop]
    by_cases hb : env.ldc_write t0 m len = 0 ∨ env.ldc_write t0 m len ≠ -EAGAIN
    · rw [if_pos hb]
      refine ⟨0, [Event.ldc_write m len (env.ldc_write t0 m len)], Nat.zero_le _, rfl,
        by simp [write_rets], ?_⟩
      intro h
      exfalso
      rcases hb with h0 | h1
      · simp only at h; rw [h0] at h; revert h; decide
      · exact h1 h
    · rw [if_neg hb]
      obtain ⟨k, t, hk, htr, hrets, hall⟩ := ih (env.ldc_write t0 m len)
        (t0 ++ [Event.ldc_write m len (env.ldc_write t0 m len)] ++ [Event.udelay 1])
      have hE : env.ldc_write t0 m len = -EAGAIN := by
        by_contra hne; exact hb (Or.inr hne)
      refine ⟨k + 1, [Event.ldc_write m len (env.ldc_write t0 m len)] ++ [Event.udelay 1] ++ t,
        by omega, ?_, ?_, ?_⟩
      · rw [htr]; simp
      · rw [write_rets_append, hrets]
        simp [write_rets, hE, List.replicate_succ]
      · intro h; rw [hall h]

/-- C20. Whatever the transport answers, one call of `ds_send` makes `k + 1`
write attempts with `1 ≤ k + 1 ≤ 1000`: the first `k` returned `-EAGAIN`
("channel busy"), the last one returned what `ds_send` returns, so the call
stops at the first attempt that is not busy; when `ds_send` returns `-EAGAIN`
all 1000 attempts were made, and that return value is negative, not a success
value. -/
theorem ds_send_attempts (env : Env) (s : DsState) (data : Msg) (len : Nat) :
    ∃ (k : Nat) (t : List Event), k + 1 ≤ 1000 ∧
      (ds_send env s data len).2.trace =
        s.trace ++ t ++ [Event.ds_send data len (ds_send env s data len).1] ∧
      (∀ e ∈ t, is_write_attempt e = true) ∧
      write_rets t = List.replicate k (-EAGAIN) ++ [(ds_send env s data len).1] ∧
      ((ds_send env s data len).1 = -EAGAIN → k + 1 = 1000) ∧
      ((ds_send env s data len).1 = -EAGAIN → ¬ (0 ≤ (ds_send env s data len).1)) := by
  obtain ⟨k, t, hk, htr, hrets, hall⟩ := ds_send_loop_attempts env data len 999 (-EINVAL) s.trace
  obtain ⟨ws, hws, hwa⟩ := ds_send_loop_trace env data len 1000 (-EINVAL) s.trace
  have htw : t = ws := List.append_cancel_left (htr.symm.trans hws)
  refine ⟨k, t, by omega, ?_, ?_, hrets, ?_, ?_⟩
  · simp only [ds_send]; rw [htr]
  · rw [htw]; exact hwa
  · intro h; rw [hall h]
  · intro h; rw [h]; decide

/-! ## The variable-config handler, protocol violations, connection reset -/

/-- C13. `ds_var_data`, for every inbound message: when the subtype (word 0
behind the `struct ds_data`) is SET-response or DELETE-response, the stored
response code becomes the message's `result` field (read as an `int`; the same
number when below 2^31) and the doorbell becomes 1, nothing else changes; for
every other subtype the whole state is unchanged.  In both cases the trace is
unchanged (nothing is sent) and so is the capability table. -/
theorem ds_var_data_effect (env : Env) (s : DsState) (dp : Nat) (buf : Pkt) (len : Int) :
    ((buf.word 0 = DS_VAR_SET_RESP ∨ buf.word 0 = DS_VAR_DELETE_RESP) →
      ds_var_data env s dp buf len =
        { s with ds_var_response := u32_to_int (buf.word 1), ds_var_doorbell := 1 }) ∧
    (¬ (buf.word 0 = DS_VAR_SET_RESP ∨ buf.word 0 = DS_VAR_DELETE_RESP) →
      ds_var_data env s dp buf len = s) ∧
    (buf.word 1 < 2 ^ 31 → u32_to_int (buf.word 1) = (buf.word 1 : Int)) ∧
    (ds_var_data env s dp buf len).trace = s.trace ∧
    (ds_var_data env s dp buf len).ds_states = s.ds_states := by
  refine ⟨?_, ?_, ?_, ?_, ?_⟩
  · intro h
    unfold ds_var_data
    rw [if_neg (by intro hn; rcases h with h | h; exact hn.1 h; exact hn.2 h)]
  · intro h
    unfold ds_var_data
    rw [if_pos ⟨fun h1 => h (Or.inl h1), fun h2 => h (Or.inr h2)⟩]
  · intro h
    unfold u32_to_int
    have h1 : buf.word 1 % 2 ^ 32 = buf.word 1 := Nat.mod_eq_of_lt (by omega)
    rw [h1, if_pos h]
  · unfold ds_var_data; split <;> rfl
  · unfold ds_var_data; split <;> rfl

theorem ds_var_data_effect_witness :
    (var_resp_pkt 0).word 0 = DS_VAR_SET_RESP ∧
    ds_var_data env_ok var_state 5 (var_resp_pkt 0) 24 =
      { var_state with ds_var_response := u32_to_int ((var_resp_pkt 0).word 1),
                       ds_var_doorbell := 1 } :=
  ⟨by decide, (ds_var_data_effect env_ok var_state 5 (var_resp_pkt 0) 24).1 (Or.inl (by decide))⟩

/-- C15. While the phase is Started, a message whose type is not `INIT_ACK`
makes `ds_handshake` return `-ECONNRESET` with the whole state unchanged (no
registration request is sent, no capability changes), and when that message is
in the handshake range the receive loop of `ds_event` stops there, leaving the
rest of the channel unread. -/
theorem handshake_started_violation (env : Env) (s : DsState) (pkt : Pkt)
    (hs : s.hs_state = DS_HS_START) (ht : pkt.tag.type ≠ DS_INIT_ACK) :
    ds_handshake env s pkt = (-ECONNRESET, s) ∧
    ∀ (rx : Rx) (rest : List Rx), rx.pkt = pkt → 0 < rx.hdr_ret →
      (pkt.tag.len : Int) ≤ rx.body_ret → pkt.tag.type < DS_DATA →
      ds_event_loop env s (rx :: rest) = s := by
  have h1 : ds_handshake env s pkt = (-ECONNRESET, s) := by
    unfold ds_handshake
    rw [if_pos hs, if_pos ht]
    rfl
  refine ⟨h1, ?_⟩
  intro rx rest hpkt hhdr hbody htype
  have hb0 : (0 : Int) ≤ rx.body_ret := le_trans (Int.ofNat_nonneg _) hbody
  rw [ds_event_loop, hpkt]
  rw [if_neg (by omega), if_neg (by omega), if_neg (by omega), if_neg (by omega)]
  simp only [if_pos htype, h1, if_true]

theorem handshake_started_violation_witness :
    started_state.hs_state = DS_HS_START ∧ reg_ack_pkt.tag.type ≠ DS_INIT_ACK ∧
    ds_handshake env_ok started_state reg_ack_pkt = (-ECONNRESET, started_state) :=
  ⟨by decide, by decide,
    (handshake_started_violation env_ok started_state reg_ack_pkt (by decide) (by decide)).1⟩

/-- C18, counterexample.  A `REG_ACK` received in phase Started is a protocol
violation: `ds_handshake` returns `-ECONNRESET`, and the phase afterwards is
still Started.  A header read failing with `-ECONNRESET` in phase Done leaves
the phase Done.  In neither case is the phase Idle. -/
theorem conn_reset_phase_kept :
    started_state.hs_state = DS_HS_START ∧
    (ds_handshake env_ok started_state reg_ack_pkt).1 = -ECONNRESET ∧
    (ds_handshake env_ok started_state reg_ack_pkt).2.hs_state = DS_HS_START ∧
    done_state.hs_state = DS_HS_DONE ∧
    (ds_event env_ok done_state LDC_EVENT_DATA_READY [reset_rx]).hs_state = DS_HS_DONE := by
  decide

/-- C18, amended.  Connection-reset handling changes nothing: `ds_conn_reset`
returns the state it was given, so after a handshake step that ends in the
connection-reset error, and after a receive loop ended by a transport read
(header or payload) returning `-ECONNRESET`, the whole state, the handshake
phase included, is what it was before.  A handshake step ends in the
connection-reset error exactly on a protocol violation: a message other than
`INIT_ACK` in phase Started, or any handshake message in a phase that is
neither Started nor Done (Idle).  And the receive loop ends on a protocol
violation too: over a fully read handshake message on which `ds_handshake`
reports the connection reset, and whatever follows it on the channel, the loop
returns the state it started from. -/
theorem conn_reset_only_logs (env : Env) (s : DsState) :
    ds_conn_reset s = s ∧
    (∀ pkt, (ds_handshake env s pkt).1 = -ECONNRESET → (ds_handshake env s pkt).2 = s) ∧
    (∀ (rx : Rx) (rest : List Rx), rx.hdr_ret = -ECONNRESET →
      ds_event_loop env s (rx :: rest) = s) ∧
    (∀ (rx : Rx) (rest : List Rx), 0 < rx.hdr_ret → rx.body_ret = -ECONNRESET →
      ds_event_loop env s (rx :: rest) = s) ∧
    (∀ pkt, (ds_handshake env s pkt).1 = -ECONNRESET ↔
      ((s.hs_state = DS_HS_START ∧ pkt.tag.type ≠ DS_INIT_ACK) ∨
        (s.hs_state ≠ DS_HS_START ∧ s.hs_state ≠ DS_HS_DONE))) ∧
    (∀ (rx : Rx) (rest : List Rx), 0 < rx.hdr_ret → 0 ≤ rx.body_ret →
      (rx.pkt.tag.len : Int) ≤ rx.body_ret → rx.pkt.tag.type < DS_DATA →
      (ds_handshake env s rx.pkt).1 = -ECONNRESET →
      ds_event_loop env s (rx :: rest) = s) := by
  have hkeep : ∀ pkt, (ds_handshake env s pkt).1 = -ECONNRESET →
      (ds_handshake env s pkt).2 = s := by
    intro pkt h
    unfold ds_handshake at h ⊢
    have h0 : ¬ ((0 : Int) = -ECONNRESET) := by decide
    split_ifs at h ⊢ <;> first
      | rfl
      | (exfalso; revert h; simp only [register_services]; exact h0)
      | (exfalso; revert h; split <;> exact h0)
  refine ⟨rfl, hkeep, ?_, ?_, ?_, ?_⟩
  · intro rx rest h
    rw [ds_event_loop, if_pos (by rw [h]; decide), if_pos h]
    rfl
  · intro rx rest h1 h2
    rw [ds_event_loop, if_neg (by omega), if_neg (by omega), if_pos (by rw [h2]; decide),
      if_pos h2]
    rfl
  · intro pkt
    have h0 : ¬ ((0 : Int) = -ECONNRESET) := by decide
    unfold ds_handshake
    by_cases hs : s.hs_state = DS_HS_START
    · by_cases ht : pkt.tag.type ≠ DS_INIT_ACK
      · rw [if_pos hs, if_pos ht]
        exact ⟨fun _ => Or.inl ⟨hs, ht⟩, fun _ => rfl⟩
      · rw [if_pos hs, if_neg ht]
        constructor
        · intro h
          exfalso; revert h; simp only [register_services]; exact h0
        · rintro (⟨_, h⟩ | ⟨h, _⟩)
          · exact absurd h ht
          · exact absurd hs h
    · by_cases hd : s.hs_state ≠ DS_HS_DONE
      · rw [if_neg hs, if_pos hd]
        exact ⟨fun _ => Or.inr ⟨hs, hd⟩, fun _ => rfl⟩
      · rw [if_neg hs, if_neg hd]
        constructor
        · intro h
          exfalso; revert h
          split_ifs <;> first | exact h0 | (split <;> exact h0)
        · rintro (⟨h, _⟩ | ⟨_, h⟩)
          · exact absurd h hs
          · exact absurd h hd
  · intro rx rest h1 h2 h3 h4 h5
    rw [ds_event_loop, if_neg (by omega), if_neg (by omega), if_neg (by omega),
      if_neg (by omega)]
    simp only [if_pos h4, if_pos h5]
    exact hkeep rx.pkt h5

/-! ## Resolution of handles: nonce and capability state -/

theorem ds_data_resolved (env : Env) (s : DsState) (pkt : Pkt) (len : Int) (i : Nat)
    (c : ds_cap_state) (h : find_cap s.ds_states pkt.handle = some i)
    (hc : s.ds_states[i]? = some c) :
    ds_data env s pkt len = ((0 : Int), c.data.call env (s.log (Event.data_handler i)) i pkt len) := by
  unfold ds_data
  rw [h]
  simp only [hc]

theorem ds_send_sends (env : Env) (s : DsState) (m : Msg) (len : Nat) :
    ∃ t, (ds_send env s m len).2 = { s with trace := s.trace ++ t } ∧ sends t = [m] := by
  obtain ⟨ws, hall, hsend⟩ := ds_send_spec env s m len
  refine ⟨ws ++ [Event.ds_send m len (ds_send env s m len).1], ?_, ?_⟩
  · rw [hsend]; simp
  · rw [sends_append, sends_write_attempts ws hall]; simp [sends]

theorem handler_call_trace (h : Handler) (env : Env) (s : DsState) (cp : Nat) (buf : Pkt)
    (len : Int) :
    ∃ t, (h.call env s cp buf len).trace = s.trace ++ t ∧
      (h.call env s cp buf len).ds_states = s.ds_states ∧
      ∀ m ∈ sends t, ∀ tag hd r, m ≠ Msg.data_nack tag hd r := by
  cases h with
  | md_update_data =>
    simp only [Handler.call, Ds.md_update_data, DsState.log]
    obtain ⟨t, ht, hs⟩ := ds_send_sends env s (Msg.md_update_res
      { tag := { type := DS_DATA,
                 len := sizeof_ds_data + sizeof_ds_md_update_res - sizeof_ds_msg_tag },
        handle := s.cap_handle cp } (buf.word64 0) DS_OK)
      (sizeof_ds_data + sizeof_ds_md_update_res)
    rw [ht]
    refine ⟨t ++ [Event.mdesc_update], by simp, rfl, ?_⟩
    intro m hm
    rw [sends_append, hs] at hm
    simp [sends] at hm
    subst hm
    intro _ _ _ hne; cases hne
  | domain_shutdown_data =>
    simp only [Handler.call, Ds.domain_shutdown_data, DsState.log]
    obtain ⟨t, ht, hs⟩ := ds_send_sends env s (Msg.shutdown_res
      { tag := { type := DS_DATA,
                 len := sizeof_ds_data + sizeof_ds_shutdown_res - sizeof_ds_msg_tag },
        handle := s.cap_handle cp } (buf.word64 0) DS_OK 0)
      (sizeof_ds_data + sizeof_ds_shutdown_res)
    rw [ht]
    refine ⟨t ++ [Event.wake_up_powerd], by simp, rfl, ?_⟩
    intro m hm
    rw [sends_append, hs] at hm
    simp [sends] at hm
    subst hm
    intro _ _ _ hne; cases hne
  | domain_panic_data =>
    simp only [Handler.call, Ds.domain_panic_data, DsState.log]
    obtain ⟨t, ht, hs⟩ := ds_send_sends env s (Msg.panic_res
      { tag := { type := DS_DATA,
                 len := sizeof_ds_data + sizeof_ds_panic_res - sizeof_ds_msg_tag },
        handle := s.cap_handle cp } (buf.word64 0) DS_OK 0)
      (sizeof_ds_data + sizeof_ds_panic_res)
    rw [ht]
    refine ⟨t ++ [Event.panic], by simp, rfl, ?_⟩
    intro m hm
    rw [sends_append, hs] at hm
    simp [sends] at hm
    subst hm
    intro _ _ _ hne; cases hne
  | dr_cpu_data =>
    simp only [Handler.call, Ds.dr_cpu_data, DsState.log]
    cases hk : env.kmalloc s.trace (16 + len).toNat
    · simp only [Bool.not_false, if_true]
      cases hf : find_cap_by_string s.ds_states "dr-cpu" with
      | none =>
        exact ⟨[Event.kmalloc (16 + len).toNat false], rfl, rfl, by simp [sends]⟩
      | some j =>
        simp only [__dr_cpu_send_error]
        obtain ⟨t, ht, hs⟩ := ds_send_sends env
          { s with trace := s.trace ++ [Event.kmalloc (16 + len).toNat false] }
          (Msg.dr_cpu
            { data := { tag := { type := DS_DATA,
                                 len := sizeof_ds_data + sizeof_dr_cpu_tag - sizeof_ds_msg_tag },
                        handle := ({ s with trace := s.trace ++
                          [Event.kmalloc (16 + len).toNat false] } : DsState).cap_handle j },
              tag := { req_num := buf.dr_cpu_tag.req_num, type := DR_CPU_ERROR,
                       num_records := 0 },
              ent := [] })
          (sizeof_ds_data + sizeof_dr_cpu_tag)
        rw [ht]
        refine ⟨[Event.kmalloc (16 + len).toNat false] ++ t, by simp, rfl, ?_⟩
        intro m hm
        rw [sends_append, hs] at hm
        simp [sends] at hm
        subst hm
        intro _ _ _ hne; cases hne
    · simp only [Bool.not_true, Bool.false_eq_true, if_false]
      refine ⟨[Event.kmalloc (16 + len).toNat true, Event.wake_up_dr_cpu_wait], ?_, ?_, ?_⟩
      · simp
      · trivial
      · simp [sends]
  | ds_pri_data =>
    exact ⟨[], by simp [Handler.call, Ds.ds_pri_data], rfl, by simp [sends]⟩
  | ds_var_data =>
    refine ⟨[], ?_, ?_, by simp [sends]⟩
    · simp only [Handler.call, Ds.ds_var_data]; split <;> simp
    · simp only [Handler.call, Ds.ds_var_data]; split <;> rfl

theorem cap_state_set (s : DsState) (i st : Nat) (hi : i < s.ds_states.length) :
    (s.set_cap_state i st).cap_state i = st := by
  unfold DsState.cap_state
  rw [set_cap_state_getElem?, List.getElem?_eq_getElem hi]
  simp

/-- C16, counterexample.  Capability 3 has the current handle `(3 << 32) | 77`
and state `RegistrationSent`; a `REG_ACK` carrying the handle `(3 << 32) | 5`,
whose nonce differs, is resolved to capability 3 and sets it Registered. -/
theorem stale_ack_accepted :
    sent_state.hs_state = DS_HS_DONE ∧
    sent_state.cap_handle 3 = (3 <<< 32) ||| 77 ∧
    stale_ack_pkt.handle = (3 <<< 32) ||| 5 ∧
    stale_ack_pkt.tag.type = DS_REG_ACK ∧
    sent_state.cap_state 3 = CAP_STATE_REG_SENT ∧
    find_cap sent_state.ds_states stale_ack_pkt.handle = some 3 ∧
    (ds_handshake env_ok sent_state stale_ack_pkt).2.cap_state 3 = CAP_STATE_REGISTERED := by
  decide

/-- C16, amended.  A handle is resolved by its index alone: for every table
index `i` and every 32-bit nonce `m`, whatever handle capability `i` currently
holds, a message carrying `(i << 32) | m` resolves to capability `i`; in phase
Done a `REG_ACK` sets that capability Registered and a `REG_NACK` sets it
Unknown, and a `DATA` message invokes that capability's `data` callback. -/
theorem handle_resolved_by_index (env : Env) (s : DsState) (pkt : Pkt) (i m : Nat)
    (hs : s.hs_state = DS_HS_DONE) (hlen : s.ds_states.length ≤ 2 ^ 32)
    (hi : i < s.ds_states.length) (hm : m < 2 ^ 32) (hp : pkt.handle = (i <<< 32) ||| m) :
    find_cap s.ds_states pkt.handle = some i ∧
    (pkt.tag.type = DS_REG_ACK →
      (ds_handshake env s pkt).2.cap_state i = CAP_STATE_REGISTERED) ∧
    (pkt.tag.type = DS_REG_NACK →
      (ds_handshake env s pkt).2.cap_state i = CAP_STATE_UNKNOWN) ∧
    (∀ (len : Int) (c : ds_cap_state), s.ds_states[i]? = some c →
      ds_data env s pkt len =
        ((0 : Int), c.data.call env (s.log (Event.data_handler i)) i pkt len) ∧
      Event.data_handler i ∈ (ds_data env s pkt len).2.trace) := by
  have hfind : find_cap s.ds_states pkt.handle = some i := by
    rw [hp]; exact find_cap_make _ i m hlen hi hm
  have hh : pkt.handle < 2 ^ 64 := by rw [hp]; exact handle_lt i m (by omega) hm
  have hidx : pkt.handle >>> 32 = i := by rw [hp]; exact handle_index i m hm
  refine ⟨hfind, ?_, ?_, ?_⟩
  · intro ht
    rw [ds_handshake_reg_ack env s pkt hs hh (by rw [hidx]; exact hi) ht, hidx]
    exact cap_state_set s i _ hi
  · intro ht
    rw [ds_handshake_reg_nack env s pkt hs hh (by rw [hidx]; exact hi) ht, hidx]
    exact cap_state_set s i _ hi
  · intro len c hc
    have hd := ds_data_resolved env s pkt len i c hfind hc
    refine ⟨hd, ?_⟩
    rw [hd]
    obtain ⟨t, ht, _⟩ := handler_call_trace c.data env (s.log (Event.data_handler i)) i pkt len
    simp only
    rw [ht]
    simp [DsState.log]

theorem handle_resolved_by_index_witness :
    sent_state.hs_state = DS_HS_DONE ∧ stale_ack_pkt.handle = (3 <<< 32) ||| 5 ∧
    find_cap sent_state.ds_states stale_ack_pkt.handle = some 3 :=
  ⟨by decide, by decide,
    (handle_resolved_by_index env_ok sent_state stale_ack_pkt 3 5 (by decide) (by decide)
      (by decide) (by decide) (by decide)).1⟩

theorem and_mask4 (x : Nat) (hx : x < 2 ^ 32) : x &&& 0xfffffffc = x / 4 * 4 := by
  have hm : (0xfffffffc : Nat) = (2 ^ 30 - 1) <<< 2 := by decide
  have hr : x / 4 * 4 = (x >>> 2) <<< 2 := by
    rw [Nat.shiftLeft_eq, Nat.shiftRight_eq_div_pow]
  rw [hr, hm]
  apply Nat.eq_of_testBit_eq
  intro i
  rw [Nat.testBit_and, Nat.testBit_shiftLeft, Nat.testBit_shiftLeft, Nat.testBit_shiftRight,
    Nat.testBit_two_pow_sub_one]
  by_cases h2 : 2 ≤ i
  · have e : 2 + (i - 2) = i := by omega
    rw [e]
    by_cases h32 : i < 32
    · simp [h2]; omega
    · have : x.testBit i = false := Nat.testBit_lt_two_pow
        (lt_of_lt_of_le hx (Nat.pow_le_pow_right (by norm_num) (by omega)))
      simp [this]
  · simp [h2]

theorem ldom_set_var_pkt_eq (handle : Nat) (var value : List Nat)
    (hfit : 20 + var.length + 1 + value.length + 1 ≤ 512) :
    ldom_set_var_pkt handle var value =
      (Msg.var_set
        { tag := { type := DS_DATA,
                   len := (20 + var.length + 1 + value.length + 1 + 3) / 4 * 4 - 8 },
          handle := handle }
        DS_VAR_SET_REQ
        (var ++ [0] ++ value ++ [0] ++ List.replicate
          ((20 + var.length + 1 + value.length + 1 + 3) / 4 * 4 -
            (20 + var.length + 1 + value.length + 1)) 0),
       (20 + var.length + 1 + value.length + 1 + 3) / 4 * 4) := by
  have hlen : (sizeof_ds_data + sizeof_ds_var_set_msg + (var.length + 1 + (value.length + 1)) + 3)
      &&& 0xfffffffc = (20 + var.length + 1 + value.length + 1 + 3) / 4 * 4 := by
    have e : sizeof_ds_data + sizeof_ds_var_set_msg + (var.length + 1 + (value.length + 1)) + 3
        = 20 + var.length + 1 + value.length + 1 + 3 := by
      simp only [sizeof_ds_data, sizeof_ds_var_set_msg]; omega
    rw [e]
    exact and_mask4 _ (by omega)
  generalize hT : (20 + var.length + 1 + value.length + 1 + 3) / 4 * 4 = total at hlen ⊢
  have hT1 : 20 + var.length + 1 + value.length + 1 ≤ total := by omega
  have hT2 : total ≤ 512 := by omega
  unfold ldom_set_var_pkt
  simp only [hlen]
  have hA : (var ++ [0]).length = var.length + 1 := by simp
  have hB : (value ++ [0]).length = value.length + 1 := by simp
  have h1 : strcpy (List.replicate (512 - (sizeof_ds_data + sizeof_ds_var_set_msg)) 0) 0 var =
      (var ++ [0]) ++ List.replicate (492 - (var.length + 1)) 0 := by
    simp only [strcpy, sizeof_ds_data, sizeof_ds_var_set_msg, List.take_zero, List.nil_append,
      Nat.zero_add, List.drop_replicate]
  rw [h1]
  have h2 : strcpy ((var ++ [0]) ++ List.replicate (492 - (var.length + 1)) 0)
      (var.length + 1) value =
      (var ++ [0]) ++ ((value ++ [0]) ++
        List.replicate (492 - (var.length + 1) - (value.length + 1)) 0) := by
    unfold strcpy
    have e1 : List.take (var.length + 1)
        ((var ++ [0]) ++ List.replicate (492 - (var.length + 1)) 0) = var ++ [0] :=
      List.take_left' hA
    have e2 : List.drop (var.length + 1 + value.length + 1)
        ((var ++ [0]) ++ List.replicate (492 - (var.length + 1)) 0) =
        List.replicate (492 - (var.length + 1) - (value.length + 1)) 0 := by
      have : var.length + 1 + value.length + 1 = (var ++ [0]).length + (value.length + 1) := by
        rw [hA]; omega
      rw [this, List.drop_append, List.drop_replicate]
    rw [e1, e2]
    simp
  rw [h2]
  have h3 : total - (sizeof_ds_data + sizeof_ds_var_set_msg) =
      (var ++ [0]).length + ((value ++ [0]).length +
        (total - (20 + var.length + 1 + value.length + 1))) := by
    rw [hA, hB]; simp only [sizeof_ds_data, sizeof_ds_var_set_msg]; omega
  rw [h3, List.take_append, List.take_append, List.take_replicate]
  have h4 : min (total - (20 + var.length + 1 + value.length + 1))
      (492 - (var.length + 1) - (value.length + 1)) =
      total - (20 + var.length + 1 + value.length + 1) := by omega
  rw [h4]
  simp [sizeof_ds_msg_tag]

/-! ## Every step only extends the trace -/

theorem register_service_trace (env : Env) (s : DsState) (i : Nat) :
    ∃ t, (register_service env s i).trace = s.trace ++ t := by
  unfold register_service
  cases hc : s.ds_states[i]? with
  | none => exact ⟨[], by simp⟩
  | some cp =>
    simp only
    split
    · exact ⟨[], by simp⟩
    · generalize hS : (s.log (Event.sched_clock (env.sched_clock s.trace))).set_cap_handle i
        ((((i % 2 ^ 64) <<< 32) % 2 ^ 64) ||| ((env.sched_clock s.trace % 2 ^ 64) &&& 0xffffffff))
        = S
      have hSt : S.trace = s.trace ++ [Event.sched_clock (env.sched_clock s.trace)] := by
        rw [← hS]; rfl
      obtain ⟨t, ht, _⟩ := ds_send_sends env S (reg_req_of cp
        ((((i % 2 ^ 64) <<< 32) % 2 ^ 64) ||| ((env.sched_clock s.trace % 2 ^ 64) &&& 0xffffffff)))
        (sizeof_ds_reg_req + cp.service_id.utf8ByteSize)
      rw [ht]
      refine ⟨[Event.sched_clock (env.sched_clock s.trace)] ++ t, ?_⟩
      split <;> simp [DsState.set_cap_state, hSt]

theorem register_services_trace (env : Env) (s : DsState) :
    ∃ t, (register_services env s).2.trace = s.trace ++ t := by
  unfold register_services
  simp only
  generalize List.range s.ds_states.length = l
  induction l generalizing s with
  | nil => exact ⟨[], by simp⟩
  | cons i l ih =>
    rw [List.foldl_cons]
    obtain ⟨t1, h1⟩ := register_service_trace env s i
    obtain ⟨t2, h2⟩ := ih (register_service env s i)
    exact ⟨t1 ++ t2, by rw [h2, h1]; simp⟩

theorem ds_handshake_trace (env : Env) (s : DsState) (pkt : Pkt) :
    ∃ t, (ds_handshake env s pkt).2.trace = s.trace ++ t := by
  unfold ds_handshake
  split_ifs
  · exact ⟨[], by simp [ds_conn_reset]⟩
  · exact register_services_trace env { s with hs_state := DS_HS_DONE }
  · exact ⟨[], by simp [ds_conn_reset]⟩
  · split <;> exact ⟨[], by simp [DsState.set_cap_state]⟩
  · split <;> exact ⟨[], by simp [DsState.set_cap_state]⟩
  · exact ⟨[], by simp⟩

theorem ds_data_trace (env : Env) (s : DsState) (pkt : Pkt) (len : Int) :
    ∃ t, (ds_data env s pkt len).2.trace = s.trace ++ t := by
  unfold ds_data
  cases hf : find_cap s.ds_states pkt.handle with
  | none =>
    simp only
    obtain ⟨t, ht, _⟩ := ds_send_sends env s (Msg.data_nack
      { type := DS_NACK, len := sizeof_ds_data_nack - sizeof_ds_msg_tag } pkt.handle DS_INV_HDL)
      sizeof_ds_data_nack
    exact ⟨t, by rw [ht]⟩
  | some cp =>
    simp only
    cases hc : s.ds_states[cp]? with
    | none => exact ⟨[], by simp⟩
    | some c =>
      simp only
      obtain ⟨t, ht, _⟩ := handler_call_trace c.data env (s.log (Event.data_handler cp)) cp pkt len
      exact ⟨[Event.data_handler cp] ++ t, by rw [ht]; simp [DsState.log]⟩

theorem ds_event_loop_trace (env : Env) (rx : List Rx) :
    ∀ s, ∃ t, (ds_event_loop env s rx).trace = s.trace ++ t := by
  induction rx with
  | nil => intro s; exact ⟨[], by simp [ds_event_loop]⟩
  | cons r rest ih =>
    intro s
    have htail : ∀ (R : Int × DsState), (∃ t, R.2.trace = s.trace ++ t) →
        ∃ t, (if R.1 = -ECONNRESET then R.2
          else if Event.panic ∈ R.2.trace then R.2
          else ds_event_loop env R.2 rest).trace = s.trace ++ t := by
      rintro R ⟨t1, h1⟩
      by_cases hc : R.1 = -ECONNRESET
      · rw [if_pos hc]; exact ⟨t1, h1⟩
      · rw [if_neg hc]
        by_cases hp : Event.panic ∈ R.2.trace
        · rw [if_pos hp]; exact ⟨t1, h1⟩
        · rw [if_neg hp]
          obtain ⟨t2, h2⟩ := ih R.2
          exact ⟨t1 ++ t2, by rw [h2, h1]; simp⟩
    rw [ds_event_loop]
    by_cases h1 : r.hdr_ret < 0
    · rw [if_pos h1]
      split <;> exact ⟨[], by simp [ds_conn_reset]⟩
    · rw [if_neg h1]
      by_cases h2 : r.hdr_ret = 0
      · rw [if_pos h2]; exact ⟨[], by simp⟩
      · rw [if_neg h2]
        by_cases h3 : r.body_ret < 0
        · rw [if_pos h3]
          split <;> exact ⟨[], by simp [ds_conn_reset]⟩
        · rw [if_neg h3]
          by_cases h4 : r.body_ret < (r.pkt.tag.len : Int)
          · rw [if_pos h4]; exact ⟨[], by simp⟩
          · rw [if_neg h4]
            by_cases h5 : r.pkt.tag.type < DS_DATA
            · simp only [if_pos h5]
              exact htail _ (ds_handshake_trace env s r.pkt)
            · simp only [if_neg h5]
              exact htail _ (ds_data_trace env s r.pkt _)

theorem ds_event_trace (env : Env) (s : DsState) (event : Int) (rx : List Rx) :
    ∃ t, (ds_event env s event rx).trace = s.trace ++ t := by
  unfold ds_event
  split_ifs
  · unfold ds_up
    obtain ⟨t, ht, _⟩ := ds_send_sends env s (Msg.ver_req
      { type := DS_INIT_REQ, len := sizeof_ds_ver_req - sizeof_ds_msg_tag } 1 0) sizeof_ds_ver_req
    simp only
    rw [ht]
    split <;> exact ⟨t, rfl⟩
  · exact ⟨[], by simp⟩
  · exact ds_event_loop_trace env rx s

theorem deliver_trace (env : Env) (s : DsState) :
    ∃ t, (deliver env s).trace = s.trace ++ t := by
  unfold deliver
  generalize env.irq s.trace = l
  induction l generalizing s with
  | nil => exact ⟨[], by simp⟩
  | cons ev l ih =>
    rw [List.foldl_cons]
    obtain ⟨t1, h1⟩ := ds_event_trace env s ev.1 ev.2
    obtain ⟨t2, h2⟩ := ih (ds_event env s ev.1 ev.2)
    exact ⟨t1 ++ t2, by rw [h2, h1]; simp⟩

theorem ldom_poll_trace (env : Env) :
    ∀ (n : Nat) (s : DsState), ∃ t, (ldom_poll env n s).trace = s.trace ++ t := by
  intro n
  induction n with
  | zero => intro s; exact ⟨[], by simp [ldom_poll]⟩
  | succ n ih =>
    intro s
    rw [ldom_poll]
    split
    · exact ⟨[], by simp⟩
    · obtain ⟨t1, h1⟩ := deliver_trace env (s.log (Event.udelay 100))
      obtain ⟨t2, h2⟩ := ih (ldom_wait env s)
      refine ⟨[Event.udelay 100] ++ t1 ++ t2, ?_⟩
      rw [h2]
      unfold ldom_wait
      rw [h1]
      simp [DsState.log]

theorem ldom_set_var_send_trace (env : Env) (s : DsState) (cp : Nat) (var value : List Nat) :
    ∃ (ws : List Event) (err : Int) (t : List Event), (∀ e ∈ ws, is_write_attempt e = true) ∧
      (ldom_set_var_send env s cp var value).2.trace = s.trace ++ ws ++
        [Event.ds_send (ldom_set_var_pkt (s.cap_handle cp) var value).1
          (ldom_set_var_pkt (s.cap_handle cp) var value).2 err] ++ t := by
  obtain ⟨ws, hall, hsend⟩ := ds_send_spec env
    { s with ds_var_doorbell := 0, ds_var_response := -1 }
    (ldom_set_var_pkt (s.cap_handle cp) var value).1
    (ldom_set_var_pkt (s.cap_handle cp) var value).2
  obtain ⟨t1, h1⟩ := deliver_trace env (ds_send env
    { s with ds_var_doorbell := 0, ds_var_response := -1 }
    (ldom_set_var_pkt (s.cap_handle cp) var value).1
    (ldom_set_var_pkt (s.cap_handle cp) var value).2).2
  obtain ⟨t2, h2⟩ := ldom_poll_trace env 1001 (deliver env (ds_send env
    { s with ds_var_doorbell := 0, ds_var_response := -1 }
    (ldom_set_var_pkt (s.cap_handle cp) var value).1
    (ldom_set_var_pkt (s.cap_handle cp) var value).2).2)
  refine ⟨ws, (ds_send env
    { s with ds_var_doorbell := 0, ds_var_response := -1 }
    (ldom_set_var_pkt (s.cap_handle cp) var value).1
    (ldom_set_var_pkt (s.cap_handle cp) var value).2).1, t1 ++ t2, hall, ?_⟩
  unfold ldom_set_var_send
  simp only
  rw [h2, h1, hsend]
  simp

/-! ## `ldom_set_var`: target and request -/

theorem ldom_target_cases (s : DsState) (i j : Nat)
    (hp : find_cap_by_string s.ds_states "var-config" = some i)
    (hb : find_cap_by_string s.ds_states "var-config-backup" = some j) :
    (s.cap_state i = CAP_STATE_REGISTERED → ldom_target s = some i) ∧
    (s.cap_state i ≠ CAP_STATE_REGISTERED → s.cap_state j = CAP_STATE_REGISTERED →
      ldom_target s = some j) ∧
    (s.cap_state i ≠ CAP_STATE_REGISTERED → s.cap_state j ≠ CAP_STATE_REGISTERED →
      ldom_target s = none) := by
  unfold ldom_target
  rw [hp]
  simp only
  refine ⟨fun h => ?_, fun h1 h2 => ?_, fun h1 h2 => ?_⟩
  · rw [if_neg (by simpa using h)]
    simp only [if_pos h]
  · rw [if_pos h1, hb]
    simp only [if_pos h2]
  · rw [if_pos h1, hb]
    simp only [if_neg h2]

/-- C11. With "var-config" at index `i` and "var-config-backup" at index `j`:
`ldom_set_var` chooses `i` when it is Registered, else `j` when that one is
Registered; the request handed to `ds_send` is the SET packet whose handle
field is the chosen capability's handle; when neither is Registered the call
returns with the whole state unchanged: nothing is sent, and the doorbell and
the stored response code are as before. -/
theorem ldom_set_var_target (env : Env) (s : DsState) (var value : List Nat) (i j : Nat)
    (hp : find_cap_by_string s.ds_states "var-config" = some i)
    (hb : find_cap_by_string s.ds_states "var-config-backup" = some j) :
    (s.cap_state i = CAP_STATE_REGISTERED → ldom_target s = some i) ∧
    (s.cap_state i ≠ CAP_STATE_REGISTERED → s.cap_state j = CAP_STATE_REGISTERED →
      ldom_target s = some j) ∧
    (∀ cp, ldom_target s = some cp →
      ∃ (ws : List Event) (err : Int) (t : List Event),
        (∀ e ∈ ws, is_write_attempt e = true) ∧
        (ldom_set_var env s var value).2.trace = s.trace ++ ws ++
          [Event.ds_send (ldom_set_var_pkt (s.cap_handle cp) var value).1
            (ldom_set_var_pkt (s.cap_handle cp) var value).2 err] ++ t) ∧
    (∀ h, ∃ (tag : ds_msg_tag) (nv : List Nat),
      (ldom_set_var_pkt h var value).1 =
        Msg.var_set { tag := tag, handle := h } DS_VAR_SET_REQ nv) ∧
    (s.cap_state i ≠ CAP_STATE_REGISTERED → s.cap_state j ≠ CAP_STATE_REGISTERED →
      ldom_set_var env s var value = (false, s)) := by
  obtain ⟨h1, h2, h3⟩ := ldom_target_cases s i j hp hb
  refine ⟨h1, h2, ?_, fun h => ⟨_, _, rfl⟩, ?_⟩
  · intro cp hcp
    obtain ⟨ws, err, t, hall, htr⟩ := ldom_set_var_send_trace env s cp var value
    refine ⟨ws, err, t, hall, ?_⟩
    unfold ldom_set_var
    rw [hcp]
    simp only
    rw [htr]
  · intro ha hb'
    unfold ldom_set_var
    rw [h3 ha hb']

theorem ldom_set_var_target_witness :
    find_cap_by_string var_state.ds_states "var-config" = some 5 ∧
    find_cap_by_string var_state.ds_states "var-config-backup" = some 6 ∧
    var_state.cap_state 5 = CAP_STATE_REGISTERED ∧
    ldom_target var_state = some 5 :=
  ⟨by decide, by decide, by decide,
    (ldom_set_var_target env_ok var_state [102, 111, 111] [98, 97, 114] 5 6 (by decide)
      (by decide)).1 (by decide)⟩

/-- C12. For a name and a value that fit the 512-byte packet, the request
`ldom_set_var` hands to `ds_send` has type `DS_DATA` and subtype
`DS_VAR_SET_REQ`; behind the subtype come the name bytes, a zero byte, the value
bytes, a zero byte, and then only zero padding; its length is
`20 + length(name) + 1 + length(value) + 1` rounded up to the next multiple of
4, and the header's `len` is that length minus 8. -/
theorem ldom_set_var_request (env : Env) (s : DsState) (var value : List Nat) (cp : Nat)
    (hfit : 20 + var.length + 1 + value.length + 1 ≤ 512)
    (ht : ldom_target s = some cp) :
    (∃ (ws : List Event) (err : Int) (t : List Event),
      (∀ e ∈ ws, is_write_attempt e = true) ∧
      (ldom_set_var env s var value).2.trace = s.trace ++ ws ++
        [Event.ds_send
          (Msg.var_set
            { tag := { type := DS_DATA,
                       len := (20 + var.length + 1 + value.length + 1 + 3) / 4 * 4 - 8 },
              handle := s.cap_handle cp }
            DS_VAR_SET_REQ
            (var ++ [0] ++ value ++ [0] ++ List.replicate
              ((20 + var.length + 1 + value.length + 1 + 3) / 4 * 4 -
                (20 + var.length + 1 + value.length + 1)) 0))
          ((20 + var.length + 1 + value.length + 1 + 3) / 4 * 4) err] ++ t) ∧
    (20 + var.length + 1 + value.length + 1 + 3) / 4 * 4 % 4 = 0 ∧
    20 + var.length + 1 + value.length + 1 ≤
      (20 + var.length + 1 + value.length + 1 + 3) / 4 * 4 ∧
    (20 + var.length + 1 + value.length + 1 + 3) / 4 * 4 <
      20 + var.length + 1 + value.length + 1 + 4 := by
  refine ⟨?_, by omega, by omega, by omega⟩
  obtain ⟨ws, err, t, hall, htr⟩ := ldom_set_var_send_trace env s cp var value
  refine ⟨ws, err, t, hall, ?_⟩
  unfold ldom_set_var
  rw [ht]
  simp only
  rw [htr, ldom_set_var_pkt_eq _ var value hfit]

theorem ldom_set_var_request_witness :
    20 + [102, 111, 111].length + 1 + [98, 97].length + 1 ≤ 512 ∧
    ldom_target var_state = some 5 ∧
    (20 + [102, 111, 111].length + 1 + [98, 97].length + 1 + 3) / 4 * 4 = 28 ∧
    sends (ldom_set_var (env_resp 0) var_state [102, 111, 111] [98, 97]).2.trace =
      [Msg.var_set { tag := { type := DS_DATA, len := 20 }, handle := (5 <<< 32) ||| 9 }
        DS_VAR_SET_REQ [102, 111, 111, 0, 98, 97, 0, 0]] ∧
    (20 + [102, 111, 111].length + 1 + [98, 97].length + 1 + 3) / 4 * 4 % 4 = 0 :=
  ⟨by decide, by decide, by decide, by decide,
    (ldom_set_var_request (env_resp 0) var_state [102, 111, 111] [98, 97] 5 (by decide)
      (by decide)).2.1⟩

/-! ## `ldom_set_var`: the poll loop -/

theorem ldom_poll_found (env : Env) :
    ∀ (n k : Nat) (s : DsState), k ≤ n →
      (∀ j, j < k → (Nat.iterate (ldom_wait env) j s).ds_var_doorbell = 0) →
      (Nat.iterate (ldom_wait env) k s).ds_var_doorbell ≠ 0 →
      ldom_poll env n s = Nat.iterate (ldom_wait env) k s := by
  intro n
  induction n with
  | zero =>
    intro k s hk _ _
    have : k = 0 := by omega
    subst this
    rfl
  | succ n ih =>
    intro k s hk hz hnz
    cases k with
    | zero =>
      have hnz' : s.ds_var_doorbell ≠ 0 := hnz
      rw [ldom_poll, if_pos hnz']
      rfl
    | succ k =>
      have h0 : s.ds_var_doorbell = 0 := hz 0 (by omega)
      rw [ldom_poll, if_neg (by simpa using h0)]
      rw [Function.iterate_succ_apply]
      apply ih k (ldom_wait env s) (by omega)
      · intro j hj
        have := hz (j + 1) (by omega)
        rwa [Function.iterate_succ_apply] at this
      · rwa [Function.iterate_succ_apply] at hnz

theorem ldom_poll_timeout (env : Env) :
    ∀ (n : Nat) (s : DsState),
      (∀ j, j ≤ n → (Nat.iterate (ldom_wait env) j s).ds_var_doorbell = 0) →
      ldom_poll env n s = Nat.iterate (ldom_wait env) n s := by
  intro n
  induction n with
  | zero => intro s _; rfl
  | succ n ih =>
    intro s hz
    have h0 : s.ds_var_doorbell = 0 := hz 0 (by omega)
    rw [ldom_poll, if_neg (by simpa using h0), Function.iterate_succ_apply]
    apply ih
    intro j hj
    have := hz (j + 1) (by omega)
    rwa [Function.iterate_succ_apply] at this

theorem ldom_wait_quiet (env : Env) (hq : ∀ t, env.irq t = []) :
    ∀ (k : Nat) (s : DsState), Nat.iterate (ldom_wait env) k s =
      { s with trace := s.trace ++ List.replicate k (Event.udelay 100) } := by
  intro k
  induction k with
  | zero => intro s; simp
  | succ k ih =>
    intro s
    rw [Function.iterate_succ_apply, ih]
    simp only [ldom_wait, deliver, hq, List.foldl_nil, DsState.log, List.replicate_succ]
    simp

theorem ldom_wait_response (env : Env) (s1 : DsState) (rx : Rx) (i : Nat) (c : ds_cap_state)
    (hirq : env.irq (s1.trace ++ [Event.udelay 100]) = [(LDC_EVENT_DATA_READY, [rx])])
    (hhdr : 0 < rx.hdr_ret) (hbody : (rx.pkt.tag.len : Int) ≤ rx.body_ret)
    (htype : DS_DATA ≤ rx.pkt.tag.type)
    (hfind : find_cap s1.ds_states rx.pkt.handle = some i)
    (hc : s1.ds_states[i]? = some c) (hd : c.data = Handler.ds_var_data)
    (hsub : rx.pkt.word 0 = DS_VAR_SET_RESP ∨ rx.pkt.word 0 = DS_VAR_DELETE_RESP) :
    (ldom_wait env s1).ds_var_doorbell = 1 ∧
    (ldom_wait env s1).ds_var_response = u32_to_int (rx.pkt.word 1) := by
  have hb0 : (0 : Int) ≤ rx.body_ret := le_trans (Int.ofNat_nonneg _) hbody
  have hdata : ds_data env (s1.log (Event.udelay 100)) rx.pkt
      ((sizeof_ds_msg_tag : Int) + rx.body_ret) =
      ((0 : Int), { (s1.log (Event.udelay 100)).log (Event.data_handler i) with
        ds_var_response := u32_to_int (rx.pkt.word 1), ds_var_doorbell := 1 }) := by
    rw [ds_data_resolved env (s1.log (Event.udelay 100)) rx.pkt _ i c hfind hc, hd]
    simp only [Handler.call, Ds.ds_var_data]
    rw [if_neg (by intro hn; rcases hsub with h | h; exact hn.1 h; exact hn.2 h)]
  have hloop : ds_event_loop env (s1.log (Event.udelay 100)) [rx] =
      { (s1.log (Event.udelay 100)).log (Event.data_handler i) with
        ds_var_response := u32_to_int (rx.pkt.word 1), ds_var_doorbell := 1 } := by
    rw [ds_event_loop, if_neg (by omega), if_neg (by omega), if_neg (by omega),
      if_neg (by omega)]
    simp only [if_neg (Nat.not_lt.mpr htype), hdata]
    rw [if_neg (by decide)]
    split <;> rfl
  have hw : ldom_wait env s1 =
      { (s1.log (Event.udelay 100)).log (Event.data_handler i) with
        ds_var_response := u32_to_int (rx.pkt.word 1), ds_var_doorbell := 1 } := by
    unfold ldom_wait deliver
    have : (s1.log (Event.udelay 100)).trace = s1.trace ++ [Event.udelay 100] := rfl
    rw [this, hirq]
    simp only [List.foldl_cons, List.foldl_nil, ds_event]
    rw [if_neg (by decide), if_neg (by simp)]
    exact hloop
  rw [hw]
  exact ⟨rfl, rfl⟩

theorem ldom_set_var_unfold (env : Env) (s : DsState) (var value : List Nat) (cp : Nat)
    (ht : ldom_target s = some cp) :
    ldom_set_var env s var value =
      (decide (¬ ((ldom_poll env 1001 (ldom_sent env s cp var value)).ds_var_doorbell = 0 ∨
          (ldom_poll env 1001 (ldom_sent env s cp var value)).ds_var_response ≠
            (DS_VAR_SUCCESS : Int))),
        ldom_poll env 1001 (ldom_sent env s cp var value)) := by
  unfold ldom_set_var
  rw [ht]
  rfl

theorem ldom_report_failure (X : DsState) (h : X.ds_var_doorbell = 0) :
    decide (¬ (X.ds_var_doorbell = 0 ∨ X.ds_var_response ≠ (DS_VAR_SUCCESS : Int))) = false := by
  simp [h]

/-- C14. For a call of `ldom_set_var` that found a Registered capability `cp`,
with `ldom_sent` the state at the first check of the poll loop and `ldom_wait`
one wait of 100 microseconds (during which channel events are served):
the request is handed to `ds_send` in a state whose doorbell is 0 and whose
response code is -1; if the doorbell is first seen set at check `k ≤ 1001`, the
call ends in that state and reports success exactly when the stored response
code is `DS_VAR_SUCCESS`; if it is never seen set, the call reports failure
after 1001 waits and the doorbell is still 0; on a channel where nothing
arrives the trace ends with exactly 1001 `udelay(100)`; and a wait during which
one SET- or DELETE-response for a variable-config capability is handled sets
the doorbell and stores that response's result. -/
theorem ldom_set_var_outcome (env : Env) (s : DsState) (var value : List Nat) (cp : Nat)
    (ht : ldom_target s = some cp) :
    (∃ (ws : List Event) (err : Int), (∀ e ∈ ws, is_write_attempt e = true) ∧
      ldom_sent env s cp var value =
        deliver env { s with ds_var_doorbell := 0, ds_var_response := -1,
                             trace := s.trace ++ ws ++
                               [Event.ds_send (ldom_set_var_pkt (s.cap_handle cp) var value).1
                                 (ldom_set_var_pkt (s.cap_handle cp) var value).2 err] }) ∧
    (∀ k, k ≤ 1001 →
      (∀ j, j < k →
        (Nat.iterate (ldom_wait env) j (ldom_sent env s cp var value)).ds_var_doorbell = 0) →
      (Nat.iterate (ldom_wait env) k (ldom_sent env s cp var value)).ds_var_doorbell ≠ 0 →
      (ldom_set_var env s var value).2 =
        Nat.iterate (ldom_wait env) k (ldom_sent env s cp var value) ∧
      ((ldom_set_var env s var value).1 = true ↔
        (Nat.iterate (ldom_wait env) k (ldom_sent env s cp var value)).ds_var_response =
          (DS_VAR_SUCCESS : Int))) ∧
    ((∀ j, j ≤ 1001 →
        (Nat.iterate (ldom_wait env) j (ldom_sent env s cp var value)).ds_var_doorbell = 0) →
      ldom_set_var env s var value =
        (false, Nat.iterate (ldom_wait env) 1001 (ldom_sent env s cp var value)) ∧
      (ldom_set_var env s var value).2.ds_var_doorbell = 0) ∧
    ((∀ t, env.irq t = []) →
      ∃ (ws : List Event) (err : Int), (∀ e ∈ ws, is_write_attempt e = true) ∧
        ldom_set_var env s var value =
          (false, { s with ds_var_doorbell := 0, ds_var_response := -1,
                           trace := s.trace ++ ws ++
                             [Event.ds_send (ldom_set_var_pkt (s.cap_handle cp) var value).1
                               (ldom_set_var_pkt (s.cap_handle cp) var value).2 err] ++
                             List.replicate 1001 (Event.udelay 100) })) ∧
    (∀ (s1 : DsState) (rx : Rx) (i : Nat) (c : ds_cap_state),
      env.irq (s1.trace ++ [Event.udelay 100]) = [(LDC_EVENT_DATA_READY, [rx])] →
      0 < rx.hdr_ret → (rx.pkt.tag.len : Int) ≤ rx.body_ret → DS_DATA ≤ rx.pkt.tag.type →
      find_cap s1.ds_states rx.pkt.handle = some i → s1.ds_states[i]? = some c →
      c.data = Handler.ds_var_data →
      (rx.pkt.word 0 = DS_VAR_SET_RESP ∨ rx.pkt.word 0 = DS_VAR_DELETE_RESP) →
      (ldom_wait env s1).ds_var_doorbell = 1 ∧
      (ldom_wait env s1).ds_var_response = u32_to_int (rx.pkt.word 1)) := by
  obtain ⟨ws, hall, hsend⟩ := ds_send_spec env
    { s with ds_var_doorbell := 0, ds_var_response := -1 }
    (ldom_set_var_pkt (s.cap_handle cp) var value).1
    (ldom_set_var_pkt (s.cap_handle cp) var value).2
  generalize (ds_send env { s with ds_var_doorbell := 0, ds_var_response := -1 }
    (ldom_set_var_pkt (s.cap_handle cp) var value).1
    (ldom_set_var_pkt (s.cap_handle cp) var value).2).1 = err0 at hsend
  have hsent : ldom_sent env s cp var value =
      deliver env { s with ds_var_doorbell := 0, ds_var_response := -1,
                           trace := s.trace ++ ws ++
                             [Event.ds_send (ldom_set_var_pkt (s.cap_handle cp) var value).1
                               (ldom_set_var_pkt (s.cap_handle cp) var value).2 err0] } := by
    unfold ldom_sent
    rw [hsend]
  have hunf := ldom_set_var_unfold env s var value cp ht
  refine ⟨⟨ws, err0, hall, hsent⟩, ?_, ?_, ?_, ?_⟩
  · intro k hk hz hnz
    have hp := ldom_poll_found env 1001 k (ldom_sent env s cp var value) hk hz hnz
    rw [hunf, hp]
    refine ⟨rfl, ?_⟩
    simp only [decide_eq_true_eq, not_or, not_not]
    exact ⟨fun h => h.2, fun h => ⟨hnz, h⟩⟩
  · intro hz
    have hp := ldom_poll_timeout env 1001 (ldom_sent env s cp var value) hz
    have h0 := hz 1001 (le_refl _)
    rw [hunf, hp]
    generalize Nat.iterate (ldom_wait env) 1001 (ldom_sent env s cp var value) = X at h0 ⊢
    refine ⟨?_, h0⟩
    exact Prod.ext (ldom_report_failure X h0) rfl
  · intro hq
    have hdel : ∀ x : DsState, deliver env x = x := by
      intro x; simp [deliver, hq]
    rw [hdel] at hsent
    have hit := ldom_wait_quiet env hq
    have hz : ∀ j, j ≤ 1001 →
        (Nat.iterate (ldom_wait env) j (ldom_sent env s cp var value)).ds_var_doorbell = 0 := by
      intro j _
      rw [hit j, hsent]
    have hp := ldom_poll_timeout env 1001 (ldom_sent env s cp var value) hz
    have h0 := hz 1001 (le_refl _)
    have h3 : ldom_set_var env s var value =
        (false, Nat.iterate (ldom_wait env) 1001 (ldom_sent env s cp var value)) := by
      rw [hunf, hp]
      generalize Nat.iterate (ldom_wait env) 1001 (ldom_sent env s cp var value) = X at h0 ⊢
      exact Prod.ext (ldom_report_failure X h0) rfl
    refine ⟨ws, err0, hall, ?_⟩
    rw [h3, hit 1001, hsent]
  · intro s1 rx i c hirq hhdr hbody htype hfind hc hd hsub
    exact ldom_wait_response env s1 rx i c hirq hhdr hbody htype hfind hc hd hsub

theorem ldom_set_var_outcome_witness :
    ldom_target var_state = some 5 ∧
    (ldom_set_var (env_resp 0) var_state [102, 111, 111] [98, 97, 114]).2 =
      Nat.iterate (ldom_wait (env_resp 0)) 3
        (ldom_sent (env_resp 0) var_state 5 [102, 111, 111] [98, 97, 114]) ∧
    (ldom_set_var (env_resp 0) var_state [102, 111, 111] [98, 97, 114]).1 = true ∧
    (ldom_set_var (env_resp 2) var_state [102, 111, 111] [98, 97, 114]).1 = false :=
  ⟨by decide,
    ((ldom_set_var_outcome (env_resp 0) var_state [102, 111, 111] [98, 97, 114] 5
      (by decide)).2.1 3 (by decide) (by decide) (by decide)).1,
    by decide, by decide⟩

/-! ## The receive loop: short payload reads -/

theorem ds_event_loop_short (env : Env) (rx : Rx) (rest : List Rx)
    (hb : rx.body_ret < (rx.pkt.tag.len : Int)) :
    ∀ (pre : List Rx) (s : DsState),
      ds_event_loop env s (pre ++ rx :: rest) = ds_event_loop env s pre := by
  intro pre
  induction pre with
  | nil =>
    intro s
    simp only [List.nil_append, ds_event_loop, ds_conn_reset]
    by_cases h1 : rx.hdr_ret < 0
    · simp [h1]
    · by_cases h2 : rx.hdr_ret = 0
      · simp [h2]
      · by_cases h3 : rx.body_ret < 0
        · simp [h1, h2, h3]
        · simp [h1, h2, h3, hb]
  | cons a pre ih =>
    intro s
    simp only [List.cons_append, ds_event_loop]
    by_cases h1 : a.hdr_ret < 0
    · simp only [if_pos h1]
    · by_cases h2 : a.hdr_ret = 0
      · simp only [if_neg h1, if_pos h2]
      · by_cases h3 : a.body_ret < 0
        · simp only [if_neg h1, if_neg h2, if_pos h3]
        · by_cases h4 : a.body_ret < (a.pkt.tag.len : Int)
          · simp only [if_neg h1, if_neg h2, if_neg h3, if_pos h4]
          · simp only [if_neg h1, if_neg h2, if_neg h3, if_neg h4]
            split_ifs <;> first | rfl | exact ih _

/-- C21. In the receive loop of `ds_event`, an iteration whose payload read
returns less than the length declared in the header ends the loop (if the
header read already failed or returned 0 the loop ended before the payload
read): from any state `s` the loop over that message and whatever follows it on
the channel returns `s` itself, so the trace has no new entry (no
`data_handler` marker, no `ds_send`), and the handshake phase and the
capability table are those of `s`; and a batch in which the message comes after
the messages `pre` ends as the batch `pre` alone does. -/
theorem ds_event_short_read (env : Env) (s : DsState) (pre : List Rx) (rx : Rx) (rest : List Rx)
    (hb : rx.body_ret < (rx.pkt.tag.len : Int)) :
    ds_event_loop env s (rx :: rest) = s ∧
    ds_event env s LDC_EVENT_DATA_READY (rx :: rest) = s ∧
    (ds_event env s LDC_EVENT_DATA_READY (rx :: rest)).trace = s.trace ∧
    (ds_event env s LDC_EVENT_DATA_READY (rx :: rest)).hs_state = s.hs_state ∧
    (ds_event env s LDC_EVENT_DATA_READY (rx :: rest)).ds_states = s.ds_states ∧
    ds_event env s LDC_EVENT_DATA_READY (pre ++ rx :: rest) =
      ds_event env s LDC_EVENT_DATA_READY pre := by
  have h0 : ds_event_loop env s (rx :: rest) = s := by
    have := ds_event_loop_short env rx rest hb [] s
    simpa [ds_event_loop] using this
  have h1 : ds_event env s LDC_EVENT_DATA_READY (rx :: rest) = s := by
    unfold ds_event
    rw [if_neg (by decide), if_neg (by simp), h0]
  refine ⟨h0, h1, by rw [h1], by rw [h1], by rw [h1], ?_⟩
  unfold ds_event
  rw [if_neg (by decide), if_neg (by simp), if_neg (by decide), if_neg (by simp)]
  exact ds_event_loop_short env rx rest hb pre s

theorem ds_event_short_read_witness :
    short_rx.body_ret < (short_rx.pkt.tag.len : Int) ∧
    ds_event env_ok init_state LDC_EVENT_DATA_READY [short_rx, full_rx shutdown_data_pkt] =
      init_state ∧
    ds_event env_ok init_state LDC_EVENT_DATA_READY [full_rx shutdown_data_pkt] ≠ init_state :=
  ⟨by decide,
    (ds_event_short_read env_ok init_state [] short_rx [full_rx shutdown_data_pkt]
      (by decide)).2.1,
    by decide⟩

/-! ## `purge_dups`: first occurrences -/

theorem mem_take_iff (l : List Nat) (n c : Nat) :
    c ∈ l.take n ↔ ∃ i, i < n ∧ l[i]? = some c := by
  rw [List.mem_iff_getElem?]
  constructor
  · rintro ⟨i, hi⟩
    rw [List.getElem?_take] at hi
    by_cases h : i < n
    · rw [if_pos h] at hi; exact ⟨i, h, hi⟩
    · rw [if_neg h] at hi; cases hi
  · rintro ⟨i, h, hi⟩
    exact ⟨i, by rw [List.getElem?_take, if_pos h]; exact hi⟩

theorem filter_sublist_of_marked (S : Nat) :
    ∀ (O L : List Nat), O.length = L.length →
      (∀ j : Nat, O[j]? = L[j]? ∨ O[j]? = some S) →
      List.Sublist (O.filter (fun c => c ≠ S)) L := by
  intro O
  induction O with
  | nil => intro L _ _; simp
  | cons o O ih =>
    intro L hlen hpt
    cases L with
    | nil => simp at hlen
    | cons l L =>
      have htail : List.Sublist (O.filter (fun c => c ≠ S)) L := by
        apply ih L (by simpa using hlen)
        intro j
        have := hpt (j + 1)
        simpa using this
      by_cases ho : o = S
      · rw [List.filter_cons_of_neg (by simpa using ho)]
        exact List.Sublist.cons _ htail
      · rw [List.filter_cons_of_pos (by simpa using ho)]
        have h0 := hpt 0
        simp only [List.getElem?_cons_zero, Option.some.injEq] at h0
        rcases h0 with h0 | h0
        · subst h0; exact List.Sublist.cons₂ _ htail
        · exact absurd h0 ho

/-- C22. For a list with at least `n` entries, `purge_dups list n` has the
length of `list`; an entry among the first `n` that equals no earlier entry
stays in place; an entry among the first `n` that equals an earlier entry is
`CPU_SENTINEL` in the result; the entries from `n` on are untouched.
Consequently the entries of the result (among the first `n`) that are not the
sentinel are pairwise distinct, form a sublist of the input in its order, and
are exactly the values of the first `n` input entries other than the sentinel.
And `[3, 5, 3, 7, 5]` becomes `[3, 5, S, 7, S]`. -/
theorem purge_dups_first_occurrences (list : List Nat) (n : Nat) (hn : n ≤ list.length) :
    (purge_dups list n).length = list.length ∧
    (∀ j, j < n → (∀ i, i < j → list[i]? ≠ list[j]?) → (purge_dups list n)[j]? = list[j]?) ∧
    (∀ j, j < n → (∃ i, i < j ∧ list[i]? = list[j]?) →
      (purge_dups list n)[j]? = some CPU_SENTINEL) ∧
    (∀ j, n ≤ j → (purge_dups list n)[j]? = list[j]?) ∧
    (((purge_dups list n).take n).filter (fun c => c ≠ CPU_SENTINEL)).Nodup ∧
    List.Sublist (((purge_dups list n).take n).filter (fun c => c ≠ CPU_SENTINEL))
      (list.take n) ∧
    (∀ c, c ∈ ((purge_dups list n).take n).filter (fun c => c ≠ CPU_SENTINEL) ↔
      (c ≠ CPU_SENTINEL ∧ c ∈ list.take n)) ∧
    purge_dups [3, 5, 3, 7, 5] 5 = [3, 5, CPU_SENTINEL, 7, CPU_SENTINEL] := by
  obtain ⟨hlen, hget⟩ := purge_dups_getElem? list n hn
  have hfirst : ∀ j, j < n → (∀ i, i < j → list[i]? ≠ list[j]?) →
      (purge_dups list n)[j]? = list[j]? := by
    intro j _ hno
    apply (hget j).2
    rintro ⟨_, i, _, hij, heq, _⟩
    exact hno i hij heq
  have hrep : ∀ j, j < n → (∃ i, i < j ∧ list[i]? = list[j]?) →
      (purge_dups list n)[j]? = some CPU_SENTINEL := by
    rintro j hj ⟨i, hij, heq⟩
    by_cases hS : list[j]? = some CPU_SENTINEL
    · rw [← hS]
      apply (hget j).2
      rintro ⟨_, _, _, _, _, hne⟩
      exact hne hS
    · exact (hget j).1 ⟨hj, i, by omega, hij, heq, hS⟩
  have hpt : ∀ j : Nat, (purge_dups list n)[j]? = list[j]? ∨
      (purge_dups list n)[j]? = some CPU_SENTINEL := by
    intro j
    by_cases h : repeats_before list n n j
    · exact Or.inr ((hget j).1 h)
    · exact Or.inl ((hget j).2 h)
  refine ⟨hlen, hfirst, hrep, ?_, ?_, ?_, ?_, by decide⟩
  · intro j hj
    apply (hget j).2
    rintro ⟨h, _⟩
    omega
  · rw [List.Nodup, List.pairwise_filter, List.pairwise_iff_getElem]
    intro i j hi hj hij hi' hj' heq
    have hjn : j < n := by
      rw [List.length_take] at hj
      omega
    have hin : i < n := by omega
    have ei : (purge_dups list n)[i]? = some ((List.take n (purge_dups list n))[i]) := by
      rw [← List.getElem?_eq_getElem hi, List.getElem?_take, if_pos hin]
    have ej : (purge_dups list n)[j]? = some ((List.take n (purge_dups list n))[j]) := by
      rw [← List.getElem?_eq_getElem hj, List.getElem?_take, if_pos hjn]
    have ni : ¬ repeats_before list n n i := by
      intro h
      rw [(hget i).1 h] at ei
      exact hi' (Option.some.inj ei).symm
    have nj : ¬ repeats_before list n n j := by
      intro h
      rw [(hget j).1 h] at ej
      exact hj' (Option.some.inj ej).symm
    rw [(hget i).2 ni] at ei
    rw [(hget j).2 nj] at ej
    apply nj
    refine ⟨hjn, i, hin, hij, ?_, ?_⟩
    · rw [ei, ej, heq]
    · rw [ej]
      intro h
      exact hj' (Option.some.inj h)
  · apply filter_sublist_of_marked
    · rw [List.length_take, List.length_take, hlen]
    · intro j
      rw [List.getElem?_take, List.getElem?_take]
      by_cases h : j < n
      · rw [if_pos h, if_pos h]; exact hpt j
      · rw [if_neg h, if_neg h]; exact Or.inl rfl
  · intro c
    rw [List.mem_filter, mem_take_iff, mem_take_iff]
    constructor
    · rintro ⟨hex, hc⟩
      have hc' : c ≠ CPU_SENTINEL := by simpa using hc
      exact ⟨hc', (purge_dups_first list n hn c hc').1 hex⟩
    · rintro ⟨hc, hex⟩
      exact ⟨(purge_dups_first list n hn c hc).2 hex, by simpa using hc⟩

theorem purge_dups_first_occurrences_witness :
    5 ≤ [3, 5, 3, 7, 5, 5].length ∧
    purge_dups [3, 5, 3, 7, 5, 5] 5 = [3, 5, CPU_SENTINEL, 7, CPU_SENTINEL, 5] ∧
    (((purge_dups [3, 5, 3, 7, 5, 5] 5).take 5).filter (fun c => c ≠ CPU_SENTINEL)) =
      [3, 5, 7] ∧
    (((purge_dups [3, 5, 3, 7, 5, 5] 5).take 5).filter (fun c => c ≠ CPU_SENTINEL)).Nodup :=
  ⟨by decide, by decide, by decide,
    (purge_dups_first_occurrences [3, 5, 3, 7, 5, 5] 5 (by decide)).2.2.2.2.1⟩

/-! ## The work queue of the CPU worker -/

theorem dr_cpu_data_accept (env : Env) (s : DsState) (dp : Nat) (buf : Pkt) (len : Int)
    (hk : env.kmalloc s.trace (16 + len).toNat = true) :
    dr_cpu_data env s dp buf len =
      { s with dr_cpu_work_list := s.dr_cpu_work_list ++ [buf],
               trace := s.trace ++
                 [Event.kmalloc (16 + len).toNat true, Event.wake_up_dr_cpu_wait] } := by
  unfold dr_cpu_data
  simp [hk, DsState.log]

theorem dr_cpu_data_refuse (env : Env) (s : DsState) (dp cp : Nat) (buf : Pkt) (len : Int)
    (hcp : find_cap_by_string s.ds_states "dr-cpu" = some cp)
    (hk : env.kmalloc s.trace (16 + len).toNat = false) :
    ∃ (ws : List Event) (err : Int), (∀ e ∈ ws, is_write_attempt e = true) ∧
      dr_cpu_data env s dp buf len =
        { s with trace := s.trace ++ [Event.kmalloc (16 + len).toNat false] ++ ws ++
          [Event.ds_send (Msg.dr_cpu (dr_cpu_error_pkt (s.cap_handle cp)
            buf.dr_cpu_tag.req_num)) 32 err] } := by
  obtain ⟨ws, err, hall, heq⟩ := __dr_cpu_send_error_spec env
    (s.log (Event.kmalloc (16 + len).toNat false)) cp buf
  refine ⟨ws, err, hall, ?_⟩
  unfold dr_cpu_data
  simp only [hk, Bool.not_false, if_true]
  have hcp' : find_cap_by_string (s.log (Event.kmalloc (16 + len).toNat false)).ds_states
      "dr-cpu" = some cp := hcp
  rw [hcp']
  simp only []
  rw [heq]
  rfl

theorem arrive_accepted (env : Env) (dp : Nat) :
    ∀ (reqs : List (Pkt × Int)) (s : DsState), all_accepted env dp s reqs = true →
      arrive env dp s reqs =
        { s with dr_cpu_work_list := s.dr_cpu_work_list ++ reqs.map Prod.fst,
                 trace := s.trace ++ arrival_trace reqs } := by
  intro reqs
  induction reqs with
  | nil => intro s _; simp [arrive, arrival_trace]
  | cons r rest ih =>
    intro s hacc
    simp only [all_accepted, Bool.and_eq_true] at hacc
    have h1 := dr_cpu_data_accept env s dp r.1 r.2 hacc.1
    have h2 := ih _ hacc.2
    simp only [arrive, List.foldl_cons] at h2 ⊢
    rw [h2, h1]
    simp [arrival_trace]

theorem sends_arrival_trace (reqs : List (Pkt × Int)) : sends (arrival_trace reqs) = [] := by
  induction reqs with
  | nil => rfl
  | cons r rest ih =>
    simp only [arrival_trace, List.map_cons, List.flatten_cons, sends_append] at ih ⊢
    rw [ih]
    simp [sends]

/-- One queue entry changes nothing but the trace, and the segment it adds
holds exactly one message for `ds_send`: the reply to that entry. -/
theorem process_entry_frame (env : Env) (cp : Nat) (s : DsState) (qp : Pkt) :
    ∃ (seg : List Event) (m : Msg),
      process_dr_cpu_entry env cp s qp = { s with trace := s.trace ++ seg } ∧
      sends seg = [m] ∧ answers env (s.cap_handle cp) qp m = true := by
  have herr : answers env (s.cap_handle cp) qp
      (Msg.dr_cpu (dr_cpu_error_pkt (s.cap_handle cp) qp.dr_cpu_tag.req_num)) = true := by
    simp [answers]
  have hresp : ∀ ent : List dr_cpu_resp_entry,
      ent.map (fun e => e.cpu) = for_each_cpu_mask (request_mask env qp) →
      answers env (s.cap_handle cp) qp
        (Msg.dr_cpu (dr_cpu_response (s.cap_handle cp) qp.dr_cpu_tag.req_num ent)) = true := by
    intro ent hent
    simp only [answers, Bool.or_eq_true, Bool.and_eq_true, decide_eq_true_eq]
    exact Or.inr ⟨rfl, hent⟩
  by_cases hc : qp.dr_cpu_tag.type = DR_CPU_CONFIGURE
  · rcases process_entry_configure env cp s qp hc with
      ⟨_, ws, err, hall, heq⟩ | ⟨_, outs, ws, err, houts, hall, heq⟩
    · refine ⟨_, _, by rw [heq, List.append_assoc, List.append_assoc], ?_, herr⟩
      simp only [sends_append, sends_write_attempts ws hall]
      simp [sends]
    · refine ⟨_, _, by rw [heq]; simp only [List.append_assoc]; rfl, ?_,
        hresp _ (configure_record_cpus _ outs houts)⟩
      simp only [sends_append, (configure_calls_flatten _ outs).1,
        sends_write_attempts ws hall]
      simp [sends]
  · by_cases hu : qp.dr_cpu_tag.type = DR_CPU_UNCONFIGURE ∨
        qp.dr_cpu_tag.type = DR_CPU_FORCE_UNCONFIGURE
    · rcases process_entry_unconfigure env cp s qp hu with
        ⟨_, ws, err, hall, heq⟩ | ⟨_, outs, ws, err, houts, hall, heq⟩
      · refine ⟨_, _, by rw [heq, List.append_assoc, List.append_assoc], ?_, herr⟩
        simp only [sends_append, sends_write_attempts ws hall]
        simp [sends]
      · refine ⟨_, _, by rw [heq]; simp only [List.append_assoc]; rfl, ?_,
          hresp _ (unconfigure_record_cpus _ outs houts)⟩
        simp only [sends_append, (unconfigure_calls_flatten _ outs).1,
          sends_write_attempts ws hall]
        simp [sends]
    · have ht : qp.dr_cpu_tag.type ≠ DR_CPU_CONFIGURE ∧
          qp.dr_cpu_tag.type ≠ DR_CPU_UNCONFIGURE ∧
          qp.dr_cpu_tag.type ≠ DR_CPU_FORCE_UNCONFIGURE :=
        ⟨hc, fun h => hu (Or.inl h), fun h => hu (Or.inr h)⟩
      obtain ⟨ws, err, hall, heq⟩ := process_entry_unknown env cp s qp ht
      refine ⟨_, _, by rw [heq, List.append_assoc], ?_, herr⟩
      simp only [sends_append, sends_write_attempts ws hall]
      simp [sends]

/-- A run over the entries `todo`: one trace segment per entry, in list order;
segment `i` is what handling entry `i` adds in the state reached after the
segments before it. -/
theorem process_entries_run (env : Env) (cp : Nat) :
    ∀ (todo : List Pkt) (s : DsState), ∃ segs : List (List Event),
      todo.foldl (process_dr_cpu_entry env cp) s =
        { s with trace := s.trace ++ segs.flatten } ∧
      segs.length = todo.length ∧
      ∀ (i : Nat) (qp : Pkt), todo[i]? = some qp → ∃ (seg : List Event) (m : Msg),
        segs[i]? = some seg ∧
        process_dr_cpu_entry env cp { s with trace := s.trace ++ (segs.take i).flatten } qp =
          { s with trace := s.trace ++ (segs.take i).flatten ++ seg } ∧
        sends seg = [m] ∧ answers env (s.cap_handle cp) qp m = true := by
  intro todo
  induction todo with
  | nil =>
    intro s
    refine ⟨[], by simp, rfl, ?_⟩
    intro i qp h
    simp at h
  | cons q rest ih =>
    intro s
    obtain ⟨seg0, m0, h0, hs0, ha0⟩ := process_entry_frame env cp s q
    obtain ⟨segs, hf, hl, hi⟩ := ih { s with trace := s.trace ++ seg0 }
    refine ⟨seg0 :: segs, ?_, by simp [hl], ?_⟩
    · rw [List.foldl_cons, h0, hf]
      simp [List.append_assoc]
    · intro i qp hq
      cases i with
      | zero =>
        simp only [List.getElem?_cons_zero, Option.some.injEq] at hq
        subst hq
        refine ⟨seg0, m0, by simp, ?_, hs0, ha0⟩
        simp only [List.take_zero, List.flatten_nil, List.append_nil]
        exact h0
      | succ i =>
        simp only [List.getElem?_cons_succ] at hq
        obtain ⟨seg, m, hseg, hstep, hss, hans⟩ := hi i qp hq
        refine ⟨seg, m, by simpa using hseg, ?_, hss, hans⟩
        simpa [List.append_assoc] using hstep

/-- A run over the entries `todo` hands to `ds_send` one reply per entry, in
list order. -/
theorem process_entries_replies (env : Env) (cp : Nat) :
    ∀ (todo : List Pkt) (s : DsState), ∃ ms : List Msg,
      sends (todo.foldl (process_dr_cpu_entry env cp) s).trace = sends s.trace ++ ms ∧
      List.Forall₂ (fun qp m => answers env (s.cap_handle cp) qp m = true) todo ms := by
  intro todo
  induction todo with
  | nil => intro s; exact ⟨[], by simp, List.Forall₂.nil⟩
  | cons q rest ih =>
    intro s
    obtain ⟨seg0, m0, h0, hs0, ha0⟩ := process_entry_frame env cp s q
    obtain ⟨ms, hm, hall⟩ := ih { s with trace := s.trace ++ seg0 }
    refine ⟨m0 :: ms, ?_, List.Forall₂.cons ha0 hall⟩
    rw [List.foldl_cons, h0, hm]
    simp [sends_append, hs0]

/-- C23. Let the messages `reqs` reach `dr_cpu_data` one after the other from
the state `s`, the queue-entry allocation succeeding for each.  Then they are
appended to the work list in arrival order and nothing is sent.  One run of
`process_dr_cpu_list` from any state `q` changes only the work list, which it
leaves empty, and the trace, to which it adds one segment per queue entry in
queue order; segment `i` is what handling entry `i` adds in the state reached
after the earlier segments, and it holds exactly one message for `ds_send`, the
reply to entry `i`.  So the run after the arrivals hands to `ds_send` one reply
per queued request, in the order of the queue.  A message whose queue-entry
allocation fails (in any state `q` whose table holds "dr-cpu" at `cp`) leaves
the work list and everything but the trace unchanged; the trace gets the failed
allocation and one `ds_send` of the error reply (`DR_CPU_ERROR`, `num_records`
0, the `req_num` of the message). -/
theorem dr_cpu_queue_fifo (env : Env) (s : DsState) (dp cp : Nat) (reqs : List (Pkt × Int))
    (hacc : all_accepted env dp s reqs = true) :
    arrive env dp s reqs =
      { s with dr_cpu_work_list := s.dr_cpu_work_list ++ reqs.map Prod.fst,
               trace := s.trace ++ arrival_trace reqs } ∧
    sends (arrive env dp s reqs).trace = sends s.trace ∧
    (∀ q : DsState, ∃ segs : List (List Event),
      process_dr_cpu_list env q cp =
        { q with dr_cpu_work_list := [], trace := q.trace ++ segs.flatten } ∧
      segs.length = q.dr_cpu_work_list.length ∧
      ∀ (i : Nat) (qp : Pkt), q.dr_cpu_work_list[i]? = some qp →
        ∃ (seg : List Event) (m : Msg), segs[i]? = some seg ∧
          process_dr_cpu_entry env cp
              { q with dr_cpu_work_list := [],
                       trace := q.trace ++ (segs.take i).flatten } qp =
            { q with dr_cpu_work_list := [],
                     trace := q.trace ++ (segs.take i).flatten ++ seg } ∧
          sends seg = [m] ∧ answers env (q.cap_handle cp) qp m = true) ∧
    (process_dr_cpu_list env (arrive env dp s reqs) cp).dr_cpu_work_list = [] ∧
    (∃ ms : List Msg,
      sends (process_dr_cpu_list env (arrive env dp s reqs) cp).trace = sends s.trace ++ ms ∧
      List.Forall₂ (fun qp m => answers env (s.cap_handle cp) qp m = true)
        (s.dr_cpu_work_list ++ reqs.map Prod.fst) ms) ∧
    (∀ (q : DsState) (buf : Pkt) (len : Int),
      find_cap_by_string q.ds_states "dr-cpu" = some cp →
      env.kmalloc q.trace (16 + len).toNat = false →
      ∃ (ws : List Event) (err : Int), (∀ e ∈ ws, is_write_attempt e = true) ∧
        dr_cpu_data env q dp buf len =
          { q with trace := q.trace ++ [Event.kmalloc (16 + len).toNat false] ++ ws ++
            [Event.ds_send (Msg.dr_cpu (dr_cpu_error_pkt (q.cap_handle cp)
              buf.dr_cpu_tag.req_num)) 32 err] } ∧
        (dr_cpu_error_pkt (q.cap_handle cp) buf.dr_cpu_tag.req_num).tag =
          { req_num := buf.dr_cpu_tag.req_num, type := DR_CPU_ERROR, num_records := 0 }) := by
  have harr := arrive_accepted env dp reqs s hacc
  have hrun : ∀ q : DsState, ∃ segs : List (List Event),
      process_dr_cpu_list env q cp =
        { q with dr_cpu_work_list := [], trace := q.trace ++ segs.flatten } ∧
      segs.length = q.dr_cpu_work_list.length ∧
      ∀ (i : Nat) (qp : Pkt), q.dr_cpu_work_list[i]? = some qp →
        ∃ (seg : List Event) (m : Msg), segs[i]? = some seg ∧
          process_dr_cpu_entry env cp
              { q with dr_cpu_work_list := [],
                       trace := q.trace ++ (segs.take i).flatten } qp =
            { q with dr_cpu_work_list := [],
                     trace := q.trace ++ (segs.take i).flatten ++ seg } ∧
          sends seg = [m] ∧ answers env (q.cap_handle cp) qp m = true := by
    intro q
    obtain ⟨segs, hf, hl, hi⟩ :=
      process_entries_run env cp q.dr_cpu_work_list { q with dr_cpu_work_list := [] }
    exact ⟨segs, hf, hl, hi⟩
  refine ⟨harr, ?_, hrun, ?_, ?_, ?_⟩
  · rw [harr]
    simp [sends_append, sends_arrival_trace]
  · obtain ⟨segs, hf, _, _⟩ := hrun (arrive env dp s reqs)
    rw [hf]
  · obtain ⟨ms, hm, hall⟩ := process_entries_replies env cp
      (arrive env dp s reqs).dr_cpu_work_list
      { arrive env dp s reqs with dr_cpu_work_list := [] }
    refine ⟨ms, ?_, ?_⟩
    · have h1 : process_dr_cpu_list env (arrive env dp s reqs) cp =
          (arrive env dp s reqs).dr_cpu_work_list.foldl (process_dr_cpu_entry env cp)
            { arrive env dp s reqs with dr_cpu_work_list := [] } := rfl
      rw [h1, hm, harr]
      simp [sends_append, sends_arrival_trace]
    · rw [harr] at hall
      exact hall
  · intro q buf len hcp hk
    obtain ⟨ws, err, hall, heq⟩ := dr_cpu_data_refuse env q dp cp buf len hcp hk
    exact ⟨ws, err, hall, heq, rfl⟩

theorem dr_cpu_queue_fifo_witness :
    all_accepted env_two 3 init_state two_reqs = true ∧
    (arrive env_two 3 init_state two_reqs).dr_cpu_work_list =
      [cpu_req DR_CPU_CONFIGURE, cpu_req2] ∧
    (process_dr_cpu_list env_two (arrive env_two 3 init_state two_reqs) 3).dr_cpu_work_list =
      [] ∧
    (sends (process_dr_cpu_list env_two (arrive env_two 3 init_state two_reqs) 3).trace).map
      (fun m => match m with
        | Msg.dr_cpu resp => (resp.tag.req_num, resp.tag.type, resp.ent.map (fun e => e.cpu))
        | _ => (0, 0, [])) = [(77, DR_CPU_OK, [3, 5, 7]), (78, DR_CPU_OK, [1, 2])] ∧
    find_cap_by_string init_state.ds_states "dr-cpu" = some 3 ∧
    env_two.kmalloc (arrive env_two 3 init_state two_reqs).trace 68 = false ∧
    (dr_cpu_data env_two (arrive env_two 3 init_state two_reqs) 3
      (cpu_req DR_CPU_STATUS) 52).dr_cpu_work_list = [cpu_req DR_CPU_CONFIGURE, cpu_req2] ∧
    sends (dr_cpu_data env_two (arrive env_two 3 init_state two_reqs) 3
      (cpu_req DR_CPU_STATUS) 52).trace = [Msg.dr_cpu (dr_cpu_error_pkt (3 <<< 32) 77)] :=
  ⟨by decide,
    congrArg DsState.dr_cpu_work_list
      (dr_cpu_queue_fifo env_two init_state 3 3 two_reqs (by decide)).1,
    by decide, by decide, by decide, by decide, by decide, by decide⟩

end Ds
